import Mathlib

/-!
# insdr-messenger: dispatch pipeline

A shallow embedding of the message dispatch pipeline of the repository:

* `internal/service/circuit_breaker.go`  (wrapper around `sony/gobreaker`)
* `internal/service/message_service.go`  (the dispatcher)
* `internal/repository/message_repository.go` (the message store client)
* `internal/models/message.go`
* `internal/service/health_service.go`   (the health report)
* `internal/scheduler/scheduler.go`, `internal/service/scheduler_service.go`
* `internal/handler/handler_impl.go`     (the arguments of the paginated listing)

The circuit breaker of the repository delegates to the library
`github.com/sony/gobreaker`; the namespace `gobreaker` below embeds the part of
that library the wrapper calls (`NewCircuitBreaker`, `Execute`, `State`,
`Counts` and the private helpers they use).

Conventions.  Time is an integer number of nanoseconds.  Every interaction
with the outside world (reading the clock, an HTTP round trip, a database
statement, a cache write) takes its outcome from an oracle of the environment
`Env`, indexed by the number of interactions made so far (`World.step`).
`uint32`/`uint64`/`int64` arithmetic is `Nat`/`Int` arithmetic with explicit
wrap-around.  The methods of the dispatcher and of the health service are
state-passing functions: a call runs to its end before the next one begins.
The scheduler, whose goroutines run beside its caller, is a transition system.
-/

namespace Messenger

/-! ## Go `float64` values

Only what `ReadyToTrip` needs: the quotient of two converted `uint32` values
and the comparison `>=`.  A finite value is `(-1)^neg * m * 2^e`. -/

/-- Values of Go's `float64`: NaN, the two infinities, and finite dyadic numbers. -/
inductive F64 where
  | nan
  | inf (neg : Bool)
  | fin (neg : Bool) (m : Nat) (e : Int)
  deriving DecidableEq, Repr

namespace F64

/-- The integer `(-1)^neg * m * 2^(e - lo)`, for `lo ≤ e`. -/
def scaled (neg : Bool) (m : Nat) (e lo : Int) : Int :=
  if neg then -((m * 2 ^ (e - lo).toNat : Nat) : Int) else ((m * 2 ^ (e - lo).toNat : Nat) : Int)

/-- Go's `a <= b` on `float64` (false as soon as one side is NaN). -/
def le : F64 → F64 → Bool
  | nan, _ => false
  | _, nan => false
  | inf true, _ => true
  | _, inf false => true
  | inf false, _ => false
  | _, inf true => false
  | fin n1 m1 e1, fin n2 m2 e2 =>
    decide (scaled n1 m1 e1 (min e1 e2) ≤ scaled n2 m2 e2 (min e1 e2))

/-- Go's `a >= b` on `float64`. -/
def ge (a b : F64) : Bool := le b a

/-- The float `1.0`: mantissa `2^52`, exponent `-52`. -/
def one : F64 := fin false 4503599627370496 (-52)

/-- The float `0.5`. -/
def half : F64 := fin false 1 (-1)

/-- The number of halvings that bring `x` below `2^53` (at most `fuel`). -/
def normShift : Nat → Nat → Nat
  | 0, _ => 0
  | fuel + 1, x => if x < 2 ^ 53 then 0 else normShift fuel (x / 2) + 1

/-- Round-to-nearest, ties-to-even, of the positive rational `f / q` to 53
significant bits (`f, q > 0`, both below `2^32`, so the result is a normal
number).  The quotient is scaled by `2^96`, so that its integer part has
between 65 and 128 bits; `shift` is the number of bits below the leading 53. -/
def roundDiv (f q : Nat) : F64 :=
  let n := f * 2 ^ 96
  let shift := normShift 128 (n / q)
  let d := q * 2 ^ shift
  let m0 := n / d
  let rem := n % d
  let m := if d < 2 * rem then m0 + 1
    else if 2 * rem = d then (if m0 % 2 = 0 then m0 else m0 + 1)
    else m0
  fin false m ((shift : Int) - 96)

/-- Go's `float64(f) / float64(q)` for `uint32` values `f` and `q`. -/
def divUInt32 (f q : Nat) : F64 :=
  if q = 0 then (if f = 0 then nan else inf false)
  else if f = 0 then fin false 0 0
  else roundDiv f q

end F64

/-! ## Go integers -/

/-- The `int64` (and, on 64-bit platforms, `int`) value of an integer result:
two's-complement wrap-around. -/
def wrapInt64 (x : Int) : Int := (x + 2 ^ 63) % 2 ^ 64 - 2 ^ 63

/-! ## Go errors -/

/-- Go `error` values: the sentinels of `gobreaker` and `context`, opaque
errors with a text, and errors built by `fmt.Errorf("...%w", inner)`. -/
inductive Err where
  | ErrOpenState
  | ErrTooManyRequests
  | Canceled
  | DeadlineExceeded
  | text (s : String)
  | wrapped (s : String) (inner : Err)
  deriving DecidableEq, Repr

namespace Err

/-- The method `Error()`. -/
def Error : Err → String
  | ErrOpenState => "circuit breaker is open"
  | ErrTooManyRequests => "too many requests"
  | Canceled => "context canceled"
  | DeadlineExceeded => "context deadline exceeded"
  | text s => s
  | wrapped s _ => s

/-- The function `errors.Is(e, target)` for a sentinel `target`. -/
def Is : Err → Err → Bool
  | wrapped s inner, target => decide (wrapped s inner = target) || Is inner target
  | e, target => decide (e = target)

/-- The call `fmt.Errorf(pre + ": %w", inner)`. -/
def wrapf (pre : String) (inner : Err) : Err :=
  wrapped (pre ++ ": " ++ inner.Error) inner

end Err

/-! ## The library `sony/gobreaker` -/

namespace gobreaker

/-- The type `gobreaker.State`. -/
inductive State where
  | StateClosed
  | StateHalfOpen
  | StateOpen
  deriving DecidableEq, Repr

/-- The type `gobreaker.Counts`; every field is a `uint32`. -/
structure Counts where
  Requests : Nat
  TotalSuccesses : Nat
  TotalFailures : Nat
  ConsecutiveSuccesses : Nat
  ConsecutiveFailures : Nat
  deriving DecidableEq, Repr

namespace Counts

/-- The method `onRequest`: `c.Requests++`. -/
def onRequest (c : Counts) : Counts :=
  { c with Requests := (c.Requests + 1) % 2 ^ 32 }

/-- The method `onSuccess`: `c.TotalSuccesses++; c.ConsecutiveSuccesses++;
c.ConsecutiveFailures = 0`. -/
def onSuccess (c : Counts) : Counts :=
  { c with
    TotalSuccesses := (c.TotalSuccesses + 1) % 2 ^ 32
    ConsecutiveSuccesses := (c.ConsecutiveSuccesses + 1) % 2 ^ 32
    ConsecutiveFailures := 0 }

/-- The method `onFailure`: `c.TotalFailures++; c.ConsecutiveFailures++;
c.ConsecutiveSuccesses = 0`. -/
def onFailure (c : Counts) : Counts :=
  { c with
    TotalFailures := (c.TotalFailures + 1) % 2 ^ 32
    ConsecutiveFailures := (c.ConsecutiveFailures + 1) % 2 ^ 32
    ConsecutiveSuccesses := 0 }

/-- The counts after the method `clear`. -/
def clear : Counts := ⟨0, 0, 0, 0, 0⟩

end Counts

/-- The type `gobreaker.Settings` (without name and `OnStateChange`, which only
logs, and with `IsSuccessful` fixed to `err == nil` as the repository sets it).
Durations are nanoseconds. -/
structure Settings where
  MaxRequests : Nat
  Interval : Int
  Timeout : Int
  ReadyToTrip : Counts → Bool

/-- The type `gobreaker.CircuitBreaker`.  `expiry = none` is the zero `time.Time`. -/
structure CircuitBreaker where
  maxRequests : Nat
  interval : Int
  timeout : Int
  readyToTrip : Counts → Bool
  state : State
  generation : Nat
  counts : Counts
  expiry : Option Int

/-- The default `Timeout` of the library: 60 seconds. -/
def defaultTimeout : Int := 60 * 1000000000

/-- The method `toNewGeneration`: `cb.generation++`, `cb.counts.clear()`, and
the expiry of the new generation: the end of the window in the Closed state
(the zero time when `interval == 0`), the end of the cool-down in the Open
state, the zero time in the Half-Open state. -/
def toNewGeneration (cb : CircuitBreaker) (now : Int) : CircuitBreaker :=
  { cb with
    generation := (cb.generation + 1) % 2 ^ 64
    counts := Counts.clear
    expiry :=
      match cb.state with
      | State.StateClosed => if cb.interval = 0 then none else some (now + cb.interval)
      | State.StateOpen => some (now + cb.timeout)
      | State.StateHalfOpen => none }

/-- The method `setState`: nothing when the state does not change, otherwise the
new state and a new generation (the `onStateChange` callback only logs). -/
def setState (cb : CircuitBreaker) (state : State) (now : Int) : CircuitBreaker :=
  if cb.state = state then cb
  else toNewGeneration { cb with state := state } now

/-- The test `cb.expiry.Before(now)`; the zero time is before every clock reading. -/
def expiryBefore (expiry : Option Int) (now : Int) : Bool :=
  match expiry with
  | none => true
  | some e => decide (e < now)

/-- The method `currentState`: in the Closed state a window that has expired
(`!cb.expiry.IsZero() && cb.expiry.Before(now)`) starts a new generation; in the
Open state an expired cool-down (`cb.expiry.Before(now)`) moves to Half-Open.
The result is the breaker after the call; the state and generation the method
returns are the fields of the result. -/
def currentState (cb : CircuitBreaker) (now : Int) : CircuitBreaker :=
  match cb.state with
  | State.StateClosed =>
    if cb.expiry.isSome && expiryBefore cb.expiry now then toNewGeneration cb now else cb
  | State.StateOpen =>
    if expiryBefore cb.expiry now then setState cb State.StateHalfOpen now else cb
  | State.StateHalfOpen => cb

/-- The function `NewCircuitBreaker`: `MaxRequests == 0` becomes 1, a
non-positive `Interval` becomes 0, a non-positive `Timeout` becomes 60 seconds;
the breaker starts Closed with `toNewGeneration(time.Now())`. -/
def NewCircuitBreaker (st : Settings) (now : Int) : CircuitBreaker :=
  toNewGeneration
    { maxRequests := if st.MaxRequests = 0 then 1 else st.MaxRequests
      interval := if st.Interval ≤ 0 then 0 else st.Interval
      timeout := if st.Timeout ≤ 0 then defaultTimeout else st.Timeout
      readyToTrip := st.ReadyToTrip
      state := State.StateClosed
      generation := 0
      counts := Counts.clear
      expiry := none }
    now

/-- The method `beforeRequest`: the breaker after the call, the generation, and the error. -/
def beforeRequest (cb : CircuitBreaker) (now : Int) : CircuitBreaker × Nat × Option Err :=
  let cb1 := currentState cb now
  if cb1.state = State.StateOpen then (cb1, cb1.generation, some Err.ErrOpenState)
  else if cb1.state = State.StateHalfOpen ∧ cb1.maxRequests ≤ cb1.counts.Requests then
    (cb1, cb1.generation, some Err.ErrTooManyRequests)
  else ({ cb1 with counts := cb1.counts.onRequest }, cb1.generation, none)

/-- The method `onSuccess` of the breaker: count the success; in the Half-Open
state close the breaker once `ConsecutiveSuccesses >= maxRequests`. -/
def onSuccess (cb : CircuitBreaker) (state : State) (now : Int) : CircuitBreaker :=
  match state with
  | State.StateClosed => { cb with counts := cb.counts.onSuccess }
  | State.StateHalfOpen =>
    let cb1 := { cb with counts := cb.counts.onSuccess }
    if cb1.maxRequests ≤ cb1.counts.ConsecutiveSuccesses then setState cb1 State.StateClosed now
    else cb1
  | State.StateOpen => cb

/-- The method `onFailure` of the breaker: in the Closed state count the failure
and open the breaker when `readyToTrip(cb.counts)`; in the Half-Open state
open the breaker. -/
def onFailure (cb : CircuitBreaker) (state : State) (now : Int) : CircuitBreaker :=
  match state with
  | State.StateClosed =>
    let cb1 := { cb with counts := cb.counts.onFailure }
    if cb1.readyToTrip cb1.counts then setState cb1 State.StateOpen now else cb1
  | State.StateHalfOpen => setState cb State.StateOpen now
  | State.StateOpen => cb

/-- The method `afterRequest`: the outcome is recorded only when the generation
is still the one `beforeRequest` returned. -/
def afterRequest (cb : CircuitBreaker) (before : Nat) (success : Bool) (now : Int) :
    CircuitBreaker :=
  let cb1 := currentState cb now
  if cb1.generation ≠ before then cb1
  else if success then onSuccess cb1 cb1.state now
  else onFailure cb1 cb1.state now

end gobreaker

/-! ## Data model (`internal/api`, `internal/models`, `internal/config`) -/

namespace api

/-- The type `api.MessageStatus` with its three constants. -/
inductive MessageStatus where
  | Pending
  | Sent
  | Failed
  deriving DecidableEq, Repr

/-- The type `api.HealthResponseCircuitBreakerState`. -/
inductive HealthResponseCircuitBreakerState where
  | Closed
  | HalfOpen
  | Open
  deriving DecidableEq, Repr

end api

namespace models

/-- The type `models.Message`, a row of table `messages`.  The `sql.Null*`
columns are options; `ID` is an `int64`; times are clock readings. -/
structure Message where
  ID : Int
  PhoneNumber : String
  Content : String
  Status : api.MessageStatus
  MessageID : Option String
  Error : Option String
  CreatedAt : Int
  SentAt : Option Int
  UpdatedAt : Int
  deriving DecidableEq, Repr

/-- The type `models.WebhookRequest`, the JSON body `to`, `content`. -/
structure WebhookRequest where
  To : String
  Content : String
  deriving DecidableEq, Repr

/-- The type `models.WebhookResponse`, decoded from the JSON fields `message`
and `messageId`; a field that the body lacks is the empty string. -/
structure WebhookResponse where
  Message : String
  MessageID : String
  deriving DecidableEq, Repr

end models

namespace config

/-- The type `config.CircuitBreakerConfig`: `uint32` counts, `int` seconds,
and a `float64` ratio. -/
structure CircuitBreakerConfig where
  MaxRequests : Nat
  Interval : Int
  Timeout : Int
  FailureRatio : F64
  ConsecutiveFails : Nat

/-- The fields of `config.Config` the dispatcher reads. -/
structure Config where
  WebhookURL : String
  WebhookAuthKey : String
  CircuitBreaker : CircuitBreakerConfig
  BatchSize : Int

end config

/-! ## The outside world -/

/-- An outbound request as `sendMessage` builds it; the body is the value that
is marshalled to JSON. -/
structure HttpRequest where
  Method : String
  URL : String
  Header : List (String × String)
  Body : models.WebhookRequest
  deriving DecidableEq, Repr

/-- Outcome of `httpClient.Do`: a transport error, or a response with its
status code and the outcome of decoding its body into a `WebhookResponse`
(`none` when `Decode` returns an error: empty or malformed body). -/
inductive HttpResult where
  | transportErr (e : Err)
  | response (StatusCode : Int) (decoded : Option models.WebhookResponse)
  deriving DecidableEq, Repr

/-- A call of `UpdateMessageStatus` with its four arguments. -/
structure UpdateCall where
  id : Int
  status : api.MessageStatus
  messageID : Option String
  errorMsg : Option String
  deriving DecidableEq, Repr

/-- A call of `redisClient.Set`: the key, the two components of the value
(`"<id>:<time>"`), the expiry in nanoseconds, and the error the call returned. -/
structure CacheSet where
  key : String
  msgID : Int
  time : Int
  ttl : Int
  err : Option Err
  deriving DecidableEq, Repr

/-- The environment: the outcome of the `n`-th interaction with the outside
world, should it be a clock reading, an HTTP round trip, a database statement
or a cache write; and the outcome of `http.NewRequest` for the configured URL. -/
structure Env where
  clock : Nat → Int
  http : Nat → HttpResult
  dbErr : Nat → Option Err
  cacheErr : Nat → Option Err
  newRequestErr : Option Err

/-- The state of the process and of its collaborators.  `store` is table
`messages`.  The four logs record, in order, the calls `sendMessage` makes to
the circuit breaker (`attempts`), the requests sent to the delivery endpoint
(`httpLog`), the calls of `UpdateMessageStatus` (`updates`) and the cache
writes (`cacheLog`). -/
structure World where
  step : Nat
  cb : gobreaker.CircuitBreaker
  store : List models.Message
  attempts : List Int
  httpLog : List HttpRequest
  updates : List UpdateCall
  cacheLog : List CacheSet

/-- The call `time.Now()`. -/
def readClock (env : Env) (w : World) : Int × World :=
  (env.clock w.step, { w with step := w.step + 1 })

/-! ## `gobreaker.CircuitBreaker` methods on the world -/

namespace gobreaker

/-- The method `Execute` (without the panic handler). -/
def Execute (env : Env) (req : World → World × Option Err) (w : World) : World × Option Err :=
  let t1 := readClock env w
  let r := beforeRequest t1.2.cb t1.1
  let w1 := { t1.2 with cb := r.1 }
  match r.2.2 with
  | some e => (w1, some e)
  | none =>
    let res := req w1
    let t2 := readClock env res.1
    ({ t2.2 with cb := afterRequest t2.2.cb r.2.1 res.2.isNone t2.1 }, res.2)

/-- The method `State`. -/
def StateOf (env : Env) (w : World) : World × State :=
  let t := readClock env w
  let cb1 := currentState t.2.cb t.1
  ({ t.2 with cb := cb1 }, cb1.state)

end gobreaker

/-! ## `internal/service/circuit_breaker.go` -/

namespace service

/-- Conversion `time.Duration(n) * time.Second` on `int64`. -/
def seconds (n : Int) : Int :=
  (n * 1000000000 + 2 ^ 63) % 2 ^ 64 - 2 ^ 63

/-- The `ReadyToTrip` closure of `NewCircuitBreaker`. -/
def readyToTrip (cfg : config.CircuitBreakerConfig) (counts : gobreaker.Counts) : Bool :=
  let failureRatio := F64.divUInt32 counts.TotalFailures counts.Requests
  decide (cfg.ConsecutiveFails ≤ counts.Requests) && failureRatio.ge cfg.FailureRatio

/-- The function `NewCircuitBreaker` of the repository; `now` is the clock
reading the library takes when it builds the breaker. -/
def NewCircuitBreaker (cfg : config.CircuitBreakerConfig) (now : Int) :
    gobreaker.CircuitBreaker :=
  gobreaker.NewCircuitBreaker
    { MaxRequests := cfg.MaxRequests
      Interval := seconds cfg.Interval
      Timeout := seconds cfg.Timeout
      ReadyToTrip := readyToTrip cfg }
    now

namespace CircuitBreaker

/-- The closure `Execute` hands to the library: `select` on `ctx.Done()` with
`fn()` as the default.  `ctxErr` is `ctx.Err()` at the moment the closure polls
`ctx.Done()`: `none` while the context is live. -/
def guarded (ctxErr : Option Err) (fn : World → World × Option Err) (w : World) :
    World × Option Err :=
  match ctxErr with
  | some e => (w, some e)
  | none => fn w

/-- The method `Execute`. -/
def Execute (env : Env) (ctxErr : Option Err) (fn : World → World × Option Err) (w : World) :
    World × Option Err :=
  let res := gobreaker.Execute env (guarded ctxErr fn) w
  match res.2 with
  | some err =>
    if err.Is Err.ErrOpenState then
      (res.1, some (Err.text "service unavailable: circuit breaker is open"))
    else if err.Is Err.ErrTooManyRequests then
      (res.1, some (Err.text "service unavailable: too many requests"))
    else (res.1, some err)
  | none => (res.1, none)

/-- The method `GetState`. -/
def GetState (env : Env) (w : World) : World × api.HealthResponseCircuitBreakerState :=
  let r := gobreaker.StateOf env w
  match r.2 with
  | gobreaker.State.StateClosed => (r.1, api.HealthResponseCircuitBreakerState.Closed)
  | gobreaker.State.StateHalfOpen => (r.1, api.HealthResponseCircuitBreakerState.HalfOpen)
  | gobreaker.State.StateOpen => (r.1, api.HealthResponseCircuitBreakerState.Open)

/-- The method `GetCounts`. -/
def GetCounts (w : World) : Nat × Nat :=
  (w.cb.counts.Requests, w.cb.counts.TotalFailures)

end CircuitBreaker

end service

/-! ## `internal/repository/message_repository.go` -/

namespace repository

/-- The statement `UPDATE messages SET status, message_id, error, sent_at,
updated_at WHERE id = $1` on the table. -/
def execUpdate (id : Int) (status : api.MessageStatus) (msgID errMsg : Option String)
    (sentAt : Option Int) (updatedAt : Int) (rows : List models.Message) : List models.Message :=
  rows.map fun m =>
    if m.ID = id then
      { m with
        Status := status
        MessageID := msgID
        Error := errMsg
        SentAt := sentAt
        UpdatedAt := updatedAt }
    else m

/-- The method `UpdateMessageStatus`.  A statement that returns an error leaves
the table as it was. -/
def UpdateMessageStatus (env : Env) (id : Int) (status : api.MessageStatus)
    (messageID errorMsg : Option String) (w : World) : World × Option Err :=
  let t1 := if status = api.MessageStatus.Sent then readClock env w else (0, w)
  let sentAt : Option Int := if status = api.MessageStatus.Sent then some t1.1 else none
  let t2 := readClock env t1.2
  let w2 := { t2.2 with
    step := t2.2.step + 1
    updates := t2.2.updates ++ [⟨id, status, messageID, errorMsg⟩] }
  match env.dbErr t2.2.step with
  | some e => (w2, some (Err.wrapf "failed to update message status" e))
  | none =>
    ({ w2 with store := execUpdate id status messageID errorMsg sentAt t2.1 w2.store }, none)

/-- The rows `WHERE status = 'pending' ORDER BY created_at ASC LIMIT limit`. -/
def selectUnsent (limit : Nat) (rows : List models.Message) : List models.Message :=
  ((rows.filter fun m => m.Status = api.MessageStatus.Pending).insertionSort
    fun a b => a.CreatedAt ≤ b.CreatedAt).take limit

/-- The method `GetUnsentMessages`.  The database rejects a negative `LIMIT`. -/
def GetUnsentMessages (env : Env) (limit : Int) (w : World) :
    World × Except Err (List models.Message) :=
  let w1 := { w with step := w.step + 1 }
  match env.dbErr w.step with
  | some e => (w1, Except.error (Err.wrapf "failed to get unsent messages" e))
  | none =>
    if limit < 0 then
      (w1, Except.error
        (Err.wrapf "failed to get unsent messages" (Err.text "pq: LIMIT must not be negative")))
    else (w1, Except.ok (selectUnsent limit.toNat w.store))

end repository

/-! ## `internal/service/message_service.go` -/

namespace service

/-- The call `time.Now().Unix()`: whole seconds of a clock reading. -/
def unixSeconds (now : Int) : Int := now / 1000000000

/-- The expiry `24*time.Hour` of a cache entry. -/
def cacheTTL : Int := 24 * 3600 * 1000000000

/-- The request `sendMessage` builds for a message. -/
def buildRequest (cfg : config.Config) (msg : models.Message) : HttpRequest :=
  { Method := "POST"
    URL := cfg.WebhookURL
    Header := [("Content-Type", "application/json"), ("x-ins-auth-key", cfg.WebhookAuthKey)]
    Body := { To := msg.PhoneNumber, Content := msg.Content } }

/-- The part of the closure of `sendMessage` that follows a response with status
200 or 202 and the decoding of its body: the status update to `Sent`, the cache
write (whose error is only logged), and the log line that reads the breaker
state. -/
def recordSent (env : Env) (msg : models.Message) (webhookResp : models.WebhookResponse)
    (w : World) : World × Option Err :=
  let u := repository.UpdateMessageStatus env msg.ID api.MessageStatus.Sent
    (some webhookResp.MessageID) none w
  match u.2 with
  | some e => (u.1, some (Err.wrapf "failed to update message status" e))
  | none =>
    let t := readClock env u.1
    let w1 := { t.2 with
      step := t.2.step + 1
      cacheLog := t.2.cacheLog ++
        [⟨"message:" ++ webhookResp.MessageID, msg.ID, t.1, cacheTTL, env.cacheErr t.2.step⟩] }
    ((CircuitBreaker.GetState env w1).1, none)

/-- The closure `sendMessage` passes to the circuit breaker.  `json.Marshal` of
a struct of two strings does not fail. -/
def deliver (env : Env) (cfg : config.Config) (msg : models.Message) (w : World) :
    World × Option Err :=
  match env.newRequestErr with
  | some e => (w, some (Err.wrapf "failed to create request" e))
  | none =>
    let w1 := { w with step := w.step + 1, httpLog := w.httpLog ++ [buildRequest cfg msg] }
    match env.http w.step with
    | HttpResult.transportErr e => (w1, some (Err.wrapf "failed to send request" e))
    | HttpResult.response code decoded =>
      if code ≠ 200 ∧ code ≠ 202 then
        (w1, some (Err.text ("unexpected status code: " ++ toString code)))
      else
        match decoded with
        | some webhookResp => recordSent env msg webhookResp w1
        | none =>
          if code = 200 ∨ code = 202 then
            let t := readClock env w1
            let tempMessageID := "temp-" ++ toString msg.ID ++ "-" ++ toString (unixSeconds t.1)
            recordSent env msg { Message := "", MessageID := tempMessageID } t.2
          else (w1, some (Err.text "failed to decode response"))

/-- The method `sendMessage`. -/
def sendMessage (env : Env) (cfg : config.Config) (msg : models.Message) (w : World) :
    World × Option Err :=
  let r := CircuitBreaker.Execute env none (deliver env cfg msg)
    { w with attempts := w.attempts ++ [msg.ID] }
  match r.2 with
  | some err =>
    let u := repository.UpdateMessageStatus env msg.ID api.MessageStatus.Failed none
      (some err.Error) r.1
    ((CircuitBreaker.GetState env u.1).1, some err)
  | none => (r.1, none)

/-- The loop `for _, msg := range messages` of `SendPendingMessages`. -/
def sendAll (env : Env) (cfg : config.Config) (messages : List models.Message) (w : World) :
    World :=
  messages.foldl (fun w1 msg => (sendMessage env cfg msg w1).1) w

/-- The method `SendPendingMessages`. -/
def SendPendingMessages (env : Env) (cfg : config.Config) (w : World) : World × Option Err :=
  let r := repository.GetUnsentMessages env cfg.BatchSize w
  match r.2 with
  | Except.error e => (r.1, some (Err.wrapf "failed to get unsent messages" e))
  | Except.ok messages =>
    if messages.length = 0 then (r.1, none)
    else (sendAll env cfg messages r.1, none)

/-- The world right after `NewMessageService`: a fresh breaker, the given
table, and nothing called yet. -/
def NewMessageService (env : Env) (cfg : config.Config) (store : List models.Message) : World :=
  { step := 1
    cb := NewCircuitBreaker cfg.CircuitBreaker (env.clock 0)
    store := store
    attempts := []
    httpLog := []
    updates := []
    cacheLog := [] }

end service

/-! ## Auxiliary notions used by the statements -/

/-- A projection of the world that looks neither at the interaction counter nor at the breaker. -/
def Frame {β : Type} (π : World → β) : Prop :=
  ∀ (w : World) (s : Nat) (c : gobreaker.CircuitBreaker), π { w with step := s, cb := c } = π w

/-- The world after `beforeRequest` has read the clock and updated the breaker. -/
def entered (env : Env) (w : World) : World :=
  { w with step := w.step + 1, cb := (gobreaker.beforeRequest w.cb (env.clock w.step)).1 }

/-- The world after `afterRequest` has read the clock and recorded the outcome. -/
def settled (env : Env) (gen : Nat) (success : Bool) (w : World) : World :=
  { w with step := w.step + 1, cb := gobreaker.afterRequest w.cb gen success (env.clock w.step) }

/-- A message as an external producer creates it: Pending, with no external
id, no error and no sentAt. -/
def models.Message.Fresh (m : models.Message) : Prop :=
  m.Status = api.MessageStatus.Pending ∧ m.MessageID = none ∧ m.Error = none ∧ m.SentAt = none

/-- The three shapes of a row: fresh, Sent with an external id and a sentAt and
no error, Failed with an error and neither external id nor sentAt. -/
def models.Message.Consistent (m : models.Message) : Prop :=
  m.Fresh ∨
  (m.Status = api.MessageStatus.Sent ∧ m.MessageID.isSome ∧ m.Error = none ∧ m.SentAt.isSome) ∨
  (m.Status = api.MessageStatus.Failed ∧ m.MessageID = none ∧ m.Error.isSome ∧ m.SentAt = none)

/-- The two shapes of status update the dispatcher issues. -/
def UpdateCall.Shaped (c : UpdateCall) : Prop :=
  (c.status = api.MessageStatus.Sent ∧ c.messageID.isSome ∧ c.errorMsg = none) ∨
  (c.status = api.MessageStatus.Failed ∧ c.messageID = none ∧ c.errorMsg.isSome)

/-- The world after `n` ticks of the dispatcher. -/
def service.runTicks (env : Env) (cfg : config.Config) : Nat → World → World
  | 0, w => w
  | n + 1, w => service.runTicks env cfg n (service.SendPendingMessages env cfg w).1

/-- What the delivery closure adds to the log of status updates: one update to
`Sent`, or nothing when it fails before reaching the store. -/
def DeliverUpdates (id : Int) (a b : List UpdateCall) (ok : Bool) : Prop :=
  (∃ mid, b = a ++ [⟨id, api.MessageStatus.Sent, some mid, none⟩]) ∨ (ok = false ∧ b = a)


/-! ## Concrete inputs -/

namespace Example

/-- Thresholds of `TestMessageService_GetCircuitBreakerStatus_Failure`. -/
def cfg : config.Config :=
  { WebhookURL := "http://hook.test/send"
    WebhookAuthKey := "test-auth-key"
    CircuitBreaker :=
      { MaxRequests := 3
        Interval := 60
        Timeout := 60
        FailureRatio := F64.half
        ConsecutiveFails := 2 }
    BatchSize := 10 }

/-- The same thresholds with a counting window of one second. -/
def cfgShortWindow : config.Config :=
  { cfg with CircuitBreaker := { cfg.CircuitBreaker with Interval := 1 } }

/-- An environment whose clock advances by `dt` nanoseconds per interaction and
whose endpoint gives the same answer to every request. -/
def env (dt : Int) (answer : HttpResult) : Env :=
  { clock := fun n => dt * n
    http := fun _ => answer
    dbErr := fun _ => none
    cacheErr := fun _ => none
    newRequestErr := none }

/-- A fresh message with the given id, created at time `id`. -/
def msg (id : Int) : models.Message :=
  { ID := id
    PhoneNumber := "+1234567890"
    Content := "Test message"
    Status := api.MessageStatus.Pending
    MessageID := none
    Error := none
    CreatedAt := id
    SentAt := none
    UpdatedAt := id }

/-- An endpoint that always answers 500 with an empty body. -/
def answer500 : HttpResult := HttpResult.response 500 none

/-- An endpoint that answers 200 with a JSON object that has a `message` field
and no `messageId` field: the body decodes without error into a response whose
`MessageID` is the empty string. -/
def answerNoId : HttpResult := HttpResult.response 200 (some { Message := "Accepted", MessageID := "" })

end Example

/-- The world after `n` successive calls `Execute(ctx, fn)` with a live context. -/
def service.CircuitBreaker.repeatExecute (env : Env) (fn : World → World × Option Err) :
    Nat → World → World
  | 0, w => w
  | n + 1, w => (service.CircuitBreaker.Execute env none fn
      (service.CircuitBreaker.repeatExecute env fn n w)).1

/-- The text of the error `Execute` returns while the breaker is open. -/
def service.openError : Err := Err.text "service unavailable: circuit breaker is open"

/-- The error of a delivery that was answered with status 500. -/
def service.status500 : Err := Err.text "unexpected status code: 500"


namespace Example

/-- The row of message 1 once it has been delivered at time 20 with an empty
external id and updated at time 25. -/
def sentRow : models.Message :=
  { msg 1 with
    Status := api.MessageStatus.Sent
    MessageID := some ""
    SentAt := some 20
    UpdatedAt := 25 }

/-- A wrapped function that fails without touching the world. -/
def failing (w : World) : World × Option Err := (w, some (Err.text "failure"))

/-- A wrapped function that succeeds without touching the world. -/
def succeeding (w : World) : World × Option Err := (w, none)

/-- A world right after the construction of the service, with an empty table. -/
def fresh (e : Env) (c : config.Config) : World := service.NewMessageService e c []

/-- A world whose breaker is Half-Open with no trial call made yet. -/
def halfOpen : World :=
  { fresh (env 0 answer500) cfg with
    cb := { (fresh (env 0 answer500) cfg).cb with
      state := gobreaker.State.StateHalfOpen
      expiry := none } }

end Example

namespace Example

/-- A clock that reads 0 when the breaker is built, 1 s at the next two
interactions, 61 s at the fourth, 62 s at the next two and 121.5 s afterwards. -/
def stagedClock (n : Nat) : Int :=
  [0, 1000000000, 1000000000, 61000000000, 62000000000, 62000000000].getD n 121500000000

/-- The environment of `env 0 answer500` with the staged clock. -/
def stagedEnv : Env := { env 0 answer500 with clock := stagedClock }

/-- One failing call on a fresh breaker with thresholds 2 and 0.5, a window and
a cool-down of sixty seconds. -/
def afterOneFailure : World :=
  (service.CircuitBreaker.Execute stagedEnv none failing (fresh stagedEnv cfg)).1

end Example

namespace Example

/-- A world whose breaker, built with the test thresholds, entered Open at time 5. -/
def openedAt5 : World :=
  { fresh (env 0 answer500) cfg with
    cb := gobreaker.setState (fresh (env 0 answer500) cfg).cb gobreaker.State.StateOpen 5 }

end Example

/-! ## `internal/service/health_service.go` -/

namespace F64

/-- Round-half-even of the quotient `n / d` to an integer (`d > 0`). -/
def roundHalfEven (n d : Nat) : Nat :=
  if d < 2 * (n % d) then n / d + 1
  else if 2 * (n % d) = d then (if n / d % 2 = 0 then n / d else n / d + 1)
  else n / d

/-- The float nearest to `(-1)^neg * n * 2^e`, ties to even: the integer `n` is
cut to 53 significant bits.  (Exponent overflow and underflow are not
modelled; the values that occur here are far from both.) -/
def round53 (neg : Bool) (n : Nat) (e : Int) : F64 :=
  fin neg (roundHalfEven n (2 ^ normShift 128 n)) (e + (normShift 128 n : Int))

/-- Go's `x * 100` on `float64`. -/
def mul100 : F64 → F64
  | nan => nan
  | inf neg => inf neg
  | fin neg m e => round53 neg (m * 100) e

/-- The number of tenths nearest to the magnitude of a finite value, ties to
even: the digits that `%.1f` prints. -/
def tenths (m : Nat) (e : Int) : Nat :=
  if 0 ≤ e then m * 10 * 2 ^ e.toNat else roundHalfEven (m * 10) (2 ^ (-e).toNat)

/-- Go's `fmt.Sprintf("%.1f", x)`. -/
def format1 : F64 → String
  | nan => "NaN"
  | inf true => "-Inf"
  | inf false => "+Inf"
  | fin neg m e =>
    (if neg then "-" else "") ++ toString (tenths m e / 10) ++ "." ++ toString (tenths m e % 10)

/-- The rational value of a finite float (0 for NaN and the infinities). -/
def toRat : F64 → ℚ
  | fin neg m e => (if neg then -1 else 1) * (m : ℚ) * (2 : ℚ) ^ e
  | _ => 0

end F64

namespace api

/-- The type `api.HealthResponseStatus`. -/
inductive HealthResponseStatus where
  | Degraded
  | Healthy
  | Unhealthy
  deriving DecidableEq, Repr

/-- The type `api.HealthResponseSchedulerStatus`. -/
inductive HealthResponseSchedulerStatus where
  | Running
  | Stopped
  deriving DecidableEq, Repr

/-- The type `api.HealthResponseDatabaseStatus`. -/
inductive HealthResponseDatabaseStatus where
  | Connected
  | Disconnected
  deriving DecidableEq, Repr

/-- The type `api.HealthResponseRedisStatus`. -/
inductive HealthResponseRedisStatus where
  | Connected
  | Disconnected
  deriving DecidableEq, Repr

end api

namespace service

/-- The type `HealthStatus` of `internal/service/types.go`. -/
structure HealthStatus where
  Status : api.HealthResponseStatus
  SchedulerStatus : api.HealthResponseSchedulerStatus
  DatabaseStatus : api.HealthResponseDatabaseStatus
  RedisStatus : api.HealthResponseRedisStatus
  CircuitBreakerStatus : String
  CircuitBreakerState : api.HealthResponseCircuitBreakerState
  deriving DecidableEq, Repr

/-- The method `messageService.GetCircuitBreakerStatus`: `GetState`, then `GetCounts`. -/
def GetCircuitBreakerStatus (env : Env) (w : World) :
    World × api.HealthResponseCircuitBreakerState × Nat × Nat :=
  let r := CircuitBreaker.GetState env w
  (r.1, r.2, CircuitBreaker.GetCounts r.1)

/-- The method `checkDatabaseHealth`: one `Ping` of the store. -/
def checkDatabaseHealth (env : Env) (w : World) : World × api.HealthResponseDatabaseStatus :=
  ({ w with step := w.step + 1 },
    match env.dbErr w.step with
    | some _ => api.HealthResponseDatabaseStatus.Disconnected
    | none => api.HealthResponseDatabaseStatus.Connected)

/-- The method `checkRedisHealth`: one `Ping` of the cache. -/
def checkRedisHealth (env : Env) (w : World) : World × api.HealthResponseRedisStatus :=
  ({ w with step := w.step + 1 },
    match env.cacheErr w.step with
    | some _ => api.HealthResponseRedisStatus.Disconnected
    | none => api.HealthResponseRedisStatus.Connected)

/-- The text `GetHealth` puts in `CircuitBreakerStatus` for the given `uint32`
counts: `failureRate := float64(failures) / float64(requests) * 100` printed
with `"Requests: %d, Failures: %d (%.1f%%)"`, or `"No requests yet"`. -/
def cbStatusText (requests failures : Nat) : String :=
  if 0 < requests then
    "Requests: " ++ toString requests ++ ", Failures: " ++ toString failures ++ " (" ++
      (F64.divUInt32 failures requests).mul100.format1 ++ "%)"
  else "No requests yet"

/-- The method `GetHealth`; `isRunning` is what `schedulerService.IsRunning()` returns. -/
def GetHealth (env : Env) (isRunning : Bool) (w : World) : World × HealthStatus :=
  let db := checkDatabaseHealth env w
  let rd := checkRedisHealth env db.1
  let cb := GetCircuitBreakerStatus env rd.1
  let status1 : api.HealthResponseStatus :=
    if db.2 ≠ api.HealthResponseDatabaseStatus.Connected ∨
        rd.2 ≠ api.HealthResponseRedisStatus.Connected then
      api.HealthResponseStatus.Unhealthy
    else api.HealthResponseStatus.Healthy
  let status2 : api.HealthResponseStatus :=
    if cb.2.1 = api.HealthResponseCircuitBreakerState.Open then api.HealthResponseStatus.Degraded
    else status1
  (cb.1,
    { Status := status2
      SchedulerStatus :=
        if isRunning then api.HealthResponseSchedulerStatus.Running
        else api.HealthResponseSchedulerStatus.Stopped
      DatabaseStatus := db.2
      RedisStatus := rd.2
      CircuitBreakerStatus := cbStatusText cb.2.2.1 cb.2.2.2
      CircuitBreakerState := cb.2.1 })

end service

namespace Example

/-- The environment of `env 0 answer500` with a store that does not answer the ping. -/
def envStoreDown : Env := { env 0 answer500 with dbErr := fun _ => some (Err.text "connection refused") }

end Example

/-! ## `internal/scheduler/scheduler.go`

The scheduler is one client calling `Start` and `Stop` one after the other,
the goroutines that `Start` spawns, and an environment that cancels contexts.
Each action below is one atomic step of one of them (a critical section of the
mutex, a channel operation, a task invocation); an execution is a list of
actions.  Channels and contexts are named by numbers. -/

namespace scheduler

/-- The error `ErrSchedulerAlreadyRunning`. -/
def ErrSchedulerAlreadyRunning : Err := Err.text "scheduler is already running"

/-- The error `ErrSchedulerNotRunning`. -/
def ErrSchedulerNotRunning : Err := Err.text "scheduler is not running"

/-- The constant `time.Second` in nanoseconds. -/
def second : Int := 1000000000

/-- The fields of `Scheduler` that the methods read and write. -/
structure Scheduler where
  interval : Int
  stopCh : Nat
  doneCh : Nat
  isRunning : Bool
  deriving DecidableEq, Repr

/-- Where a goroutine that executes `run` stands: spawned; past the initial
`executeTask`; in the `for`/`select` loop; returned from the loop with the
deferred `isRunning = false` done; past the deferred `close(s.doneCh)`. -/
inductive Phase where
  | entry
  | initialDone
  | selecting
  | returned
  | exited
  deriving DecidableEq, Repr

/-- The goroutine can still invoke the task. -/
def Phase.active : Phase → Bool
  | Phase.entry => true
  | Phase.initialDone => true
  | Phase.selecting => true
  | Phase.returned => false
  | Phase.exited => false

/-- A goroutine executing `run(ctx)`: its context, its phase, the channel that
`defer close(s.doneCh)` captured on entry, and the number of ticker firings it
has consumed. -/
structure Loop where
  ctx : Nat
  phase : Phase
  doneCh : Nat
  ticks : Nat
  deriving DecidableEq, Repr

/-- An invocation of the task by `executeTask`: the goroutine that made it, the
parent context, the timeout `s.interval - time.Second` of the derived context,
and the error returned. -/
structure TaskCall where
  loop : Nat
  ctx : Nat
  timeout : Int
  result : Option Err
  deriving DecidableEq, Repr

/-- Where the client's call of `Stop` stands: not in `Stop`; past the check,
before `close(s.stopCh)`; waiting on `<-s.doneCh`; before the final
`isRunning = false`. -/
inductive StopPC where
  | idle
  | closing
  | waiting
  | finishing
  deriving DecidableEq, Repr

/-- The last call of `Start` or `Stop` that returned nil, if any. -/
inductive Since where
  | created
  | started
  | stopped
  deriving DecidableEq, Repr

/-- The scheduler and its surroundings: the struct, the closed channels, the
next unused channel name, the cancelled contexts, the goroutines spawned so
far (`loops i` for `i < spawned`), the log of task invocations, and the
client's position. -/
structure System where
  s : Scheduler
  closed : List Nat
  nextCh : Nat
  cancelled : List Nat
  spawned : Nat
  loops : Nat → Loop
  calls : List TaskCall
  pc : StopPC
  since : Since

/-- The function `NewScheduler`. -/
def NewScheduler (interval : Int) : System :=
  { s := { interval := interval, stopCh := 0, doneCh := 1, isRunning := false }
    closed := []
    nextCh := 2
    cancelled := []
    spawned := 0
    loops := fun _ => { ctx := 0, phase := Phase.exited, doneCh := 0, ticks := 0 }
    calls := []
    pc := StopPC.idle
    since := Since.created }

/-- The method `Start`. -/
def Start (ctx : Nat) (sys : System) : System × Option Err :=
  if sys.s.isRunning then (sys, some ErrSchedulerAlreadyRunning)
  else
    ({ sys with
        s := { sys.s with isRunning := true, stopCh := sys.nextCh, doneCh := sys.nextCh + 1 }
        nextCh := sys.nextCh + 2
        spawned := sys.spawned + 1
        loops := Function.update sys.loops sys.spawned
          { ctx := ctx, phase := Phase.entry, doneCh := 0, ticks := 0 }
        since := Since.started }, none)

/-- The method `IsRunning`. -/
def IsRunning (sys : System) : Bool := sys.s.isRunning

/-- The first critical section of `Stop`: the call returns at once with
`ErrSchedulerNotRunning`, or goes on. -/
def StopEnter (sys : System) : System × Option Err :=
  if !sys.s.isRunning then (sys, some ErrSchedulerNotRunning)
  else ({ sys with pc := StopPC.closing }, none)

/-- The statement `close(s.stopCh)` of `Stop`; closing a closed channel panics. -/
def StopClose (sys : System) : Option System :=
  if sys.s.stopCh ∈ sys.closed then none
  else some { sys with closed := sys.s.stopCh :: sys.closed, pc := StopPC.waiting }

/-- The statement `<-s.doneCh` of `Stop`: it blocks until the channel is closed. -/
def StopAwait (sys : System) : Option System :=
  if sys.s.doneCh ∈ sys.closed then some { sys with pc := StopPC.finishing } else none

/-- The last critical section of `Stop`, after which it returns nil. -/
def StopFinish (sys : System) : System :=
  { sys with s := { sys.s with isRunning := false }, pc := StopPC.idle, since := Since.stopped }

/-- The method `executeTask` called by goroutine `i`: one invocation of the task,
with a context derived from the goroutine's context with timeout
`s.interval - time.Second`; `err` is what the task returns. -/
def executeTask (i : Nat) (err : Option Err) (sys : System) : System :=
  { sys with
    calls := sys.calls ++
      [{ loop := i
         ctx := (sys.loops i).ctx
         timeout := wrapInt64 (sys.s.interval - second)
         result := err }] }

/-- The number of task invocations goroutine `i` has made. -/
def invocations (i : Nat) (sys : System) : Nat :=
  sys.calls.countP (fun c => c.loop == i)

/-- The atomic steps. -/
inductive Action where
  | start (ctx : Nat)
  | stop
  | stopClose
  | stopAwait
  | stopFinish
  | cancel (ctx : Nat)
  | loopInitial (i : Nat) (err : Option Err)
  | loopTicker (i : Nat)
  | loopTick (i : Nat) (err : Option Err)
  | loopStop (i : Nat)
  | loopCancel (i : Nat)
  | loopClose (i : Nat)
  deriving DecidableEq, Repr

/-- The state of goroutine `i` with a new phase. -/
def setPhase (i : Nat) (p : Phase) (sys : System) : System :=
  { sys with loops := Function.update sys.loops i { sys.loops i with phase := p } }

/-- The goroutine leaves the loop: `return`, then the deferred `ticker.Stop()`
and the deferred critical section `s.isRunning = false`. -/
def leaveLoop (i : Nat) (sys : System) : System :=
  let sys1 := setPhase i Phase.returned sys
  { sys1 with s := { sys1.s with isRunning := false } }

/-- One step; `none` when the action is not enabled in the state (the client is
busy, the goroutine is elsewhere, a receive would block) or panics
(`time.NewTicker` with a non-positive interval, `close` of a closed channel). -/
def step (a : Action) (sys : System) : Option System :=
  match a with
  | Action.start ctx => if sys.pc = StopPC.idle then some (Start ctx sys).1 else none
  | Action.stop => if sys.pc = StopPC.idle then some (StopEnter sys).1 else none
  | Action.stopClose => if sys.pc = StopPC.closing then StopClose sys else none
  | Action.stopAwait => if sys.pc = StopPC.waiting then StopAwait sys else none
  | Action.stopFinish => if sys.pc = StopPC.finishing then some (StopFinish sys) else none
  | Action.cancel ctx => some { sys with cancelled := ctx :: sys.cancelled }
  | Action.loopInitial i err =>
    if i < sys.spawned ∧ (sys.loops i).phase = Phase.entry then
      some (setPhase i Phase.initialDone
        (executeTask i err
          { sys with
            loops := Function.update sys.loops i { sys.loops i with doneCh := sys.s.doneCh } }))
    else none
  | Action.loopTicker i =>
    if i < sys.spawned ∧ (sys.loops i).phase = Phase.initialDone ∧ 0 < sys.s.interval then
      some (setPhase i Phase.selecting sys)
    else none
  | Action.loopTick i err =>
    if i < sys.spawned ∧ (sys.loops i).phase = Phase.selecting then
      some (executeTask i err
        { sys with
          loops := Function.update sys.loops i
            { sys.loops i with ticks := (sys.loops i).ticks + 1 } })
    else none
  | Action.loopStop i =>
    if i < sys.spawned ∧ (sys.loops i).phase = Phase.selecting ∧ sys.s.stopCh ∈ sys.closed then
      some (leaveLoop i sys)
    else none
  | Action.loopCancel i =>
    if i < sys.spawned ∧ (sys.loops i).phase = Phase.selecting ∧
        (sys.loops i).ctx ∈ sys.cancelled then
      some (leaveLoop i sys)
    else none
  | Action.loopClose i =>
    if i < sys.spawned ∧ (sys.loops i).phase = Phase.returned then
      some (setPhase i Phase.exited { sys with closed := (sys.loops i).doneCh :: sys.closed })
    else none

/-- An execution: the actions one after the other. -/
def exec : List Action → System → Option System
  | [], sys => some sys
  | a :: rest, sys =>
    match step a sys with
    | some next => exec rest next
    | none => none

end scheduler

namespace scheduler

/-- What every state of an execution from `NewScheduler` satisfies.  The
goroutine spawned last is `loops i` with `i + 1 = spawned`; the ones before
it are the earlier runs. -/
structure Inv (sys : System) : Prop where
  stop_lt : sys.s.stopCh < sys.nextCh
  done_lt : sys.s.doneCh < sys.nextCh
  stop_ne_done : sys.s.stopCh ≠ sys.s.doneCh
  closed_lt : ∀ c, c ∈ sys.closed → c < sys.nextCh
  created : sys.since = Since.created → sys.spawned = 0
  unspawned : sys.spawned = 0 → sys.pc = StopPC.idle ∧ sys.s.isRunning = false
  earlier : ∀ i, i + 1 < sys.spawned →
    (sys.loops i).phase.active = false ∧ (sys.loops i).doneCh ≠ sys.s.doneCh ∧
    (sys.loops i).doneCh ≠ sys.s.stopCh ∧ (sys.loops i).doneCh < sys.nextCh
  last_active : ∀ i, i + 1 = sys.spawned →
    ((sys.loops i).phase.active = true ↔ sys.s.isRunning = true)
  last_done : ∀ i, i + 1 = sys.spawned →
    (sys.loops i).phase ≠ Phase.entry → (sys.loops i).doneCh = sys.s.doneCh
  last_closed : ∀ i, i + 1 = sys.spawned →
    (sys.s.doneCh ∈ sys.closed ↔ (sys.loops i).phase = Phase.exited)
  last_left : ∀ i, i + 1 = sys.spawned → (sys.loops i).phase.active = false →
    (sys.loops i).ctx ∈ sys.cancelled ∨ sys.s.stopCh ∈ sys.closed
  finishing : sys.pc = StopPC.finishing → sys.s.doneCh ∈ sys.closed
  busy : sys.pc ≠ StopPC.idle → sys.since = Since.started
  stopped : sys.since = Since.stopped → sys.s.isRunning = false
  stop_open : sys.since = Since.started → (sys.pc = StopPC.idle ∨ sys.pc = StopPC.closing) →
    sys.s.stopCh ∉ sys.closed

/-- The counters of goroutine `i`: no invocation and no firing before the
initial invocation, one invocation more than firings after it; and no
invocation by a goroutine that is not spawned yet. -/
def Counted (sys : System) : Prop :=
  ∀ i, (sys.spawned ≤ i → invocations i sys = 0) ∧
    (i < sys.spawned →
      ((sys.loops i).phase = Phase.entry → invocations i sys = 0 ∧ (sys.loops i).ticks = 0) ∧
      ((sys.loops i).phase ≠ Phase.entry → invocations i sys = (sys.loops i).ticks + 1))

/-- No goroutine can invoke the task and the client is not inside `Stop`. -/
def Quiet (sys : System) : Prop :=
  sys.s.isRunning = false ∧ sys.pc = StopPC.idle ∧
  ∀ i, i < sys.spawned → (sys.loops i).phase.active = false

end scheduler

namespace Example

/-- A scheduler with an interval of two minutes, started with context 7. -/
def runningScheduler : scheduler.System :=
  (scheduler.Start 7 (scheduler.NewScheduler 120000000000)).1

/-- Start with context 7, the initial invocation, the ticker, then the context
is cancelled and the loop observes it. -/
def cancelledRun : List scheduler.Action :=
  [scheduler.Action.start 7, scheduler.Action.loopInitial 0 none, scheduler.Action.loopTicker 0,
    scheduler.Action.cancel 7, scheduler.Action.loopCancel 0]

/-- Start, the initial invocation, the ticker, then `Stop` is called, closes the
stop signal, and the loop observes it; `Stop` is still waiting. -/
def stoppingRun : List scheduler.Action :=
  [scheduler.Action.start 7, scheduler.Action.loopInitial 0 none, scheduler.Action.loopTicker 0,
    scheduler.Action.stop, scheduler.Action.stopClose, scheduler.Action.loopStop 0]

/-- Start and the initial invocation; `Stop` has not been called. -/
def startedRun : List scheduler.Action :=
  [scheduler.Action.start 7, scheduler.Action.loopInitial 0 none]

/-- The state after `startedRun`. -/
def afterStart : scheduler.System :=
  (scheduler.exec startedRun (scheduler.NewScheduler 120000000000)).getD
    (scheduler.NewScheduler 120000000000)

/-- One full cycle: Start, the initial invocation, one firing, and a `Stop` that
returns nil. -/
def cycle : List scheduler.Action :=
  [scheduler.Action.start 7, scheduler.Action.loopInitial 0 none, scheduler.Action.loopTicker 0,
    scheduler.Action.loopTick 0 none, scheduler.Action.stop, scheduler.Action.stopClose,
    scheduler.Action.loopStop 0, scheduler.Action.loopClose 0, scheduler.Action.stopAwait,
    scheduler.Action.stopFinish]

/-- The state after `cycle`. -/
def afterCycle : scheduler.System :=
  (scheduler.exec cycle (scheduler.NewScheduler 120000000000)).getD
    (scheduler.NewScheduler 120000000000)

/-- A run whose initial invocation and first firing return an error, followed by
a firing that succeeds. -/
def tickingRun : List scheduler.Action :=
  [scheduler.Action.start 7,
    scheduler.Action.loopInitial 0 (some (Err.text "failed to get unsent messages")),
    scheduler.Action.loopTicker 0,
    scheduler.Action.loopTick 0 (some (Err.text "failed to get unsent messages")),
    scheduler.Action.loopTick 0 none]

/-- The state after `tickingRun`. -/
def afterTicking : scheduler.System :=
  (scheduler.exec tickingRun (scheduler.NewScheduler 120000000000)).getD
    (scheduler.NewScheduler 120000000000)

end Example

namespace scheduler

/-- The goroutine has created its ticker. -/
def Phase.ticking : Phase → Bool
  | Phase.entry => false
  | Phase.initialDone => false
  | Phase.selecting => true
  | Phase.returned => true
  | Phase.exited => true

/-- What the log of task invocations satisfies in every state of an execution
from `NewScheduler interval`: each invocation was made by a spawned goroutine,
with the context of that goroutine and the timeout `interval - time.Second`;
and a goroutine has a ticker only when the interval is positive. -/
structure Timed (interval : Int) (sys : System) : Prop where
  interval_eq : sys.s.interval = interval
  calls : ∀ c, c ∈ sys.calls →
    c.loop < sys.spawned ∧ c.ctx = (sys.loops c.loop).ctx ∧
    c.timeout = wrapInt64 (interval - second)
  ticking : ∀ i, i < sys.spawned → (sys.loops i).phase.ticking = true → 0 < interval

end scheduler

namespace Example

/-- Start with context 7, the initial invocation, the ticker and one firing;
then the context is cancelled. -/
def cancellingRun : List scheduler.Action :=
  [scheduler.Action.start 7, scheduler.Action.loopInitial 0 none, scheduler.Action.loopTicker 0,
    scheduler.Action.loopTick 0 none, scheduler.Action.cancel 7]

/-- The state after `cancellingRun`. -/
def afterCancel : scheduler.System :=
  (scheduler.exec cancellingRun (scheduler.NewScheduler 120000000000)).getD
    (scheduler.NewScheduler 120000000000)

end Example

/-! ## `internal/service/scheduler_service.go`, the paginated listing and its handler -/

/-- The method `Header.Get` on the request's header.  `Header.Set` and
`Header.Get` canonicalise a name in the same way; the names are compared as
the code writes them. -/
def HttpRequest.Get (r : HttpRequest) (key : String) : Option String :=
  r.Header.lookup key

namespace api

/-- The type `api.Message`; pointer fields are options. -/
structure Message where
  Content : Option String
  Error : Option String
  Id : Int
  MessageId : Option String
  PhoneNumber : String
  SentAt : Option Int
  Status : MessageStatus
  deriving DecidableEq, Repr

/-- The type `api.Pagination`; every field is an `int`. -/
structure Pagination where
  CurrentPage : Int
  ItemsPerPage : Int
  TotalItems : Int
  TotalPages : Int
  deriving DecidableEq, Repr

/-- The type `api.MessageListResponse`. -/
structure MessageListResponse where
  Messages : List Message
  Pagination : api.Pagination
  deriving DecidableEq, Repr

/-- The type `api.GetSentMessagesParams`; a parameter the request lacks is `none`. -/
structure GetSentMessagesParams where
  Page : Option Int
  Limit : Option Int
  deriving DecidableEq, Repr

end api

namespace repository

/-- The order `ORDER BY sent_at DESC` between two rows: the later `sent_at`
first, NULL before every time. -/
def sentAtDesc (a b : models.Message) : Bool :=
  match a.SentAt, b.SentAt with
  | none, _ => true
  | some _, none => false
  | some x, some y => decide (y ≤ x)

/-- The rows `WHERE status = 'sent' ORDER BY sent_at DESC LIMIT limit OFFSET offset`. -/
def selectSent (offset limit : Nat) (rows : List models.Message) : List models.Message :=
  (((rows.filter fun m => m.Status = api.MessageStatus.Sent).insertionSort
    fun a b => sentAtDesc a b = true).drop offset).take limit

/-- The method `GetSentMessages`.  The database rejects a negative `OFFSET`
and, when the offset is not negative, a negative `LIMIT`. -/
def GetSentMessages (env : Env) (offset limit : Int) (w : World) :
    World × Except Err (List models.Message) :=
  let w1 := { w with step := w.step + 1 }
  match env.dbErr w.step with
  | some e => (w1, Except.error (Err.wrapf "failed to get sent messages" e))
  | none =>
    if offset < 0 then
      (w1, Except.error
        (Err.wrapf "failed to get sent messages" (Err.text "pq: OFFSET must not be negative")))
    else if limit < 0 then
      (w1, Except.error
        (Err.wrapf "failed to get sent messages" (Err.text "pq: LIMIT must not be negative")))
    else (w1, Except.ok (selectSent offset.toNat limit.toNat w.store))

/-- The value of `SELECT COUNT(*) FROM messages WHERE status = 'sent'`. -/
def countSent (rows : List models.Message) : Int :=
  ((rows.filter fun m => m.Status = api.MessageStatus.Sent).length : Int)

/-- The method `GetTotalSentCount`. -/
def GetTotalSentCount (env : Env) (w : World) : World × Except Err Int :=
  let w1 := { w with step := w.step + 1 }
  match env.dbErr w.step with
  | some e => (w1, Except.error (Err.wrapf "failed to get total sent count" e))
  | none => (w1, Except.ok (countSent w.store))

end repository

namespace service

/-- The method `schedulerService.executeSendTask`.  Its parameter, the context
the scheduler hands to the task, is bound to the blank identifier; `_ctxErr` is
`ctx.Err()` of that context (`none` while it is live). -/
def executeSendTask (env : Env) (cfg : config.Config) (_ctxErr : Option Err) (w : World) :
    World × Option Err :=
  SendPendingMessages env cfg w

/-- Go's `a / b` on `int`: a run-time panic (`none`) when `b` is zero, otherwise
the quotient truncated toward zero. -/
def intDiv (a b : Int) : Option Int :=
  if b = 0 then none else some (wrapInt64 (a.tdiv b))

/-- Go's `a % b` on `int`: a run-time panic (`none`) when `b` is zero, otherwise
the remainder of the truncated division. -/
def intMod (a b : Int) : Option Int :=
  if b = 0 then none else some (a.tmod b)

/-- The offset `(page - 1) * limit` as `int` arithmetic computes it. -/
def pageOffset (page limit : Int) : Int :=
  wrapInt64 (wrapInt64 (page - 1) * limit)

/-- The statements `totalPages := int(totalCount) / limit` and
`if int(totalCount)%limit > 0 { totalPages++ }`; `none` is the panic of the
division. -/
def totalPages (totalCount limit : Int) : Option Int :=
  match intDiv totalCount limit, intMod totalCount limit with
  | some q, some r => some (if 0 < r then wrapInt64 (q + 1) else q)
  | _, _ => none

/-- The element of the response built from a row. -/
def toResponse (msg : models.Message) : api.Message :=
  { Id := msg.ID
    PhoneNumber := msg.PhoneNumber
    Content := some msg.Content
    Status := msg.Status
    SentAt := msg.SentAt
    MessageId := msg.MessageID
    Error := msg.Error }

/-- The method `GetSentMessages`.  The result `none` is a run-time panic. -/
def GetSentMessages (env : Env) (page limit : Int) (w : World) :
    World × Option (Except Err api.MessageListResponse) :=
  let r := repository.GetSentMessages env (pageOffset page limit) limit w
  match r.2 with
  | Except.error e => (r.1, some (Except.error (Err.wrapf "failed to get sent messages" e)))
  | Except.ok messages =>
    let c := repository.GetTotalSentCount env r.1
    match c.2 with
    | Except.error e => (c.1, some (Except.error (Err.wrapf "failed to get total count" e)))
    | Except.ok totalCount =>
      match totalPages totalCount limit with
      | none => (c.1, none)
      | some pages =>
        (c.1, some (Except.ok
          { Messages := messages.map toResponse
            Pagination :=
              { CurrentPage := page
                TotalPages := pages
                TotalItems := totalCount
                ItemsPerPage := limit } }))

end service

namespace handler

/-- The method `Handler.GetSentMessages` up to its call of the service: `svc`
is `h.service.Message.GetSentMessages`, and the result is what that call
returns. -/
def GetSentMessages {α : Type} (params : api.GetSentMessagesParams) (svc : Int → Int → α) : α :=
  let page : Int :=
    match params.Page with
    | some p => if 1 ≤ p then p else 1
    | none => 1
  let limit : Int :=
    match params.Limit with
    | some l => if 1 ≤ l ∧ l ≤ 100 then l else 20
    | none => 20
  svc page limit

end handler

namespace Example

/-- An endpoint that answers 200 with a message id. -/
def answerAccepted : HttpResult :=
  HttpResult.response 200 (some { Message := "Success", MessageID := "msg-0" })

/-- An environment whose endpoint accepts every message and whose cache does
not answer. -/
def envCacheDown : Env :=
  { env 1000 answerAccepted with
    cacheErr := fun _ => some (Err.text "dial tcp 127.0.0.1:9999: connect: connection refused") }

/-- An environment whose endpoint accepts every message and whose store rejects
every statement. -/
def envStoreRejects : Env :=
  { env 1000 answerAccepted with dbErr := fun _ => some (Err.text "connection refused") }

/-- A world with one pending message in the table. -/
def onePending (e : Env) : World := service.NewMessageService e cfg [msg 1]

/-- A world with one sent message in the table. -/
def oneSent (e : Env) : World := service.NewMessageService e cfg [sentRow]

end Example

/-- The external id `sendMessage` persists for an accepted response: the decoded
`messageId`, or the placeholder `temp-<id>-<unix time>` when the body does not
decode; `now` is the clock reading the placeholder takes. -/
def service.acceptedID (msg : models.Message) (decoded : Option models.WebhookResponse)
    (now : Int) : String :=
  match decoded with
  | some r => r.MessageID
  | none => "temp-" ++ toString msg.ID ++ "-" ++ toString (service.unixSeconds now)

/-- The number of clock readings the decoding of the response adds: one for the
placeholder. -/
def service.decodeReads (decoded : Option models.WebhookResponse) : Nat :=
  match decoded with
  | some _ => 0
  | none => 1

/-- The error the delivery closure returns when the status update to `Sent`
fails with the store error `e`. -/
def service.sentUpdateError (e : Err) : Err :=
  Err.wrapf "failed to update message status" (Err.wrapf "failed to update message status" e)

/-- The counts of an Open breaker are cleared. -/
def gobreaker.OpenCleared (cb : gobreaker.CircuitBreaker) : Prop :=
  cb.state = gobreaker.State.StateOpen → cb.counts = gobreaker.Counts.clear

/-- A call of a method of the library that takes the mutex of the breaker, with
the clock reading it takes: `State()`, `beforeRequest()`, and
`afterRequest(before, success)` with the generation `beforeRequest` returned. -/
inductive gobreaker.Op where
  | state (now : Int)
  | before (now : Int)
  | after (gen : Nat) (success : Bool) (now : Int)
  deriving DecidableEq, Repr

/-- The breaker after the call. -/
def gobreaker.Op.apply : gobreaker.Op → gobreaker.CircuitBreaker → gobreaker.CircuitBreaker
  | gobreaker.Op.state now, cb => gobreaker.currentState cb now
  | gobreaker.Op.before now, cb => (gobreaker.beforeRequest cb now).1
  | gobreaker.Op.after gen success now, cb => gobreaker.afterRequest cb gen success now

/-- The breaker after a sequence of calls, in any order and at any times. -/
def gobreaker.run (ops : List gobreaker.Op) (cb : gobreaker.CircuitBreaker) :
    gobreaker.CircuitBreaker :=
  ops.foldl (fun c op => op.apply c) cb

namespace Example

/-- The world after one tick over three pending messages with an endpoint that
always answers 500: the second failure trips the breaker. -/
def tripped : World :=
  (service.SendPendingMessages (env 1000 answer500) cfg
    (service.NewMessageService (env 1000 answer500) cfg [msg 1, msg 2, msg 3])).1

end Example

set_option maxRecDepth 100000

/-! ## Frame lemmas -/

section frame
open service
variable (env : Env)

@[simp]
theorem readClock_fst (w : World) : (readClock env w).1 = env.clock w.step := rfl
@[simp]
theorem readClock_step (w : World) : (readClock env w).2.step = w.step + 1 := rfl
@[simp]
theorem readClock_cb (w : World) : (readClock env w).2.cb = w.cb := rfl
@[simp]
theorem readClock_store (w : World) : (readClock env w).2.store = w.store := rfl
@[simp]
theorem readClock_attempts (w : World) : (readClock env w).2.attempts = w.attempts := rfl
@[simp]
theorem readClock_httpLog (w : World) : (readClock env w).2.httpLog = w.httpLog := rfl
@[simp]
theorem readClock_updates (w : World) : (readClock env w).2.updates = w.updates := rfl
@[simp]
theorem readClock_cacheLog (w : World) : (readClock env w).2.cacheLog = w.cacheLog := rfl

theorem GetState_fst (w : World) :
    (CircuitBreaker.GetState env w).1 =
      { w with step := w.step + 1, cb := gobreaker.currentState w.cb (env.clock w.step) } := by
  simp only [CircuitBreaker.GetState, gobreaker.StateOf, readClock]
  split <;> rfl

theorem GetState_frame {β : Type} (π : World → β) (hπ : Frame π) (w : World) :
    π (CircuitBreaker.GetState env w).1 = π w := by
  rw [GetState_fst]; exact hπ w _ _

theorem UpdateMessageStatus_attempts (id : Int) (st : api.MessageStatus) (a b : Option String)
    (w : World) : (repository.UpdateMessageStatus env id st a b w).1.attempts = w.attempts := by
  unfold repository.UpdateMessageStatus
  by_cases h : st = api.MessageStatus.Sent <;> simp only [h, if_true, if_false] <;> split <;> rfl

theorem UpdateMessageStatus_httpLog (id : Int) (st : api.MessageStatus) (a b : Option String)
    (w : World) : (repository.UpdateMessageStatus env id st a b w).1.httpLog = w.httpLog := by
  unfold repository.UpdateMessageStatus
  by_cases h : st = api.MessageStatus.Sent <;> simp only [h, if_true, if_false] <;> split <;> rfl

theorem UpdateMessageStatus_cacheLog (id : Int) (st : api.MessageStatus) (a b : Option String)
    (w : World) : (repository.UpdateMessageStatus env id st a b w).1.cacheLog = w.cacheLog := by
  unfold repository.UpdateMessageStatus
  by_cases h : st = api.MessageStatus.Sent <;> simp only [h, if_true, if_false] <;> split <;> rfl

theorem UpdateMessageStatus_cb (id : Int) (st : api.MessageStatus) (a b : Option String)
    (w : World) : (repository.UpdateMessageStatus env id st a b w).1.cb = w.cb := by
  unfold repository.UpdateMessageStatus
  by_cases h : st = api.MessageStatus.Sent <;> simp only [h, if_true, if_false] <;> split <;> rfl

theorem UpdateMessageStatus_failed_step (id : Int) (a b : Option String) (w : World) :
    (repository.UpdateMessageStatus env id api.MessageStatus.Failed a b w).1.step =
      w.step + 2 := by
  unfold repository.UpdateMessageStatus
  simp only [if_false, reduceCtorEq]
  split <;> rfl

theorem UpdateMessageStatus_updates (id : Int) (st : api.MessageStatus) (a b : Option String)
    (w : World) :
    (repository.UpdateMessageStatus env id st a b w).1.updates = w.updates ++ [⟨id, st, a, b⟩] := by
  unfold repository.UpdateMessageStatus
  by_cases h : st = api.MessageStatus.Sent <;> simp only [h, if_true, if_false] <;> split <;> rfl

theorem execUpdate_consistent (id : Int) (st : api.MessageStatus) (a b : Option String)
    (sentAt : Option Int) (now : Int) (rows : List models.Message)
    (hshape : (st = api.MessageStatus.Sent ∧ a.isSome ∧ b = none ∧ sentAt.isSome) ∨
      (st = api.MessageStatus.Failed ∧ a = none ∧ b.isSome ∧ sentAt = none))
    (hrows : ∀ m ∈ rows, m.Consistent) :
    ∀ m ∈ repository.execUpdate id st a b sentAt now rows, m.Consistent := by
  intro m hm
  simp only [repository.execUpdate, List.mem_map] at hm
  obtain ⟨m0, hm0, rfl⟩ := hm
  split
  · rcases hshape with ⟨h1, h2, h3, h4⟩ | ⟨h1, h2, h3, h4⟩
    · exact Or.inr (Or.inl ⟨h1, h2, h3, h4⟩)
    · exact Or.inr (Or.inr ⟨h1, h2, h3, h4⟩)
  · exact hrows m0 hm0

theorem UpdateMessageStatus_consistent (id : Int) (st : api.MessageStatus) (a b : Option String)
    (w : World) (hshape : (UpdateCall.mk id st a b).Shaped)
    (hrows : ∀ m ∈ w.store, m.Consistent) :
    ∀ m ∈ (repository.UpdateMessageStatus env id st a b w).1.store, m.Consistent := by
  unfold repository.UpdateMessageStatus
  rcases hshape with ⟨h1, h2, h3⟩ | ⟨h1, h2, h3⟩
  · simp only at h1 h2 h3
    subst h1
    simp only [if_true]
    split
    · exact hrows
    · exact execUpdate_consistent _ _ _ _ _ _ _ (Or.inl ⟨rfl, h2, h3, rfl⟩) hrows
  · simp only at h1 h2 h3
    subst h1
    simp only [if_false, reduceCtorEq]
    split
    · exact hrows
    · exact execUpdate_consistent _ _ _ _ _ _ _ (Or.inr ⟨rfl, h2, h3, rfl⟩) hrows

end frame

/-! ## The breaker wrapper: equations and frame lemmas -/

section execute
open service
variable (env : Env)

theorem gobreaker_Execute_rejected (req : World → World × Option Err) (w : World)
    (e : Err) (h : (gobreaker.beforeRequest w.cb (env.clock w.step)).2.2 = some e) :
    gobreaker.Execute env req w = (entered env w, some e) := by
  simp only [gobreaker.Execute, readClock, h, entered]

theorem gobreaker_Execute_admitted (req : World → World × Option Err) (w : World)
    (h : (gobreaker.beforeRequest w.cb (env.clock w.step)).2.2 = none) :
    gobreaker.Execute env req w =
      (settled env (gobreaker.beforeRequest w.cb (env.clock w.step)).2.1
        (req (entered env w)).2.isNone (req (entered env w)).1, (req (entered env w)).2) := by
  simp only [gobreaker.Execute, readClock, h, entered, settled]

theorem Execute_fst (ctxErr : Option Err) (fn : World → World × Option Err) (w : World) :
    (CircuitBreaker.Execute env ctxErr fn w).1 =
      (gobreaker.Execute env (CircuitBreaker.guarded ctxErr fn) w).1 := by
  simp only [CircuitBreaker.Execute]
  split
  · split
    · rfl
    · split <;> rfl
  · rfl

theorem Execute_isNone (ctxErr : Option Err) (fn : World → World × Option Err) (w : World) :
    (CircuitBreaker.Execute env ctxErr fn w).2.isNone =
      (gobreaker.Execute env (CircuitBreaker.guarded ctxErr fn) w).2.isNone := by
  simp only [CircuitBreaker.Execute]
  split
  · rename_i h
    rw [h]
    split
    · rfl
    · split <;> rfl
  · rename_i h
    rw [h]

theorem gobreaker_Execute_frame {β : Type} (π : World → β) (hπ : Frame π)
    (Q : β → β → Bool → Prop) (hrej : ∀ b, Q b b false) (req : World → World × Option Err)
    (hreq : ∀ x, Q (π x) (π (req x).1) (req x).2.isNone) (w : World) :
    Q (π w) (π (gobreaker.Execute env req w).1) (gobreaker.Execute env req w).2.isNone := by
  have he : π (entered env w) = π w := hπ w _ _
  cases h : (gobreaker.beforeRequest w.cb (env.clock w.step)).2.2 with
  | some e =>
    rw [gobreaker_Execute_rejected env req w e h]
    show Q (π w) (π (entered env w)) false
    rw [he]; exact hrej _
  | none =>
    rw [gobreaker_Execute_admitted env req w h]
    show Q (π w) (π (settled env _ _ (req (entered env w)).1)) (req (entered env w)).2.isNone
    rw [show π (settled env _ _ (req (entered env w)).1) = π (req (entered env w)).1
      from hπ _ _ _]
    rw [← he]; exact hreq _

theorem Execute_frame {β : Type} (π : World → β) (hπ : Frame π)
    (Q : β → β → Bool → Prop) (hrej : ∀ b, Q b b false) (ctxErr : Option Err)
    (fn : World → World × Option Err)
    (hfn : ∀ x, Q (π x) (π (fn x).1) (fn x).2.isNone) (w : World) :
    Q (π w) (π (CircuitBreaker.Execute env ctxErr fn w).1)
      (CircuitBreaker.Execute env ctxErr fn w).2.isNone := by
  rw [Execute_fst, Execute_isNone]
  apply gobreaker_Execute_frame env π hπ Q hrej
  intro x
  cases ctxErr with
  | none => exact hfn x
  | some e => exact hrej _

end execute

/-! ## The dispatcher: what one delivery does to the logs and to the table -/

section dispatcher
open service
variable (env : Env) (cfg : config.Config) (msg : models.Message)

theorem frame_attempts : Frame World.attempts := fun _ _ _ => rfl
theorem frame_httpLog : Frame World.httpLog := fun _ _ _ => rfl
theorem frame_updates : Frame World.updates := fun _ _ _ => rfl
theorem frame_store : Frame World.store := fun _ _ _ => rfl

theorem recordSent_attempts (r : models.WebhookResponse) (w : World) :
    (recordSent env msg r w).1.attempts = w.attempts := by
  simp only [recordSent]
  split
  · exact UpdateMessageStatus_attempts ..
  · rw [GetState_frame env _ frame_attempts]
    exact UpdateMessageStatus_attempts ..

theorem recordSent_httpLog (r : models.WebhookResponse) (w : World) :
    (recordSent env msg r w).1.httpLog = w.httpLog := by
  simp only [recordSent]
  split
  · exact UpdateMessageStatus_httpLog ..
  · rw [GetState_frame env _ frame_httpLog]
    exact UpdateMessageStatus_httpLog ..

theorem recordSent_updates (r : models.WebhookResponse) (w : World) :
    (recordSent env msg r w).1.updates =
      w.updates ++ [⟨msg.ID, api.MessageStatus.Sent, some r.MessageID, none⟩] := by
  simp only [recordSent]
  split
  · exact UpdateMessageStatus_updates ..
  · rw [GetState_frame env _ frame_updates]
    exact UpdateMessageStatus_updates ..

theorem recordSent_consistent (r : models.WebhookResponse) (w : World)
    (h : ∀ m ∈ w.store, m.Consistent) :
    ∀ m ∈ (recordSent env msg r w).1.store, m.Consistent := by
  simp only [recordSent]
  split
  · exact UpdateMessageStatus_consistent env _ _ _ _ w (Or.inl ⟨rfl, rfl, rfl⟩) h
  · rw [GetState_frame env _ frame_store]
    exact UpdateMessageStatus_consistent env _ _ _ _ w (Or.inl ⟨rfl, rfl, rfl⟩) h

end dispatcher

section delivery
open service
variable (env : Env) (cfg : config.Config) (msg : models.Message)

theorem deliver_attempts (w : World) : (deliver env cfg msg w).1.attempts = w.attempts := by
  simp only [deliver]
  repeat' split
  all_goals first | rfl | exact recordSent_attempts ..

theorem deliver_updates (w : World) :
    DeliverUpdates msg.ID w.updates (deliver env cfg msg w).1.updates
      (deliver env cfg msg w).2.isNone := by
  simp only [deliver]
  repeat' split
  all_goals first
    | exact Or.inr ⟨rfl, rfl⟩
    | exact Or.inl ⟨_, recordSent_updates ..⟩

theorem deliver_consistent (w : World) (h : ∀ m ∈ w.store, m.Consistent) :
    ∀ m ∈ (deliver env cfg msg w).1.store, m.Consistent := by
  simp only [deliver]
  repeat' split
  all_goals first
    | exact h
    | exact recordSent_consistent env msg _ _ h

theorem sendMessage_attempts (w : World) :
    (sendMessage env cfg msg w).1.attempts = w.attempts ++ [msg.ID] := by
  have hE := Execute_frame env World.attempts frame_attempts (fun a b _ => b = a) (fun _ => rfl)
    none (deliver env cfg msg) (deliver_attempts env cfg msg)
    { w with attempts := w.attempts ++ [msg.ID] }
  simp only [sendMessage]
  split
  · rw [GetState_frame env _ frame_attempts, UpdateMessageStatus_attempts, hE]
  · rw [hE]

theorem sendMessage_updates (w : World) :
    ∃ calls : List UpdateCall, (calls.length = 1 ∨ calls.length = 2) ∧
      (∀ c ∈ calls, c.id = msg.ID ∧ c.Shaped) ∧
      (sendMessage env cfg msg w).1.updates = w.updates ++ calls := by
  have hE := Execute_frame env World.updates frame_updates (DeliverUpdates msg.ID)
    (fun _ => Or.inr ⟨rfl, rfl⟩)
    none (deliver env cfg msg) (deliver_updates env cfg msg)
    { w with attempts := w.attempts ++ [msg.ID] }
  simp only [sendMessage]
  split
  · rename_i err herr
    rw [GetState_frame env _ frame_updates, UpdateMessageStatus_updates]
    rcases hE with ⟨mid, h⟩ | ⟨_, h⟩
    · refine ⟨[⟨msg.ID, api.MessageStatus.Sent, some mid, none⟩,
        ⟨msg.ID, api.MessageStatus.Failed, none, some err.Error⟩], Or.inr rfl, ?_, ?_⟩
      · intro c hc
        simp only [List.mem_cons, List.mem_singleton, List.not_mem_nil, or_false] at hc
        rcases hc with rfl | rfl
        · exact ⟨rfl, Or.inl ⟨rfl, rfl, rfl⟩⟩
        · exact ⟨rfl, Or.inr ⟨rfl, rfl, rfl⟩⟩
      · rw [h]; simp
    · refine ⟨[⟨msg.ID, api.MessageStatus.Failed, none, some err.Error⟩], Or.inl rfl, ?_, ?_⟩
      · intro c hc
        simp only [List.mem_singleton] at hc
        subst hc
        exact ⟨rfl, Or.inr ⟨rfl, rfl, rfl⟩⟩
      · rw [h]
  · rename_i hnone
    rw [hnone] at hE
    rcases hE with ⟨mid, h⟩ | ⟨h, _⟩
    · refine ⟨[⟨msg.ID, api.MessageStatus.Sent, some mid, none⟩], Or.inl rfl, ?_, h⟩
      intro c hc
      simp only [List.mem_singleton] at hc
      subst hc
      exact ⟨rfl, Or.inl ⟨rfl, rfl, rfl⟩⟩
    · simp at h

theorem sendMessage_consistent (w : World) (h : ∀ m ∈ w.store, m.Consistent) :
    ∀ m ∈ (sendMessage env cfg msg w).1.store, m.Consistent := by
  have hE := Execute_frame env World.store frame_store
    (fun a b _ => (∀ m ∈ a, m.Consistent) → ∀ m ∈ b, m.Consistent) (fun _ hb => hb)
    none (deliver env cfg msg) (fun x => deliver_consistent env cfg msg x)
    { w with attempts := w.attempts ++ [msg.ID] } h
  simp only [sendMessage]
  split
  · rw [GetState_frame env _ frame_store]
    exact UpdateMessageStatus_consistent env _ _ _ _ _ (Or.inr ⟨rfl, rfl, rfl⟩) hE
  · exact hE

end delivery

/-! ## The batch loop -/

section batch
open service
variable (env : Env) (cfg : config.Config)

theorem sendAll_attempts (messages : List models.Message) (w : World) :
    (sendAll env cfg messages w).attempts = w.attempts ++ messages.map (fun m => m.ID) := by
  induction messages generalizing w with
  | nil => simp [sendAll]
  | cons m ms ih =>
    have := ih (sendMessage env cfg m w).1
    simp only [sendAll, List.foldl_cons] at this ⊢
    rw [this, sendMessage_attempts]
    simp

theorem sendAll_updates (messages : List models.Message) (w : World) :
    ∃ groups : List (List UpdateCall),
      List.Forall₂ (fun m g => (g.length = 1 ∨ g.length = 2) ∧
        ∀ c ∈ g, c.id = m.ID ∧ c.Shaped) messages groups ∧
      (sendAll env cfg messages w).updates = w.updates ++ groups.flatten := by
  induction messages generalizing w with
  | nil => exact ⟨[], List.Forall₂.nil, by simp [sendAll]⟩
  | cons m ms ih =>
    obtain ⟨g, hlen, hg, hupd⟩ := sendMessage_updates env cfg m w
    obtain ⟨gs, hgs, hrest⟩ := ih (sendMessage env cfg m w).1
    refine ⟨g :: gs, List.Forall₂.cons ⟨hlen, hg⟩ hgs, ?_⟩
    simp only [sendAll, List.foldl_cons] at hrest ⊢
    rw [hrest, hupd]
    simp

theorem sendAll_consistent (messages : List models.Message) (w : World)
    (h : ∀ m ∈ w.store, m.Consistent) :
    ∀ m ∈ (sendAll env cfg messages w).store, m.Consistent := by
  induction messages generalizing w with
  | nil => exact h
  | cons m ms ih =>
    simp only [sendAll, List.foldl_cons]
    exact ih _ (sendMessage_consistent env cfg m w h)

theorem GetUnsentMessages_fst (limit : Int) (w : World) :
    (repository.GetUnsentMessages env limit w).1 = { w with step := w.step + 1 } := by
  simp only [repository.GetUnsentMessages]
  repeat' split
  all_goals rfl

theorem SendPendingMessages_consistent (w : World) (h : ∀ m ∈ w.store, m.Consistent) :
    ∀ m ∈ (SendPendingMessages env cfg w).1.store, m.Consistent := by
  simp only [SendPendingMessages]
  repeat' split
  all_goals first
    | (rw [GetUnsentMessages_fst]; exact h)
    | (apply sendAll_consistent; rw [GetUnsentMessages_fst]; exact h)

theorem runTicks_consistent (n : Nat) (w : World) (h : ∀ m ∈ w.store, m.Consistent) :
    ∀ m ∈ (runTicks env cfg n w).store, m.Consistent := by
  induction n generalizing w with
  | zero => exact h
  | succ n ih => exact ih _ (SendPendingMessages_consistent env cfg w h)

end batch

/-! ## The breaker state machine -/

section breaker
open gobreaker

theorem currentState_closed (cb : CircuitBreaker) (now : Int)
    (hst : cb.state = State.StateClosed) (hwin : ∀ e, cb.expiry = some e → now ≤ e) :
    currentState cb now = cb := by
  unfold currentState
  rw [hst]
  cases he : cb.expiry with
  | none => simp
  | some e =>
    have := hwin e he
    simp [expiryBefore, not_lt.mpr this]

theorem currentState_open (cb : CircuitBreaker) (now e : Int)
    (hst : cb.state = State.StateOpen) (hexp : cb.expiry = some e) (hnow : now ≤ e) :
    currentState cb now = cb := by
  unfold currentState
  rw [hst]
  simp [hexp, expiryBefore, not_lt.mpr hnow]

theorem currentState_halfOpen (cb : CircuitBreaker) (now : Int)
    (hst : cb.state = State.StateHalfOpen) : currentState cb now = cb := by
  unfold currentState
  rw [hst]

theorem beforeRequest_closed (cb : CircuitBreaker) (now : Int)
    (hst : cb.state = State.StateClosed) (hwin : ∀ e, cb.expiry = some e → now ≤ e) :
    beforeRequest cb now = ({ cb with counts := cb.counts.onRequest }, cb.generation, none) := by
  unfold beforeRequest
  rw [currentState_closed cb now hst hwin]
  simp [hst]

theorem beforeRequest_open (cb : CircuitBreaker) (now e : Int)
    (hst : cb.state = State.StateOpen) (hexp : cb.expiry = some e) (hnow : now ≤ e) :
    beforeRequest cb now = (cb, cb.generation, some Err.ErrOpenState) := by
  unfold beforeRequest
  rw [currentState_open cb now e hst hexp hnow]
  simp [hst]

theorem beforeRequest_halfOpen (cb : CircuitBreaker) (now : Int)
    (hst : cb.state = State.StateHalfOpen) (hroom : cb.counts.Requests < cb.maxRequests) :
    beforeRequest cb now = ({ cb with counts := cb.counts.onRequest }, cb.generation, none) := by
  unfold beforeRequest
  rw [currentState_halfOpen cb now hst]
  simp [hst, not_le.mpr hroom]

theorem afterRequest_closed_failure (cb : CircuitBreaker) (now : Int)
    (hst : cb.state = State.StateClosed) (hwin : ∀ e, cb.expiry = some e → now ≤ e) :
    afterRequest cb cb.generation false now =
      if cb.readyToTrip cb.counts.onFailure then
        toNewGeneration { cb with counts := cb.counts.onFailure, state := State.StateOpen } now
      else { cb with counts := cb.counts.onFailure } := by
  unfold afterRequest
  rw [currentState_closed cb now hst hwin]
  simp [hst, onFailure, setState]

theorem afterRequest_halfOpen_failure (cb : CircuitBreaker) (now : Int)
    (hst : cb.state = State.StateHalfOpen) :
    afterRequest cb cb.generation false now =
      toNewGeneration { cb with state := State.StateOpen } now := by
  unfold afterRequest
  rw [currentState_halfOpen cb now hst]
  simp [hst, onFailure, setState]

/-- The quotient of a positive `uint32` by itself is the float `1.0`. -/
theorem divUInt32_self (k : Nat) (hk : 0 < k) : F64.divUInt32 k k = F64.one := by
  have hk0 : k ≠ 0 := Nat.pos_iff_ne_zero.mp hk
  have h1 : k * 2 ^ 96 / k = 2 ^ 96 := Nat.mul_div_cancel_left _ hk
  have h2 : F64.normShift 128 (2 ^ 96) = 44 := by decide
  have h3 : k * 2 ^ 96 / (k * 2 ^ 44) = 2 ^ 52 := by
    rw [Nat.mul_div_mul_left _ _ hk]; norm_num
  have h4 : k * 2 ^ 96 % (k * 2 ^ 44) = 0 := by
    rw [Nat.mul_mod_mul_left]; norm_num
  have h5 : 0 < k * 2 ^ 44 := by positivity
  simp only [F64.divUInt32, hk0, if_false, F64.roundDiv, h1, h2, h3, h4, F64.one]
  simp

end breaker

section breakerWorld
open service gobreaker
variable (env : Env)

theorem entered_closed (w : World) (hst : w.cb.state = State.StateClosed)
    (hwin : ∀ e, w.cb.expiry = some e → env.clock w.step ≤ e) :
    entered env w =
      { w with step := w.step + 1, cb := { w.cb with counts := w.cb.counts.onRequest } } := by
  simp only [entered, beforeRequest_closed w.cb _ hst hwin]

/-- A failing call that leaves the breaker alone, made while the breaker is
Closed and its window has expired neither when the call starts nor when its
outcome is recorded. -/
theorem gobreaker_Execute_closed_failure (req : World → World × Option Err) (w : World)
    (hst : w.cb.state = State.StateClosed)
    (hwin : ∀ e, w.cb.expiry = some e → env.clock w.step ≤ e)
    (hwin2 : ∀ e, w.cb.expiry = some e → env.clock (req (entered env w)).1.step ≤ e)
    (hcb : ∀ x, (req x).1.cb = x.cb) (hfail : ∀ x, (req x).2.isNone = false) :
    gobreaker.Execute env req w =
      ({ (req (entered env w)).1 with
          step := (req (entered env w)).1.step + 1
          cb :=
            if w.cb.readyToTrip w.cb.counts.onRequest.onFailure then
              toNewGeneration
                { w.cb with counts := w.cb.counts.onRequest.onFailure, state := State.StateOpen }
                (env.clock (req (entered env w)).1.step)
            else { w.cb with counts := w.cb.counts.onRequest.onFailure } },
        (req (entered env w)).2) := by
  have hb := beforeRequest_closed w.cb (env.clock w.step) hst hwin
  rw [gobreaker_Execute_admitted env req w (by rw [hb])]
  have hcb1 : (req (entered env w)).1.cb = { w.cb with counts := w.cb.counts.onRequest } := by
    rw [hcb, entered_closed env w hst hwin]
  have ha := afterRequest_closed_failure { w.cb with counts := w.cb.counts.onRequest }
    (env.clock (req (entered env w)).1.step) hst hwin2
  simp only [settled, hcb1, hfail, hb]
  simp only at ha
  rw [ha]

/-- A call made while the breaker is Open and the cool-down has not elapsed. -/
theorem gobreaker_Execute_open (req : World → World × Option Err) (w : World) (e : Int)
    (hst : w.cb.state = State.StateOpen) (hexp : w.cb.expiry = some e)
    (hnow : env.clock w.step ≤ e) :
    gobreaker.Execute env req w = ({ w with step := w.step + 1 }, some Err.ErrOpenState) := by
  have hb := beforeRequest_open w.cb (env.clock w.step) e hst hexp hnow
  rw [gobreaker_Execute_rejected env req w Err.ErrOpenState (by rw [hb])]
  simp only [entered, hb]

theorem Execute_open (ctxErr : Option Err) (fn : World → World × Option Err) (w : World)
    (e : Int) (hst : w.cb.state = State.StateOpen) (hexp : w.cb.expiry = some e)
    (hnow : env.clock w.step ≤ e) :
    CircuitBreaker.Execute env ctxErr fn w = ({ w with step := w.step + 1 }, some openError) := by
  simp only [CircuitBreaker.Execute, gobreaker_Execute_open env _ w e hst hexp hnow]
  rfl

theorem guarded_cb (ctxErr : Option Err) (fn : World → World × Option Err)
    (hcb : ∀ x, (fn x).1.cb = x.cb) (x : World) :
    (CircuitBreaker.guarded ctxErr fn x).1.cb = x.cb := by
  cases ctxErr with
  | none => exact hcb x
  | some e => rfl

/-- Every call of `Execute` consumes at least one clock reading. -/
theorem Execute_step_lt (fn : World → World × Option Err) (hstep : ∀ x, x.step ≤ (fn x).1.step)
    (w : World) : w.step < (CircuitBreaker.Execute env none fn w).1.step := by
  rw [Execute_fst]
  cases h : (gobreaker.beforeRequest w.cb (env.clock w.step)).2.2 with
  | some e =>
    rw [gobreaker_Execute_rejected env _ w e h]
    show w.step < w.step + 1
    omega
  | none =>
    rw [gobreaker_Execute_admitted env _ w h]
    show w.step < (fn (entered env w)).1.step + 1
    have := hstep (entered env w)
    have h2 : (entered env w).step = w.step + 1 := rfl
    omega

/-- The clock reading at which a call admitted by a Closed breaker is recorded
is the last interaction of the call. -/
theorem Execute_closed_step (fn : World → World × Option Err) (w : World)
    (hst : w.cb.state = State.StateClosed)
    (hwin : ∀ e, w.cb.expiry = some e → env.clock w.step ≤ e) :
    (CircuitBreaker.Execute env none fn w).1.step = (fn (entered env w)).1.step + 1 := by
  have hb := beforeRequest_closed w.cb (env.clock w.step) hst hwin
  rw [Execute_fst, gobreaker_Execute_admitted env _ w (by rw [hb])]
  rfl

theorem Execute_closed_failure_cb (fn : World → World × Option Err) (w : World)
    (hst : w.cb.state = State.StateClosed)
    (hwin : ∀ e, w.cb.expiry = some e → env.clock w.step ≤ e)
    (hwin2 : ∀ e, w.cb.expiry = some e → env.clock (fn (entered env w)).1.step ≤ e)
    (hcb : ∀ x, (fn x).1.cb = x.cb) (hfail : ∀ x, (fn x).2.isNone = false) :
    (CircuitBreaker.Execute env none fn w).1.cb =
      if w.cb.readyToTrip w.cb.counts.onRequest.onFailure then
        toNewGeneration
          { w.cb with counts := w.cb.counts.onRequest.onFailure, state := State.StateOpen }
          (env.clock (fn (entered env w)).1.step)
      else { w.cb with counts := w.cb.counts.onRequest.onFailure } := by
  rw [Execute_fst, gobreaker_Execute_closed_failure env (CircuitBreaker.guarded none fn) w hst
    hwin hwin2 (guarded_cb none fn hcb) (fun x => hfail x)]
  rfl

end breakerWorld

section counting
open service gobreaker

theorem NewCircuitBreaker_fields (cfg : config.CircuitBreakerConfig) (t0 : Int) :
    (service.NewCircuitBreaker cfg t0).state = State.StateClosed ∧
    (service.NewCircuitBreaker cfg t0).readyToTrip = readyToTrip cfg ∧
    (service.NewCircuitBreaker cfg t0).counts = ⟨0, 0, 0, 0, 0⟩ ∧
    0 < (service.NewCircuitBreaker cfg t0).timeout := by
  refine ⟨rfl, rfl, rfl, ?_⟩
  simp only [service.NewCircuitBreaker, gobreaker.NewCircuitBreaker, toNewGeneration]
  split
  · decide
  · omega

theorem readyToTrip_below (cfg : config.CircuitBreakerConfig) (c : Counts)
    (h : c.Requests < cfg.ConsecutiveFails) : readyToTrip cfg c = false := by
  simp [readyToTrip, not_le.mpr h]

theorem readyToTrip_all_failed (cfg : config.CircuitBreakerConfig) (c : Counts)
    (hreq : cfg.ConsecutiveFails ≤ c.Requests) (hpos : 0 < c.Requests)
    (hall : c.TotalFailures = c.Requests) (hratio : cfg.FailureRatio.le F64.one = true) :
    readyToTrip cfg c = true := by
  simp [readyToTrip, hreq, hall, divUInt32_self _ hpos, F64.ge, hratio]

/-- After `j < k` failing calls, all made and recorded before the first window
ends, the breaker is the fresh breaker with `j` requests, all failed. -/
theorem repeatExecute_counts (env : Env) (cfg : config.CircuitBreakerConfig)
    (fn : World → World × Option Err) (hcb : ∀ x, (fn x).1.cb = x.cb)
    (hfail : ∀ x, (fn x).2.isNone = false) (hstep : ∀ x, x.step ≤ (fn x).1.step)
    (w0 : World) (t0 : Int) (hfresh : w0.cb = service.NewCircuitBreaker cfg t0)
    (hk32 : cfg.ConsecutiveFails < 2 ^ 32) (j : Nat) (hj : j < cfg.ConsecutiveFails)
    (hwin : ∀ e, w0.cb.expiry = some e →
      ∀ n, n < (CircuitBreaker.repeatExecute env fn j w0).step → env.clock n ≤ e) :
    (CircuitBreaker.repeatExecute env fn j w0).cb = { w0.cb with counts := ⟨j, 0, j, 0, j⟩ } := by
  induction j with
  | zero => simp only [CircuitBreaker.repeatExecute]; rw [hfresh]; rfl
  | succ j ih =>
    have hlt := Execute_step_lt env fn hstep (CircuitBreaker.repeatExecute env fn j w0)
    have hnext : CircuitBreaker.repeatExecute env fn (j + 1) w0 =
        (CircuitBreaker.Execute env none fn (CircuitBreaker.repeatExecute env fn j w0)).1 := rfl
    rw [hnext] at hwin
    have ih := ih (by omega) (fun e he n hn => hwin e he n (by omega))
    have hst : (CircuitBreaker.repeatExecute env fn j w0).cb.state = State.StateClosed := by
      rw [ih, hfresh]; rfl
    have hwin1 : ∀ e, (CircuitBreaker.repeatExecute env fn j w0).cb.expiry = some e →
        env.clock (CircuitBreaker.repeatExecute env fn j w0).step ≤ e := by
      rw [ih]; exact fun e he => hwin e he _ hlt
    have hs := Execute_closed_step env fn _ hst hwin1
    have hwin2 : ∀ e, (CircuitBreaker.repeatExecute env fn j w0).cb.expiry = some e →
        env.clock (fn (entered env (CircuitBreaker.repeatExecute env fn j w0))).1.step ≤ e := by
      rw [ih]; exact fun e he => hwin e he _ (by omega)
    simp only [CircuitBreaker.repeatExecute]
    rw [Execute_closed_failure_cb env fn _ hst hwin1 hwin2 hcb hfail, ih]
    have hmod : (j + 1) % 2 ^ 32 = j + 1 := Nat.mod_eq_of_lt (by omega)
    have hc : (Counts.mk j 0 j 0 j).onRequest.onFailure = ⟨j + 1, 0, j + 1, 0, j + 1⟩ := by
      simp only [Counts.onRequest, Counts.onFailure, hmod]
    have hrt : w0.cb.readyToTrip = readyToTrip cfg := by rw [hfresh]; rfl
    simp only [hc, hrt, readyToTrip_below cfg ⟨j + 1, 0, j + 1, 0, j + 1⟩ hj]
    rfl

/-- The interaction counter never decreases along repeated calls. -/
theorem repeatExecute_step_mono (env : Env) (fn : World → World × Option Err)
    (hstep : ∀ x, x.step ≤ (fn x).1.step) (w0 : World) (i n : Nat) (h : i ≤ n) :
    (CircuitBreaker.repeatExecute env fn i w0).step ≤
      (CircuitBreaker.repeatExecute env fn n w0).step := by
  induction n with
  | zero =>
    have : i = 0 := by omega
    subst this
    exact Nat.le_refl _
  | succ n ih =>
    by_cases hi : i = n + 1
    · subst hi; exact Nat.le_refl _
    · exact Nat.le_trans (ih (by omega))
        (Nat.le_of_lt (Execute_step_lt env fn hstep (CircuitBreaker.repeatExecute env fn n w0)))

end counting

/-! ## Deliveries against an endpoint that answers 500 -/

section always500
open service gobreaker
variable (env : Env) (cfg : config.Config)

theorem deliver_500 (msg : models.Message) (w : World) (hreq : env.newRequestErr = none)
    (d : Option models.WebhookResponse) (hhttp : env.http w.step = HttpResult.response 500 d) :
    deliver env cfg msg w =
      ({ w with step := w.step + 1, httpLog := w.httpLog ++ [buildRequest cfg msg] },
        some status500) := by
  simp only [deliver, hreq, hhttp]
  rfl

theorem sendMessage_failed_fields (msg : models.Message) (w : World) (err : Err)
    (h : (CircuitBreaker.Execute env none (deliver env cfg msg)
      { w with attempts := w.attempts ++ [msg.ID] }).2 = some err) :
    (sendMessage env cfg msg w).1.updates =
      (CircuitBreaker.Execute env none (deliver env cfg msg)
        { w with attempts := w.attempts ++ [msg.ID] }).1.updates ++
        [⟨msg.ID, api.MessageStatus.Failed, none, some err.Error⟩] ∧
    (sendMessage env cfg msg w).1.httpLog =
      (CircuitBreaker.Execute env none (deliver env cfg msg)
        { w with attempts := w.attempts ++ [msg.ID] }).1.httpLog ∧
    (sendMessage env cfg msg w).1.step =
      (CircuitBreaker.Execute env none (deliver env cfg msg)
        { w with attempts := w.attempts ++ [msg.ID] }).1.step + 3 ∧
    (sendMessage env cfg msg w).1.cb =
      currentState (CircuitBreaker.Execute env none (deliver env cfg msg)
        { w with attempts := w.attempts ++ [msg.ID] }).1.cb
        (env.clock ((CircuitBreaker.Execute env none (deliver env cfg msg)
          { w with attempts := w.attempts ++ [msg.ID] }).1.step + 2)) := by
  simp only [sendMessage, h]
  refine ⟨?_, ?_, ?_, ?_⟩
  · rw [GetState_frame env _ frame_updates, UpdateMessageStatus_updates]
  · rw [GetState_frame env _ frame_httpLog, UpdateMessageStatus_httpLog]
  · rw [GetState_fst]
    exact congrArg (· + 1) (UpdateMessageStatus_failed_step ..)
  · rw [GetState_fst]
    show currentState _ _ = _
    rw [UpdateMessageStatus_cb, UpdateMessageStatus_failed_step]

/-- One delivery on a Closed breaker, answered with 500, whose six interactions
all take place before the window ends. -/
theorem sendMessage_closed_500 (msg : models.Message) (w : World)
    (hreq : env.newRequestErr = none)
    (hhttp : ∀ n, ∃ d, env.http n = HttpResult.response 500 d)
    (hst : w.cb.state = State.StateClosed)
    (hwin : ∀ e, w.cb.expiry = some e → ∀ n, n < w.step + 6 → env.clock n ≤ e)
    (hcool : ∀ m n, env.clock n ≤ env.clock m + w.cb.timeout) :
    (sendMessage env cfg msg w).1.updates =
      w.updates ++ [⟨msg.ID, api.MessageStatus.Failed, none, some status500.Error⟩] ∧
    (sendMessage env cfg msg w).1.httpLog = w.httpLog ++ [buildRequest cfg msg] ∧
    (sendMessage env cfg msg w).1.step = w.step + 6 ∧
    ((w.cb.readyToTrip w.cb.counts.onRequest.onFailure = false ∧
        (sendMessage env cfg msg w).1.cb =
          { w.cb with counts := w.cb.counts.onRequest.onFailure }) ∨
      (w.cb.readyToTrip w.cb.counts.onRequest.onFailure = true ∧
        ∃ n, (sendMessage env cfg msg w).1.cb =
          toNewGeneration
            { w.cb with counts := w.cb.counts.onRequest.onFailure, state := State.StateOpen }
            (env.clock n))) := by
  have hdel : ∀ x, deliver env cfg msg x =
      ({ x with step := x.step + 1, httpLog := x.httpLog ++ [buildRequest cfg msg] },
        some status500) := by
    intro x
    obtain ⟨d, hd⟩ := hhttp x.step
    exact deliver_500 env cfg msg x hreq d hd
  have hwin1 : ∀ e, w.cb.expiry = some e → env.clock w.step ≤ e :=
    fun e he => hwin e he _ (by omega)
  have hent := entered_closed env { w with attempts := w.attempts ++ [msg.ID] } hst hwin1
  have hg := gobreaker_Execute_closed_failure env
    (CircuitBreaker.guarded none (deliver env cfg msg))
    { w with attempts := w.attempts ++ [msg.ID] } hst hwin1
    (by
      intro e he
      simp only [CircuitBreaker.guarded, hdel, hent]
      exact hwin e he _ (by omega))
    (fun x => by simp only [CircuitBreaker.guarded, hdel])
    (fun x => by simp only [CircuitBreaker.guarded, hdel]; rfl)
  have hE : CircuitBreaker.Execute env none (deliver env cfg msg)
      { w with attempts := w.attempts ++ [msg.ID] } =
      ({ w with
          attempts := w.attempts ++ [msg.ID]
          step := w.step + 3
          httpLog := w.httpLog ++ [buildRequest cfg msg]
          cb :=
            if w.cb.readyToTrip w.cb.counts.onRequest.onFailure then
              toNewGeneration
                { w.cb with counts := w.cb.counts.onRequest.onFailure, state := State.StateOpen }
                (env.clock (w.step + 2))
            else { w.cb with counts := w.cb.counts.onRequest.onFailure } },
        some status500) := by
    simp only [CircuitBreaker.Execute, hg]
    simp only [CircuitBreaker.guarded, hdel, hent]
    rfl
  obtain ⟨hu, hl, hs, hc⟩ := sendMessage_failed_fields env cfg msg w status500 (by rw [hE])
  rw [hE] at hu hl hs hc
  refine ⟨hu, hl, hs, ?_⟩
  by_cases hr : w.cb.readyToTrip w.cb.counts.onRequest.onFailure = true
  · right
    refine ⟨hr, w.step + 2, ?_⟩
    rw [hc]
    simp only [hr, if_true]
    exact currentState_open _ _ (env.clock (w.step + 2) + w.cb.timeout) rfl rfl (hcool _ _)
  · left
    have hr2 : w.cb.readyToTrip w.cb.counts.onRequest.onFailure = false := by
      simpa using hr
    refine ⟨hr2, ?_⟩
    rw [hc]
    simp only [hr2]
    exact currentState_closed _ _ hst (fun e he => hwin e he _ (by omega))

/-- One delivery on an Open breaker, inside its cool-down. -/
theorem sendMessage_open (msg : models.Message) (w : World) (e : Int)
    (hst : w.cb.state = State.StateOpen) (hexp : w.cb.expiry = some e)
    (hcool : ∀ n, env.clock n ≤ e) :
    (sendMessage env cfg msg w).1.updates =
      w.updates ++ [⟨msg.ID, api.MessageStatus.Failed, none, some openError.Error⟩] ∧
    (sendMessage env cfg msg w).1.httpLog = w.httpLog ∧
    (sendMessage env cfg msg w).1.cb = w.cb := by
  have hE := Execute_open env none (deliver env cfg msg)
    { w with attempts := w.attempts ++ [msg.ID] } e hst hexp (hcool _)
  obtain ⟨hu, hl, _, hc⟩ := sendMessage_failed_fields env cfg msg w openError (by rw [hE])
  rw [hE] at hu hl hc
  refine ⟨hu, hl, ?_⟩
  rw [hc]
  exact currentState_open _ _ e hst hexp (hcool _)

theorem sendAll_open (messages : List models.Message) (w : World) (e : Int)
    (hst : w.cb.state = State.StateOpen) (hexp : w.cb.expiry = some e)
    (hcool : ∀ n, env.clock n ≤ e) :
    (sendAll env cfg messages w).updates =
      w.updates ++ messages.map
        (fun m => ⟨m.ID, api.MessageStatus.Failed, none, some openError.Error⟩) ∧
    (sendAll env cfg messages w).httpLog = w.httpLog ∧
    (sendAll env cfg messages w).cb = w.cb := by
  induction messages generalizing w with
  | nil => simp [sendAll]
  | cons m ms ih =>
    obtain ⟨hu, hl, hc⟩ := sendMessage_open env cfg m w e hst hexp hcool
    obtain ⟨hu2, hl2, hc2⟩ := ih (sendMessage env cfg m w).1 (by rw [hc]; exact hst)
      (by rw [hc]; exact hexp)
    simp only [sendAll, List.foldl_cons] at hu2 hl2 hc2 ⊢
    rw [hu2, hl2, hc2, hu, hl, hc]
    simp

end always500


section cancelled
open service gobreaker

theorem guarded_cancelled (e : Err) (fn fn2 : World → World × Option Err) :
    CircuitBreaker.guarded (some e) fn = CircuitBreaker.guarded (some e) fn2 := by
  funext x
  rfl

end cancelled



/-! ## Trial calls in the Half-Open state -/

section halfOpen
open service gobreaker

theorem afterRequest_halfOpen_success (cb : CircuitBreaker) (now : Int)
    (hst : cb.state = State.StateHalfOpen) :
    afterRequest cb cb.generation true now =
      if cb.maxRequests ≤ cb.counts.onSuccess.ConsecutiveSuccesses then
        toNewGeneration { cb with counts := cb.counts.onSuccess, state := State.StateClosed } now
      else { cb with counts := cb.counts.onSuccess } := by
  unfold afterRequest
  rw [currentState_halfOpen cb now hst]
  simp [hst, onSuccess, setState]

/-- A successful trial call that leaves the breaker alone. -/
theorem Execute_halfOpen_success (env : Env) (fn : World → World × Option Err) (w : World)
    (hst : w.cb.state = State.StateHalfOpen)
    (hroom : w.cb.counts.Requests < w.cb.maxRequests)
    (hcb : ∀ x, (fn x).1.cb = x.cb) (hok : ∀ x, (fn x).2 = none) :
    (CircuitBreaker.Execute env none fn w).2 = none ∧
    (CircuitBreaker.Execute env none fn w).1.cb =
      if w.cb.maxRequests ≤ w.cb.counts.onRequest.onSuccess.ConsecutiveSuccesses then
        toNewGeneration
          { w.cb with counts := w.cb.counts.onRequest.onSuccess, state := State.StateClosed }
          (env.clock (fn (entered env w)).1.step)
      else { w.cb with counts := w.cb.counts.onRequest.onSuccess } := by
  have hb := beforeRequest_halfOpen w.cb (env.clock w.step) hst hroom
  have hent : entered env w =
      { w with step := w.step + 1, cb := { w.cb with counts := w.cb.counts.onRequest } } := by
    simp only [entered, hb]
  have hcb1 : (fn (entered env w)).1.cb = { w.cb with counts := w.cb.counts.onRequest } := by
    rw [hcb, hent]
  have ha := afterRequest_halfOpen_success { w.cb with counts := w.cb.counts.onRequest }
    (env.clock (fn (entered env w)).1.step) hst
  simp only at ha
  have hg := gobreaker_Execute_admitted env (CircuitBreaker.guarded none fn) w (by rw [hb])
  refine ⟨?_, ?_⟩
  · simp only [CircuitBreaker.Execute, hg, CircuitBreaker.guarded, hok]
  · rw [Execute_fst, hg]
    simp only [settled, CircuitBreaker.guarded, hcb1, hok, hb]
    exact ha

/-- After `j < MaxRequests` successful trial calls the breaker is still
Half-Open, with `j` requests, all successful. -/
theorem repeatExecute_halfOpen (env : Env) (fn : World → World × Option Err) (w : World)
    (hst : w.cb.state = State.StateHalfOpen) (hc : w.cb.counts = Counts.clear)
    (h32 : w.cb.maxRequests < 2 ^ 32)
    (hcb : ∀ x, (fn x).1.cb = x.cb) (hok : ∀ x, (fn x).2 = none)
    (j : Nat) (hj : j < w.cb.maxRequests) :
    (CircuitBreaker.repeatExecute env fn j w).cb = { w.cb with counts := ⟨j, j, 0, j, 0⟩ } := by
  induction j with
  | zero =>
    simp only [CircuitBreaker.repeatExecute]
    rw [show (⟨0, 0, 0, 0, 0⟩ : Counts) = Counts.clear from rfl, ← hc]
  | succ j ih =>
    have ih := ih (by omega)
    have hstj : (CircuitBreaker.repeatExecute env fn j w).cb.state = State.StateHalfOpen := by
      rw [ih]; exact hst
    have hroom : (CircuitBreaker.repeatExecute env fn j w).cb.counts.Requests <
        (CircuitBreaker.repeatExecute env fn j w).cb.maxRequests := by
      rw [ih]; show j < w.cb.maxRequests; omega
    have hE := (Execute_halfOpen_success env fn _ hstj hroom hcb hok).2
    simp only [CircuitBreaker.repeatExecute]
    rw [hE, ih]
    have hmod : (j + 1) % 2 ^ 32 = j + 1 := Nat.mod_eq_of_lt (by omega)
    have hcnt : (Counts.mk j j 0 j 0).onRequest.onSuccess = ⟨j + 1, j + 1, 0, j + 1, 0⟩ := by
      simp only [Counts.onRequest, Counts.onSuccess, hmod]
    simp only [hcnt]
    rw [if_neg (by show ¬ w.cb.maxRequests ≤ j + 1; omega)]

end halfOpen

/-! ## The health report -/

section health
open service

theorem roundHalfEven_close (n d : Nat) (hd : 0 < d) :
    2 * n ≤ 2 * (d * F64.roundHalfEven n d) + d ∧ 2 * (d * F64.roundHalfEven n d) ≤ 2 * n + d := by
  have h1 := Nat.div_add_mod n d
  have h2 := Nat.mod_lt n hd
  unfold F64.roundHalfEven
  generalize n / d = q at h1 ⊢
  generalize n % d = r at h1 h2 ⊢
  split_ifs <;> (try simp only [Nat.mul_add, Nat.mul_one]) <;> generalize d * q = x at h1 ⊢ <;> omega

/-- The tenths that `%.1f` prints are within half a tenth of the value. -/
theorem tenths_close (m : Nat) (e : Int) :
    |(F64.tenths m e : ℚ) - 10 * (F64.fin false m e).toRat| ≤ 1 / 2 := by
  unfold F64.tenths F64.toRat
  split
  · rename_i he
    obtain ⟨k, rfl⟩ := Int.eq_ofNat_of_zero_le he
    simp only [Int.toNat_ofNat, zpow_natCast, Nat.cast_mul, Nat.cast_pow, Nat.cast_ofNat]
    have : (m : ℚ) * 10 * 2 ^ k - 10 * ((if false = true then -1 else 1) * m * 2 ^ k) = 0 := by
      simp; ring
    rw [this]; norm_num
  · rename_i he
    obtain ⟨k, hk⟩ : ∃ k : Nat, e = -(k : Int) := ⟨(-e).toNat, by omega⟩
    subst hk
    simp only [neg_neg, Int.toNat_ofNat, zpow_neg, zpow_natCast]
    have hd : 0 < 2 ^ k := by positivity
    obtain ⟨h1, h2⟩ := roundHalfEven_close (m * 10) (2 ^ k) hd
    have hdq : (0 : ℚ) < 2 ^ k := by positivity
    have h1q : (2 : ℚ) * (m * 10) ≤ 2 * (2 ^ k * F64.roundHalfEven (m * 10) (2 ^ k)) + 2 ^ k := by
      exact_mod_cast h1
    have h2q : (2 : ℚ) * (2 ^ k * F64.roundHalfEven (m * 10) (2 ^ k)) ≤ 2 * (m * 10) + 2 ^ k := by
      exact_mod_cast h2
    rw [abs_le]
    constructor
    · rw [← sub_nonneg]
      have : ((F64.roundHalfEven (m * 10) (2 ^ k) : ℚ) -
          10 * ((if false = true then -1 else 1) * m * (2 ^ k)⁻¹)) - -(1 / 2) =
          (2 * (2 ^ k * F64.roundHalfEven (m * 10) (2 ^ k)) + 2 ^ k - 2 * (m * 10)) /
            (2 * 2 ^ k) := by
        field_simp; ring
      rw [this]
      apply div_nonneg <;> linarith
    · rw [← sub_nonneg]
      have : (1 / 2 : ℚ) - ((F64.roundHalfEven (m * 10) (2 ^ k) : ℚ) -
          10 * ((if false = true then -1 else 1) * m * (2 ^ k)⁻¹)) =
          (2 * (m * 10) + 2 ^ k - 2 * (2 ^ k * F64.roundHalfEven (m * 10) (2 ^ k))) /
            (2 * 2 ^ k) := by
        field_simp; ring
      rw [this]
      apply div_nonneg <;> linarith

theorem toString_digit_length (d : Nat) (h : d < 10) : (toString d).length = 1 := by
  interval_cases d <;> decide

/-- The failure rate of positive `requests` is a finite, non-negative float. -/
theorem failureRate_finite (failures requests : Nat) (hr : 0 < requests) :
    ∃ m e, (F64.divUInt32 failures requests).mul100 = F64.fin false m e := by
  have hr0 : requests ≠ 0 := Nat.pos_iff_ne_zero.mp hr
  unfold F64.divUInt32
  rw [if_neg hr0]
  split
  · exact ⟨_, _, rfl⟩
  · exact ⟨_, _, rfl⟩

end health

section schedulerLemmas

open scheduler

theorem scheduler.exec_invariant (P : System → Prop)
    (hstep : ∀ a sys next, P sys → step a sys = some next → P next) :
    ∀ (acts : List Action) (sys next : System), P sys → exec acts sys = some next → P next := by
  intro acts
  induction acts with
  | nil =>
    intro sys next hP h
    simp only [exec, Option.some.injEq] at h
    exact h ▸ hP
  | cons a rest ih =>
    intro sys next hP h
    simp only [exec] at h
    cases hs : step a sys with
    | none => rw [hs] at h; cases h
    | some mid =>
      rw [hs] at h
      exact ih mid next (hstep a sys mid hP hs) h

theorem scheduler.Inv_NewScheduler (interval : Int) : Inv (NewScheduler interval) := by
  constructor <;> simp [NewScheduler]

theorem scheduler.Phase.active_entry_ne {p : Phase} (h : p.active = false) :
    p ≠ Phase.entry := by
  intro hp
  rw [hp] at h
  cases h

theorem scheduler.Inv_Start (ctx : Nat) (sys : System) (h : Inv sys)
    (hpc : sys.pc = StopPC.idle) : Inv (Start ctx sys).1 := by
  obtain ⟨h1, h2, h3, h4, h5, h6, h7, h8, h9, h10, h11, h12, h13, h14, h15⟩ := h
  unfold Start
  split_ifs with hrun
  · exact ⟨h1, h2, h3, h4, h5, h6, h7, h8, h9, h10, h11, h12, h13, h14, h15⟩
  · have hr : sys.s.isRunning = false := by simpa using hrun
    refine ⟨?_, ?_, ?_, ?_, ?_, ?_, ?_, ?_, ?_, ?_, ?_, ?_, ?_, ?_, ?_⟩ <;>
      simp only [Function.update_apply]
    · omega
    · omega
    · omega
    · intro c hc
      have := h4 c hc
      omega
    · intro hcr
      cases hcr
    · intro h0
      omega
    · intro i hi
      have hi2 : i ≠ sys.spawned := by omega
      rw [if_neg hi2]
      by_cases hlast : i + 1 = sys.spawned
      · have hna : (sys.loops i).phase.active = false := by
          have hiff := h8 i hlast
          rw [hr] at hiff
          simpa using hiff
        have hd := h9 i hlast (Phase.active_entry_ne hna)
        exact ⟨hna, by omega, by omega, by omega⟩
      · obtain ⟨a, b, c, d⟩ := h7 i (by omega)
        exact ⟨a, by omega, by omega, by omega⟩
    · intro i hi
      have hi2 : i = sys.spawned := by omega
      rw [if_pos hi2]
      simp [Phase.active]
    · intro i hi hne
      have hi2 : i = sys.spawned := by omega
      rw [if_pos hi2] at hne
      exact absurd rfl hne
    · intro i hi
      have hi2 : i = sys.spawned := by omega
      rw [if_pos hi2]
      constructor
      · intro hmem
        have := h4 _ hmem
        omega
      · intro hp
        cases hp
    · intro i hi hna
      have hi2 : i = sys.spawned := by omega
      rw [if_pos hi2] at hna
      cases hna
    · intro hp
      rw [hpc] at hp
      cases hp
    · intro hp
      exact absurd hpc hp
    · intro hst
      cases hst
    · intro _ _ hmem
      have := h4 _ hmem
      omega

theorem scheduler.Phase.active_ne_exited {p : Phase} (h : p.active = true) :
    p ≠ Phase.exited := by
  intro hp
  rw [hp] at h
  cases h

theorem scheduler.Inv.is_last {sys : System} (h : Inv sys) {i : Nat} (hi : i < sys.spawned)
    (hact : (sys.loops i).phase.active = true) : i + 1 = sys.spawned := by
  by_contra hne
  have := (h.earlier i (by omega)).1
  rw [hact] at this
  cases this

theorem scheduler.Inv_StopEnter (sys : System) (h : Inv sys) (hpc : sys.pc = StopPC.idle) :
    Inv (StopEnter sys).1 := by
  unfold StopEnter
  split_ifs with hrun
  · exact h
  · have hr : sys.s.isRunning = true := by simpa using hrun
    have hsp : sys.spawned ≠ 0 := by
      intro h0
      have := (h.unspawned h0).2
      rw [hr] at this
      cases this
    have hsince : sys.since = Since.started := by
      cases hsi : sys.since with
      | created => exact absurd (h.created hsi) hsp
      | started => rfl
      | stopped =>
        have := h.stopped hsi
        rw [hr] at this
        cases this
    obtain ⟨h1, h2, h3, h4, h5, h6, h7, h8, h9, h10, h11, h12, h13, h14, h15⟩ := h
    refine ⟨h1, h2, h3, h4, h5, ?_, h7, h8, h9, h10, h11, ?_, ?_, h14, ?_⟩
    · intro h0
      exact absurd h0 hsp
    · intro hp
      cases hp
    · intro _
      exact hsince
    · intro hst _
      exact h15 hst (Or.inl hpc)

theorem scheduler.Inv_StopClose (sys next : System) (h : Inv sys) (hpc : sys.pc = StopPC.closing)
    (hs : StopClose sys = some next) : Inv next := by
  unfold StopClose at hs
  split_ifs at hs with hmem
  cases hs
  have hsp : sys.spawned ≠ 0 := by
    intro h0
    have := (h.unspawned h0).1
    rw [hpc] at this
    cases this
  obtain ⟨h1, h2, h3, h4, h5, h6, h7, h8, h9, h10, h11, h12, h13, h14, h15⟩ := h
  refine ⟨h1, h2, h3, ?_, h5, ?_, h7, h8, h9, ?_, ?_, ?_, ?_, h14, ?_⟩
  · intro c hc
    rcases List.mem_cons.mp hc with hc | hc
    · rw [hc]
      exact h1
    · exact h4 c hc
  · intro h0
    exact absurd h0 hsp
  · intro i hi
    rw [← h10 i hi]
    constructor
    · intro hm
      rcases List.mem_cons.mp hm with hm | hm
      · exact absurd hm.symm h3
      · exact hm
    · intro hm
      exact List.mem_cons_of_mem _ hm
  · intro i hi hna
    exact Or.inr (List.mem_cons_self _ _)
  · intro hp
    cases hp
  · intro _
    exact h13 (by rw [hpc]; decide)
  · intro _ hp
    rcases hp with hp | hp <;> cases hp

theorem scheduler.Inv_StopAwait (sys next : System) (h : Inv sys) (hpc : sys.pc = StopPC.waiting)
    (hs : StopAwait sys = some next) : Inv next := by
  unfold StopAwait at hs
  split_ifs at hs with hmem
  cases hs
  have hsp : sys.spawned ≠ 0 := by
    intro h0
    have := (h.unspawned h0).1
    rw [hpc] at this
    cases this
  obtain ⟨h1, h2, h3, h4, h5, h6, h7, h8, h9, h10, h11, h12, h13, h14, h15⟩ := h
  refine ⟨h1, h2, h3, h4, h5, ?_, h7, h8, h9, h10, h11, ?_, ?_, h14, ?_⟩
  · intro h0
    exact absurd h0 hsp
  · intro _
    exact hmem
  · intro _
    exact h13 (by rw [hpc]; decide)
  · intro _ hp
    rcases hp with hp | hp <;> cases hp

theorem scheduler.Inv_StopFinish (sys : System) (h : Inv sys) (hpc : sys.pc = StopPC.finishing) :
    Inv (StopFinish sys) := by
  unfold StopFinish
  obtain ⟨h1, h2, h3, h4, h5, h6, h7, h8, h9, h10, h11, h12, h13, h14, h15⟩ := h
  refine ⟨h1, h2, h3, h4, ?_, ?_, h7, ?_, h9, h10, h11, ?_, ?_, ?_, ?_⟩
  · intro hc
    cases hc
  · intro _
    exact ⟨rfl, rfl⟩
  · intro i hi
    have hex := (h10 i hi).mp (h12 hpc)
    simp [hex, Phase.active]
  · intro hp
    cases hp
  · intro hp
    exact absurd rfl hp
  · intro _
    rfl
  · intro hst
    cases hst

theorem scheduler.Inv_cancel (ctx : Nat) (sys : System) (h : Inv sys) :
    Inv { sys with cancelled := ctx :: sys.cancelled } := by
  obtain ⟨h1, h2, h3, h4, h5, h6, h7, h8, h9, h10, h11, h12, h13, h14, h15⟩ := h
  refine ⟨h1, h2, h3, h4, h5, h6, h7, h8, h9, h10, ?_, h12, h13, h14, h15⟩
  intro i hi hna
  rcases h11 i hi hna with hc | hc
  · exact Or.inl (List.mem_cons_of_mem _ hc)
  · exact Or.inr hc

/-- A step of an active goroutine that stays in the loop. -/
theorem scheduler.Inv_active (sys next : System) (i : Nat) (L : Loop) (h : Inv sys)
    (hi : i < sys.spawned) (hact : (sys.loops i).phase.active = true)
    (hL : L.phase.active = true) (hdone : L.phase ≠ Phase.entry → L.doneCh = sys.s.doneCh)
    (e1 : next.s = sys.s) (e2 : next.closed = sys.closed) (e3 : next.nextCh = sys.nextCh)
    (e4 : next.cancelled = sys.cancelled) (e5 : next.spawned = sys.spawned)
    (e6 : next.loops = Function.update sys.loops i L) (e7 : next.pc = sys.pc)
    (e8 : next.since = sys.since) : Inv next := by
  have hlast := h.is_last hi hact
  obtain ⟨h1, h2, h3, h4, h5, h6, h7, h8, h9, h10, h11, h12, h13, h14, h15⟩ := h
  refine ⟨?_, ?_, ?_, ?_, ?_, ?_, ?_, ?_, ?_, ?_, ?_, ?_, ?_, ?_, ?_⟩ <;>
    simp only [e1, e2, e3, e4, e5, e6, e7, e8, Function.update_apply]
  · exact h1
  · exact h2
  · exact h3
  · exact h4
  · exact h5
  · exact h6
  · intro j hj
    have hji : j ≠ i := by omega
    rw [if_neg hji]
    exact h7 j hj
  · intro j hj
    have hji : j = i := by omega
    rw [if_pos hji, hL, ← h8 i hlast, hact]
  · intro j hj hne
    have hji : j = i := by omega
    rw [if_pos hji] at hne ⊢
    exact hdone hne
  · intro j hj
    have hji : j = i := by omega
    rw [if_pos hji, h10 i hlast]
    constructor
    · intro hp
      exact absurd hp (Phase.active_ne_exited hact)
    · intro hp
      exact absurd hp (Phase.active_ne_exited hL)
  · intro j hj hna
    have hji : j = i := by omega
    rw [if_pos hji, hL] at hna
    cases hna
  · exact h12
  · exact h13
  · exact h14
  · exact h15

theorem scheduler.Inv_leaveLoop (i : Nat) (sys : System) (h : Inv sys) (hi : i < sys.spawned)
    (hsel : (sys.loops i).phase = Phase.selecting)
    (hwhy : (sys.loops i).ctx ∈ sys.cancelled ∨ sys.s.stopCh ∈ sys.closed) :
    Inv (leaveLoop i sys) := by
  have hact : (sys.loops i).phase.active = true := by rw [hsel]; rfl
  have hlast := h.is_last hi hact
  obtain ⟨h1, h2, h3, h4, h5, h6, h7, h8, h9, h10, h11, h12, h13, h14, h15⟩ := h
  refine ⟨?_, ?_, ?_, ?_, ?_, ?_, ?_, ?_, ?_, ?_, ?_, ?_, ?_, ?_, ?_⟩ <;>
    simp only [leaveLoop, setPhase, Function.update_apply]
  · exact h1
  · exact h2
  · exact h3
  · exact h4
  · exact h5
  · intro h0
    omega
  · intro j hj
    have hji : j ≠ i := by omega
    rw [if_neg hji]
    exact h7 j hj
  · intro j hj
    have hji : j = i := by omega
    rw [if_pos hji]
    simp [Phase.active]
  · intro j hj hne
    have hji : j = i := by omega
    rw [if_pos hji]
    exact h9 i hlast (by rw [hsel]; decide)
  · intro j hj
    have hji : j = i := by omega
    rw [if_pos hji, h10 i hlast, hsel]
    constructor <;> intro hp <;> cases hp
  · intro j hj _
    have hji : j = i := by omega
    rw [if_pos hji]
    exact hwhy
  · exact h12
  · exact h13
  · intro _
    trivial
  · exact h15

theorem scheduler.Inv_loopClose (i : Nat) (sys : System) (h : Inv sys) (hi : i < sys.spawned)
    (hret : (sys.loops i).phase = Phase.returned) :
    Inv (setPhase i Phase.exited { sys with closed := (sys.loops i).doneCh :: sys.closed }) := by
  obtain ⟨h1, h2, h3, h4, h5, h6, h7, h8, h9, h10, h11, h12, h13, h14, h15⟩ := h
  have hne : (sys.loops i).phase ≠ Phase.entry := by rw [hret]; decide
  have hd : (sys.loops i).doneCh < sys.nextCh ∧ (sys.loops i).doneCh ≠ sys.s.stopCh ∧
      (i + 1 < sys.spawned → (sys.loops i).doneCh ≠ sys.s.doneCh) ∧
      (i + 1 = sys.spawned → (sys.loops i).doneCh = sys.s.doneCh) := by
    by_cases hlast : i + 1 = sys.spawned
    · have := h9 i hlast hne
      refine ⟨by omega, by omega, fun hlt => by omega, fun _ => this⟩
    · obtain ⟨_, b, c, d⟩ := h7 i (by omega)
      exact ⟨d, c, fun _ => b, fun he => absurd he hlast⟩
  obtain ⟨hd1, hd2, hd3, hd4⟩ := hd
  refine ⟨?_, ?_, ?_, ?_, ?_, ?_, ?_, ?_, ?_, ?_, ?_, ?_, ?_, ?_, ?_⟩ <;>
    simp only [setPhase, Function.update_apply]
  · exact h1
  · exact h2
  · exact h3
  · intro c hc
    rcases List.mem_cons.mp hc with hc | hc
    · rw [hc]
      exact hd1
    · exact h4 c hc
  · exact h5
  · exact h6
  · intro j hj
    by_cases hji : j = i
    · rw [if_pos hji]
      subst hji
      obtain ⟨_, b, c, d⟩ := h7 j hj
      exact ⟨rfl, b, c, d⟩
    · rw [if_neg hji]
      exact h7 j hj
  · intro j hj
    by_cases hji : j = i
    · rw [if_pos hji]
      subst hji
      rw [← h8 j hj, hret]
      simp [Phase.active]
    · rw [if_neg hji]
      exact h8 j hj
  · intro j hj hp
    by_cases hji : j = i
    · rw [if_pos hji]
      subst hji
      exact h9 j hj hne
    · rw [if_neg hji] at hp ⊢
      exact h9 j hj hp
  · intro j hj
    by_cases hji : j = i
    · rw [if_pos hji]
      subst hji
      rw [hd4 hj]
      simp
    · rw [if_neg hji, ← h10 j hj]
      have hlt : i + 1 < sys.spawned := by omega
      constructor
      · intro hm
        rcases List.mem_cons.mp hm with hm | hm
        · exact absurd hm.symm (hd3 hlt)
        · exact hm
      · intro hm
        exact List.mem_cons_of_mem _ hm
  · intro j hj hna
    have hna2 : (sys.loops j).phase.active = false := by
      by_cases hji : j = i
      · subst hji
        rw [hret]
        rfl
      · rw [if_neg hji] at hna
        exact hna
    have hc : (sys.loops j).ctx ∈ sys.cancelled ∨ sys.s.stopCh ∈ sys.closed := h11 j hj hna2
    by_cases hji : j = i
    · rw [if_pos hji]
      subst hji
      rcases hc with hc | hc
      · exact Or.inl hc
      · exact Or.inr (List.mem_cons_of_mem _ hc)
    · rw [if_neg hji]
      rcases hc with hc | hc
      · exact Or.inl hc
      · exact Or.inr (List.mem_cons_of_mem _ hc)
  · intro hp
    exact List.mem_cons_of_mem _ (h12 hp)
  · exact h13
  · exact h14
  · intro hst hp hm
    rcases List.mem_cons.mp hm with hm | hm
    · exact hd2 hm.symm
    · exact h15 hst hp hm

theorem scheduler.Inv_step (a : Action) (sys next : System) (h : Inv sys)
    (hs : step a sys = some next) : Inv next := by
  cases a with
  | start ctx =>
    simp only [step] at hs
    split_ifs at hs with hpc
    cases hs
    exact Inv_Start ctx sys h hpc
  | stop =>
    simp only [step] at hs
    split_ifs at hs with hpc
    cases hs
    exact Inv_StopEnter sys h hpc
  | stopClose =>
    simp only [step] at hs
    split_ifs at hs with hpc
    exact Inv_StopClose sys next h hpc hs
  | stopAwait =>
    simp only [step] at hs
    split_ifs at hs with hpc
    exact Inv_StopAwait sys next h hpc hs
  | stopFinish =>
    simp only [step] at hs
    split_ifs at hs with hpc
    cases hs
    exact Inv_StopFinish sys h hpc
  | cancel ctx =>
    simp only [step] at hs
    cases hs
    exact Inv_cancel ctx sys h
  | loopInitial i err =>
    simp only [step] at hs
    split_ifs at hs with hg
    cases hs
    refine Inv_active sys _ i
      { sys.loops i with doneCh := sys.s.doneCh, phase := Phase.initialDone } h hg.1
      (by rw [hg.2]; rfl) rfl (fun _ => rfl) rfl rfl rfl rfl rfl ?_ rfl rfl
    simp [setPhase, executeTask]
  | loopTicker i =>
    simp only [step] at hs
    split_ifs at hs with hg
    cases hs
    have hne : (sys.loops i).phase ≠ Phase.entry := by rw [hg.2.1]; decide
    refine Inv_active sys _ i { sys.loops i with phase := Phase.selecting } h hg.1
      (by rw [hg.2.1]; rfl) rfl (fun _ => h.last_done i ?_ hne) rfl rfl rfl rfl rfl rfl rfl rfl
    exact h.is_last hg.1 (by rw [hg.2.1]; rfl)
  | loopTick i err =>
    simp only [step] at hs
    split_ifs at hs with hg
    cases hs
    have hne : (sys.loops i).phase ≠ Phase.entry := by rw [hg.2]; decide
    refine Inv_active sys _ i { sys.loops i with ticks := (sys.loops i).ticks + 1 } h hg.1
      (by rw [hg.2]; rfl) (by show (sys.loops i).phase.active = true; rw [hg.2]; rfl)
      (fun _ => h.last_done i ?_ hne) rfl rfl rfl rfl rfl rfl rfl rfl
    exact h.is_last hg.1 (by rw [hg.2]; rfl)
  | loopStop i =>
    simp only [step] at hs
    split_ifs at hs with hg
    cases hs
    exact Inv_leaveLoop i sys h hg.1 hg.2.1 (Or.inr hg.2.2)
  | loopCancel i =>
    simp only [step] at hs
    split_ifs at hs with hg
    cases hs
    exact Inv_leaveLoop i sys h hg.1 hg.2.1 (Or.inl hg.2.2)
  | loopClose i =>
    simp only [step] at hs
    split_ifs at hs with hg
    cases hs
    exact Inv_loopClose i sys h hg.1 hg.2

theorem scheduler.Inv_exec (interval : Int) (acts : List Action) (sys : System)
    (h : exec acts (NewScheduler interval) = some sys) : Inv sys :=
  exec_invariant Inv Inv_step acts (NewScheduler interval) sys (Inv_NewScheduler interval) h

end schedulerLemmas

section schedulerCounting

open scheduler

theorem scheduler.invocations_executeTask (i j : Nat) (err : Option Err) (sys : System) :
    invocations j (executeTask i err sys) = invocations j sys + (if i = j then 1 else 0) := by
  unfold invocations executeTask
  rw [List.countP_append]
  by_cases hij : i = j <;> simp [List.countP_cons, hij]

/-- A step that makes no invocation, consumes no firing and moves no goroutine
out of or into the entry phase. -/
theorem scheduler.Counted_same (sys next : System) (h : Counted sys)
    (e1 : next.calls = sys.calls) (e2 : next.spawned = sys.spawned)
    (e3 : ∀ j, (next.loops j).ticks = (sys.loops j).ticks)
    (e4 : ∀ j, (next.loops j).phase = Phase.entry ↔ (sys.loops j).phase = Phase.entry) :
    Counted next := by
  intro j
  have hinv : invocations j next = invocations j sys := by
    unfold invocations
    rw [e1]
  rw [hinv, e2, e3 j]
  exact ⟨(h j).1, fun hj => ⟨fun hp => ((h j).2 hj).1 ((e4 j).mp hp),
    fun hp => ((h j).2 hj).2 (fun e => hp ((e4 j).mpr e))⟩⟩

theorem scheduler.Counted_setPhase (i : Nat) (p : Phase) (sys : System) (h : Counted sys)
    (h1 : (sys.loops i).phase ≠ Phase.entry) (h2 : p ≠ Phase.entry) :
    Counted (setPhase i p sys) := by
  refine Counted_same sys _ h rfl rfl ?_ ?_
  · intro j
    simp only [setPhase, Function.update_apply]
    split_ifs with hj
    · rw [hj]
    · rfl
  · intro j
    simp only [setPhase, Function.update_apply]
    split_ifs with hj
    · subst hj
      exact ⟨fun hp => absurd hp h2, fun hp => absurd hp h1⟩
    · rfl

theorem scheduler.Counted_NewScheduler (interval : Int) : Counted (NewScheduler interval) := by
  intro i
  constructor
  · intro _
    rfl
  · intro hi
    exact absurd hi (Nat.not_lt_zero i)

theorem scheduler.Counted_step (a : Action) (sys next : System) (h : Counted sys)
    (hs : step a sys = some next) : Counted next := by
  cases a with
  | start ctx =>
    simp only [step, Start] at hs
    split_ifs at hs with hpc hrun
    · cases hs
      exact h
    · cases hs
      intro j
      have hinv : ∀ x, invocations j { sys with
          s := x
          nextCh := sys.nextCh + 2
          spawned := sys.spawned + 1
          loops := Function.update sys.loops sys.spawned
            { ctx := ctx, phase := Phase.entry, doneCh := 0, ticks := 0 }
          since := Since.started } = invocations j sys := fun _ => rfl
      rw [hinv]
      simp only [Function.update_apply]
      constructor
      · intro hj
        exact (h j).1 (by omega)
      · intro hj
        split_ifs with hjs
        · exact ⟨fun _ => ⟨(h j).1 (by omega), rfl⟩, fun hp => absurd rfl hp⟩
        · exact (h j).2 (by omega)
  | stop =>
    simp only [step, StopEnter] at hs
    split_ifs at hs <;> cases hs
    · exact h
    · exact Counted_same sys _ h rfl rfl (fun _ => rfl) (fun _ => Iff.rfl)
  | stopClose =>
    simp only [step, StopClose] at hs
    split_ifs at hs
    cases hs
    exact Counted_same sys _ h rfl rfl (fun _ => rfl) (fun _ => Iff.rfl)
  | stopAwait =>
    simp only [step, StopAwait] at hs
    split_ifs at hs
    cases hs
    exact Counted_same sys _ h rfl rfl (fun _ => rfl) (fun _ => Iff.rfl)
  | stopFinish =>
    simp only [step, StopFinish] at hs
    split_ifs at hs
    cases hs
    exact Counted_same sys _ h rfl rfl (fun _ => rfl) (fun _ => Iff.rfl)
  | cancel ctx =>
    simp only [step] at hs
    cases hs
    exact Counted_same sys _ h rfl rfl (fun _ => rfl) (fun _ => Iff.rfl)
  | loopInitial i err =>
    simp only [step] at hs
    split_ifs at hs with hg
    cases hs
    obtain ⟨hi, hp⟩ := hg
    intro j
    have hinv : invocations j (setPhase i Phase.initialDone (executeTask i err
        { sys with
          loops := Function.update sys.loops i { sys.loops i with doneCh := sys.s.doneCh } })) =
        invocations j sys + (if i = j then 1 else 0) :=
      invocations_executeTask i j err _
    rw [hinv]
    simp only [setPhase, executeTask, Function.update_apply]
    constructor
    · intro hj
      have hij : ¬ i = j := by
        intro hij
        have : sys.spawned ≤ i := hij ▸ hj
        omega
      rw [if_neg hij]
      exact (h j).1 hj
    · intro hj
      by_cases hji : j = i
      · subst hji
        have h0 := ((h j).2 hi).1 hp
        simp [h0.1, h0.2]
      · have hij : ¬ i = j := fun e => hji e.symm
        simp only [if_neg hji, if_neg hij, Nat.add_zero]
        exact (h j).2 hj
  | loopTicker i =>
    simp only [step] at hs
    split_ifs at hs with hg
    cases hs
    exact Counted_setPhase i _ sys h (by rw [hg.2.1]; decide) (by decide)
  | loopTick i err =>
    simp only [step] at hs
    split_ifs at hs with hg
    cases hs
    obtain ⟨hi, hp⟩ := hg
    intro j
    have hinv : invocations j (executeTask i err
        { sys with
          loops := Function.update sys.loops i
            { sys.loops i with ticks := (sys.loops i).ticks + 1 } }) =
        invocations j sys + (if i = j then 1 else 0) :=
      invocations_executeTask i j err _
    rw [hinv]
    simp only [executeTask, Function.update_apply]
    constructor
    · intro hj
      have hij : ¬ i = j := by
        intro hij
        have : sys.spawned ≤ i := hij ▸ hj
        omega
      rw [if_neg hij]
      exact (h j).1 hj
    · intro hj
      by_cases hji : j = i
      · subst hji
        have h0 := ((h j).2 hi).2 (by rw [hp]; decide)
        simp [h0, hp]
      · have hij : ¬ i = j := fun e => hji e.symm
        simp only [if_neg hji, if_neg hij, Nat.add_zero]
        exact (h j).2 hj
  | loopStop i =>
    simp only [step, leaveLoop] at hs
    split_ifs at hs with hg
    cases hs
    exact Counted_same _ _ (Counted_setPhase i Phase.returned sys h (by rw [hg.2.1]; decide)
      (by decide)) rfl rfl (fun _ => rfl) (fun _ => Iff.rfl)
  | loopCancel i =>
    simp only [step, leaveLoop] at hs
    split_ifs at hs with hg
    cases hs
    exact Counted_same _ _ (Counted_setPhase i Phase.returned sys h (by rw [hg.2.1]; decide)
      (by decide)) rfl rfl (fun _ => rfl) (fun _ => Iff.rfl)
  | loopClose i =>
    simp only [step] at hs
    split_ifs at hs with hg
    cases hs
    refine Counted_setPhase i Phase.exited _ ?_ (by rw [hg.2]; decide) (by decide)
    exact Counted_same sys _ h rfl rfl (fun _ => rfl) (fun _ => Iff.rfl)

theorem scheduler.Counted_exec (interval : Int) (acts : List Action) (sys : System)
    (h : exec acts (NewScheduler interval) = some sys) : Counted sys :=
  exec_invariant Counted Counted_step acts (NewScheduler interval) sys
    (Counted_NewScheduler interval) h

theorem scheduler.Quiet_of_stopped (sys : System) (h : Inv sys) (hst : sys.since = Since.stopped) :
    Quiet sys := by
  have hr := h.stopped hst
  have hpc : sys.pc = StopPC.idle := by
    by_contra hne
    have := h.busy hne
    rw [hst] at this
    cases this
  refine ⟨hr, hpc, ?_⟩
  intro i hi
  by_cases hlast : i + 1 = sys.spawned
  · have hiff := h.last_active i hlast
    rw [hr] at hiff
    simpa using hiff
  · exact (h.earlier i (by omega)).1

theorem scheduler.Quiet_step (a : Action) (sys next : System) (h : Quiet sys)
    (hns : ∀ ctx, a ≠ Action.start ctx) (hs : step a sys = some next) :
    Quiet next ∧ next.calls = sys.calls := by
  obtain ⟨hr, hpc, hq⟩ := h
  cases a with
  | start ctx => exact absurd rfl (hns ctx)
  | stop =>
    have he : (StopEnter sys).1 = sys := by simp [StopEnter, hr]
    simp only [step] at hs
    rw [if_pos hpc, he] at hs
    cases hs
    exact ⟨⟨hr, hpc, hq⟩, rfl⟩
  | stopClose =>
    simp only [step] at hs
    rw [if_neg (by rw [hpc]; decide)] at hs
    cases hs
  | stopAwait =>
    simp only [step] at hs
    rw [if_neg (by rw [hpc]; decide)] at hs
    cases hs
  | stopFinish =>
    simp only [step] at hs
    rw [if_neg (by rw [hpc]; decide)] at hs
    cases hs
  | cancel ctx =>
    simp only [step] at hs
    cases hs
    exact ⟨⟨hr, hpc, hq⟩, rfl⟩
  | loopInitial i err =>
    simp only [step] at hs
    split_ifs at hs with hg
    have := hq i hg.1
    rw [hg.2] at this
    cases this
  | loopTicker i =>
    simp only [step] at hs
    split_ifs at hs with hg
    have := hq i hg.1
    rw [hg.2.1] at this
    cases this
  | loopTick i err =>
    simp only [step] at hs
    split_ifs at hs with hg
    have := hq i hg.1
    rw [hg.2] at this
    cases this
  | loopStop i =>
    simp only [step] at hs
    split_ifs at hs with hg
    have := hq i hg.1
    rw [hg.2.1] at this
    cases this
  | loopCancel i =>
    simp only [step] at hs
    split_ifs at hs with hg
    have := hq i hg.1
    rw [hg.2.1] at this
    cases this
  | loopClose i =>
    simp only [step] at hs
    split_ifs at hs with hg
    cases hs
    refine ⟨⟨hr, hpc, ?_⟩, rfl⟩
    intro j hj
    simp only [setPhase, Function.update_apply]
    split_ifs with hji
    · rfl
    · exact hq j hj

theorem scheduler.Quiet_exec (more : List Action) :
    ∀ (sys next : System), Quiet sys → (∀ ctx, Action.start ctx ∉ more) →
      exec more sys = some next → Quiet next ∧ next.calls = sys.calls := by
  induction more with
  | nil =>
    intro sys next hq _ h
    simp only [exec, Option.some.injEq] at h
    subst h
    exact ⟨hq, rfl⟩
  | cons a rest ih =>
    intro sys next hq hns h
    simp only [exec] at h
    cases hs : step a sys with
    | none => rw [hs] at h; cases h
    | some mid =>
      rw [hs] at h
      have hmid := Quiet_step a sys mid hq
        (fun ctx he => hns ctx (he ▸ List.mem_cons_self _ _)) hs
      have hrest := ih mid next hmid.1 (fun ctx hm => hns ctx (List.mem_cons_of_mem _ hm)) h
      exact ⟨hrest.1, hrest.2.trans hmid.2⟩

end schedulerCounting

section schedulerSpawned

open scheduler

theorem scheduler.spawned_step (a : Action) (sys next : System)
    (h : Inv sys ∧ (sys.spawned = 0 → sys.since = Since.created))
    (hs : step a sys = some next) :
    Inv next ∧ (next.spawned = 0 → next.since = Since.created) := by
  refine ⟨Inv_step a sys next h.1 hs, ?_⟩
  obtain ⟨hinv, hsp⟩ := h
  cases a with
  | start ctx =>
    simp only [step, Start] at hs
    split_ifs at hs <;> cases hs
    · exact hsp
    · intro h0
      exact absurd h0 (Nat.succ_ne_zero _)
  | stop =>
    simp only [step, StopEnter] at hs
    split_ifs at hs <;> cases hs <;> exact hsp
  | stopClose =>
    simp only [step, StopClose] at hs
    split_ifs at hs
    cases hs
    exact hsp
  | stopAwait =>
    simp only [step, StopAwait] at hs
    split_ifs at hs
    cases hs
    exact hsp
  | stopFinish =>
    simp only [step, StopFinish] at hs
    split_ifs at hs with hpc
    cases hs
    intro h0
    have := (hinv.unspawned h0).1
    rw [hpc] at this
    cases this
  | cancel ctx =>
    simp only [step] at hs
    cases hs
    exact hsp
  | loopInitial i err =>
    simp only [step] at hs
    split_ifs at hs
    cases hs
    exact hsp
  | loopTicker i =>
    simp only [step] at hs
    split_ifs at hs
    cases hs
    exact hsp
  | loopTick i err =>
    simp only [step] at hs
    split_ifs at hs
    cases hs
    exact hsp
  | loopStop i =>
    simp only [step] at hs
    split_ifs at hs
    cases hs
    exact hsp
  | loopCancel i =>
    simp only [step] at hs
    split_ifs at hs
    cases hs
    exact hsp
  | loopClose i =>
    simp only [step] at hs
    split_ifs at hs
    cases hs
    exact hsp

theorem scheduler.spawned_exec (interval : Int) (acts : List Action) (sys : System)
    (h : exec acts (NewScheduler interval) = some sys) :
    sys.spawned = 0 → sys.since = Since.created :=
  (exec_invariant (fun x => Inv x ∧ (x.spawned = 0 → x.since = Since.created)) spawned_step acts
    (NewScheduler interval) sys ⟨Inv_NewScheduler interval, fun _ => rfl⟩ h).2

end schedulerSpawned

section schedulerRetired

open scheduler

/-- A goroutine that has left the loop stays out of it and makes no further
invocation, whatever happens next. -/
theorem scheduler.retired_step (i : Nat) (a : Action) (sys next : System)
    (h : i < sys.spawned ∧ (sys.loops i).phase.active = false)
    (hs : step a sys = some next) :
    (i < next.spawned ∧ (next.loops i).phase.active = false) ∧
      invocations i next = invocations i sys := by
  obtain ⟨hi, hna⟩ := h
  have hne : ∀ (j : Nat) (p : Phase), p.active = true → (sys.loops j).phase = p → j ≠ i := by
    intro j p hp hj e
    rw [e] at hj
    rw [hj, hp] at hna
    cases hna
  cases a with
  | start ctx =>
    simp only [step, Start] at hs
    split_ifs at hs <;> cases hs
    · exact ⟨⟨hi, hna⟩, rfl⟩
    · refine ⟨⟨Nat.lt_succ_of_lt hi, ?_⟩, rfl⟩
      simp only [Function.update_apply]
      rw [if_neg (Nat.ne_of_lt hi)]
      exact hna
  | stop =>
    simp only [step, StopEnter] at hs
    split_ifs at hs <;> cases hs <;> exact ⟨⟨hi, hna⟩, rfl⟩
  | stopClose =>
    simp only [step, StopClose] at hs
    split_ifs at hs
    cases hs
    exact ⟨⟨hi, hna⟩, rfl⟩
  | stopAwait =>
    simp only [step, StopAwait] at hs
    split_ifs at hs
    cases hs
    exact ⟨⟨hi, hna⟩, rfl⟩
  | stopFinish =>
    simp only [step, StopFinish] at hs
    split_ifs at hs
    cases hs
    exact ⟨⟨hi, hna⟩, rfl⟩
  | cancel ctx =>
    simp only [step] at hs
    cases hs
    exact ⟨⟨hi, hna⟩, rfl⟩
  | loopInitial j err =>
    simp only [step] at hs
    split_ifs at hs with hg
    cases hs
    have hji : j ≠ i := fun e => hne j Phase.entry rfl hg.2 e
    refine ⟨⟨hi, ?_⟩, ?_⟩
    · simp only [setPhase, executeTask, Function.update_apply, if_neg (Ne.symm hji)]
      exact hna
    · have := invocations_executeTask j i err
        { sys with
          loops := Function.update sys.loops j { sys.loops j with doneCh := sys.s.doneCh } }
      rw [if_neg hji] at this
      exact this
  | loopTicker j =>
    simp only [step] at hs
    split_ifs at hs with hg
    cases hs
    have hji : j ≠ i := fun e => hne j Phase.initialDone rfl hg.2.1 e
    refine ⟨⟨hi, ?_⟩, rfl⟩
    simp only [setPhase, Function.update_apply]
    rw [if_neg (Ne.symm hji)]
    exact hna
  | loopTick j err =>
    simp only [step] at hs
    split_ifs at hs with hg
    cases hs
    have hji : j ≠ i := fun e => hne j Phase.selecting rfl hg.2 e
    refine ⟨⟨hi, ?_⟩, ?_⟩
    · simp only [executeTask, Function.update_apply]
      rw [if_neg (Ne.symm hji)]
      exact hna
    · have := invocations_executeTask j i err
        { sys with
          loops := Function.update sys.loops j
            { sys.loops j with ticks := (sys.loops j).ticks + 1 } }
      rw [if_neg hji] at this
      exact this
  | loopStop j =>
    simp only [step] at hs
    split_ifs at hs with hg
    cases hs
    have hji : j ≠ i := fun e => hne j Phase.selecting rfl hg.2.1 e
    refine ⟨⟨hi, ?_⟩, rfl⟩
    simp only [leaveLoop, setPhase, Function.update_apply]
    rw [if_neg (Ne.symm hji)]
    exact hna
  | loopCancel j =>
    simp only [step] at hs
    split_ifs at hs with hg
    cases hs
    have hji : j ≠ i := fun e => hne j Phase.selecting rfl hg.2.1 e
    refine ⟨⟨hi, ?_⟩, rfl⟩
    simp only [leaveLoop, setPhase, Function.update_apply]
    rw [if_neg (Ne.symm hji)]
    exact hna
  | loopClose j =>
    simp only [step] at hs
    split_ifs at hs with hg
    cases hs
    refine ⟨⟨hi, ?_⟩, rfl⟩
    simp only [setPhase, Function.update_apply]
    split_ifs
    · rfl
    · exact hna

theorem scheduler.retired_exec (i : Nat) (more : List Action) :
    ∀ (sys later : System), i < sys.spawned → (sys.loops i).phase.active = false →
      exec more sys = some later →
      (i < later.spawned ∧ (later.loops i).phase.active = false) ∧
        invocations i later = invocations i sys := by
  induction more with
  | nil =>
    intro sys later hi hna h
    simp only [exec, Option.some.injEq] at h
    subst h
    exact ⟨⟨hi, hna⟩, rfl⟩
  | cons a rest ih =>
    intro sys later hi hna h
    simp only [exec] at h
    cases hs : step a sys with
    | none => rw [hs] at h; cases h
    | some mid =>
      rw [hs] at h
      have hmid := retired_step i a sys mid ⟨hi, hna⟩ hs
      have hrest := ih mid later hmid.1.1 hmid.1.2 h
      exact ⟨hrest.1, hrest.2.trans hmid.2⟩

theorem scheduler.Quiet_leaveLoop (i : Nat) (sys : System) (h : Inv sys) (hi : i < sys.spawned)
    (hsel : (sys.loops i).phase = Phase.selecting) (hpc : sys.pc = StopPC.idle) :
    Quiet (leaveLoop i sys) := by
  have hlast := h.is_last hi (by rw [hsel]; rfl)
  refine ⟨rfl, hpc, ?_⟩
  intro j hj
  simp only [leaveLoop, setPhase, Function.update_apply]
  split_ifs with hji
  · rfl
  · have hj2 : j < sys.spawned := hj
    exact (h.earlier j (by omega)).1

end schedulerRetired

section schedulerTimed

open scheduler

theorem scheduler.Timed_NewScheduler (interval : Int) : Timed interval (NewScheduler interval) :=
  ⟨rfl, fun _ hc => (nomatch hc), fun i hi _ => absurd hi (Nat.not_lt_zero i)⟩

/-- A step that makes no invocation, spawns no goroutine, keeps the contexts and
gives a ticker only to a goroutine that had one or under a positive interval. -/
theorem scheduler.Timed_same (interval : Int) (sys next : System) (h : Timed interval sys)
    (e1 : next.calls = sys.calls) (e2 : next.spawned = sys.spawned)
    (e3 : next.s.interval = sys.s.interval)
    (e4 : ∀ j, (next.loops j).ctx = (sys.loops j).ctx)
    (e5 : ∀ j, j < sys.spawned → (next.loops j).phase.ticking = true →
      (sys.loops j).phase.ticking = true ∨ 0 < interval) : Timed interval next := by
  refine ⟨e3.trans h.interval_eq, ?_, ?_⟩
  · intro c hc
    rw [e1] at hc
    rw [e2, e4]
    exact h.calls c hc
  · intro j hj ht
    rw [e2] at hj
    rcases e5 j hj ht with h1 | h1
    · exact h.ticking j hj h1
    · exact h1

theorem scheduler.Timed_setPhase (interval : Int) (i : Nat) (p : Phase) (sys : System)
    (h : Timed interval sys)
    (hp : p.ticking = true → (sys.loops i).phase.ticking = true ∨ 0 < interval) :
    Timed interval (setPhase i p sys) := by
  refine Timed_same interval sys _ h rfl rfl rfl ?_ ?_
  · intro j
    simp only [setPhase, Function.update_apply]
    split_ifs with hj
    · rw [hj]
    · rfl
  · intro j _
    simp only [setPhase, Function.update_apply]
    split_ifs with hj
    · subst hj
      exact hp
    · exact Or.inl

theorem scheduler.Timed_executeTask (interval : Int) (i : Nat) (err : Option Err) (sys : System)
    (h : Timed interval sys) (hi : i < sys.spawned) : Timed interval (executeTask i err sys) := by
  refine ⟨h.interval_eq, ?_, h.ticking⟩
  intro c hc
  simp only [executeTask, List.mem_append, List.mem_singleton] at hc
  rcases hc with hc | hc
  · exact h.calls c hc
  · subst hc
    exact ⟨hi, rfl, by rw [h.interval_eq]⟩

theorem scheduler.Timed_step (interval : Int) (a : Action) (sys next : System)
    (h : Timed interval sys) (hs : step a sys = some next) : Timed interval next := by
  cases a with
  | start ctx =>
    simp only [step, Start] at hs
    split_ifs at hs <;> cases hs
    · exact h
    · refine ⟨h.interval_eq, ?_, ?_⟩
      · intro c hc
        obtain ⟨c1, c2, c3⟩ := h.calls c hc
        refine ⟨Nat.lt_succ_of_lt c1, ?_, c3⟩
        simp only [Function.update_apply]
        rw [if_neg (Nat.ne_of_lt c1)]
        exact c2
      · intro j hj
        simp only [Function.update_apply]
        split_ifs with hjs
        · intro ht
          cases ht
        · have hj2 : j < sys.spawned + 1 := hj
          exact h.ticking j (by omega)
  | stop =>
    simp only [step, StopEnter] at hs
    split_ifs at hs <;> cases hs
    · exact h
    · exact Timed_same interval sys _ h rfl rfl rfl (fun _ => rfl) (fun _ _ => Or.inl)
  | stopClose =>
    simp only [step, StopClose] at hs
    split_ifs at hs
    cases hs
    exact Timed_same interval sys _ h rfl rfl rfl (fun _ => rfl) (fun _ _ => Or.inl)
  | stopAwait =>
    simp only [step, StopAwait] at hs
    split_ifs at hs
    cases hs
    exact Timed_same interval sys _ h rfl rfl rfl (fun _ => rfl) (fun _ _ => Or.inl)
  | stopFinish =>
    simp only [step, StopFinish] at hs
    split_ifs at hs
    cases hs
    exact Timed_same interval sys _ h rfl rfl rfl (fun _ => rfl) (fun _ _ => Or.inl)
  | cancel ctx =>
    simp only [step] at hs
    cases hs
    exact Timed_same interval sys _ h rfl rfl rfl (fun _ => rfl) (fun _ _ => Or.inl)
  | loopInitial i err =>
    simp only [step] at hs
    split_ifs at hs with hg
    cases hs
    refine Timed_setPhase interval i _ _ ?_ (fun ht => nomatch ht)
    refine Timed_executeTask interval i err _ ?_ hg.1
    refine Timed_same interval sys _ h rfl rfl rfl ?_ ?_
    · intro j
      simp only [Function.update_apply]
      split_ifs with hj
      · rw [hj]
      · rfl
    · intro j _
      simp only [Function.update_apply]
      split_ifs with hj
      · subst hj
        exact Or.inl
      · exact Or.inl
  | loopTicker i =>
    simp only [step] at hs
    split_ifs at hs with hg
    cases hs
    exact Timed_setPhase interval i _ sys h (fun _ => Or.inr (h.interval_eq ▸ hg.2.2))
  | loopTick i err =>
    simp only [step] at hs
    split_ifs at hs with hg
    cases hs
    refine Timed_executeTask interval i err _ ?_ hg.1
    refine Timed_same interval sys _ h rfl rfl rfl ?_ ?_
    · intro j
      simp only [Function.update_apply]
      split_ifs with hj
      · rw [hj]
      · rfl
    · intro j _
      simp only [Function.update_apply]
      split_ifs with hj
      · subst hj
        exact Or.inl
      · exact Or.inl
  | loopStop i =>
    simp only [step, leaveLoop] at hs
    split_ifs at hs with hg
    cases hs
    exact Timed_same interval _ _
      (Timed_setPhase interval i Phase.returned sys h (fun _ => Or.inl (by rw [hg.2.1]; rfl)))
      rfl rfl rfl (fun _ => rfl) (fun _ _ => Or.inl)
  | loopCancel i =>
    simp only [step, leaveLoop] at hs
    split_ifs at hs with hg
    cases hs
    exact Timed_same interval _ _
      (Timed_setPhase interval i Phase.returned sys h (fun _ => Or.inl (by rw [hg.2.1]; rfl)))
      rfl rfl rfl (fun _ => rfl) (fun _ _ => Or.inl)
  | loopClose i =>
    simp only [step] at hs
    split_ifs at hs with hg
    cases hs
    refine Timed_setPhase interval i Phase.exited _ ?_ (fun _ => Or.inl (by rw [hg.2]; rfl))
    exact Timed_same interval sys _ h rfl rfl rfl (fun _ => rfl) (fun _ _ => Or.inl)

theorem scheduler.Timed_exec (interval : Int) (acts : List Action) (sys : System)
    (h : exec acts (NewScheduler interval) = some sys) : Timed interval sys :=
  exec_invariant (Timed interval) (Timed_step interval) acts (NewScheduler interval) sys
    (Timed_NewScheduler interval) h

/-- No step changes the context of a goroutine that is spawned. -/
theorem scheduler.ctx_step (a : Action) (sys next : System) (hs : step a sys = some next)
    (i : Nat) (hi : i < sys.spawned) : (next.loops i).ctx = (sys.loops i).ctx := by
  cases a with
  | start ctx =>
    simp only [step, Start] at hs
    split_ifs at hs <;> cases hs
    · rfl
    · simp only [Function.update_apply]
      rw [if_neg (Nat.ne_of_lt hi)]
  | stop =>
    simp only [step, StopEnter] at hs
    split_ifs at hs <;> cases hs <;> rfl
  | stopClose =>
    simp only [step, StopClose] at hs
    split_ifs at hs
    cases hs
    rfl
  | stopAwait =>
    simp only [step, StopAwait] at hs
    split_ifs at hs
    cases hs
    rfl
  | stopFinish =>
    simp only [step, StopFinish] at hs
    split_ifs at hs
    cases hs
    rfl
  | cancel ctx =>
    simp only [step] at hs
    cases hs
    rfl
  | loopInitial j err =>
    simp only [step] at hs
    split_ifs at hs
    cases hs
    simp only [setPhase, executeTask, Function.update_apply]
    split_ifs with hj
    · rw [hj]
    · rfl
  | loopTicker j =>
    simp only [step] at hs
    split_ifs at hs
    cases hs
    simp only [setPhase, Function.update_apply]
    split_ifs with hj
    · rw [hj]
    · rfl
  | loopTick j err =>
    simp only [step] at hs
    split_ifs at hs
    cases hs
    simp only [executeTask, Function.update_apply]
    split_ifs with hj
    · rw [hj]
    · rfl
  | loopStop j =>
    simp only [step] at hs
    split_ifs at hs
    cases hs
    simp only [leaveLoop, setPhase, Function.update_apply]
    split_ifs with hj
    · rw [hj]
    · rfl
  | loopCancel j =>
    simp only [step] at hs
    split_ifs at hs
    cases hs
    simp only [leaveLoop, setPhase, Function.update_apply]
    split_ifs with hj
    · rw [hj]
    · rfl
  | loopClose j =>
    simp only [step] at hs
    split_ifs at hs
    cases hs
    simp only [setPhase, Function.update_apply]
    split_ifs with hj
    · rw [hj]
    · rfl

theorem wrapInt64_id (x : Int) (h1 : -2 ^ 63 ≤ x) (h2 : x < 2 ^ 63) : wrapInt64 x = x := by
  unfold wrapInt64
  rw [Int.emod_eq_of_lt (by omega) (by omega)]
  omega

end schedulerTimed

section requests
open service
variable (env : Env) (cfg : config.Config) (msg : models.Message)

theorem frame_cacheLog : Frame World.cacheLog := fun _ _ _ => rfl

theorem deliver_httpLog (w : World) :
    (deliver env cfg msg w).1.httpLog = w.httpLog ∨
    (deliver env cfg msg w).1.httpLog = w.httpLog ++ [buildRequest cfg msg] := by
  simp only [deliver]
  repeat' split
  all_goals first
    | exact Or.inl rfl
    | exact Or.inr rfl
    | exact Or.inr (recordSent_httpLog ..)

theorem sendMessage_httpLog (w : World) :
    (sendMessage env cfg msg w).1.httpLog = w.httpLog ∨
    (sendMessage env cfg msg w).1.httpLog = w.httpLog ++ [buildRequest cfg msg] := by
  have hE := Execute_frame env World.httpLog frame_httpLog
    (fun a b _ => b = a ∨ b = a ++ [buildRequest cfg msg]) (fun _ => Or.inl rfl)
    none (deliver env cfg msg) (deliver_httpLog env cfg msg)
    { w with attempts := w.attempts ++ [msg.ID] }
  simp only [sendMessage]
  split
  · rw [GetState_frame env _ frame_httpLog, UpdateMessageStatus_httpLog]
    exact hE
  · exact hE

theorem sendAll_httpLog (messages : List models.Message) (w : World) :
    ∃ rs : List HttpRequest, (sendAll env cfg messages w).httpLog = w.httpLog ++ rs ∧
      ∀ r ∈ rs, ∃ m ∈ messages, r = buildRequest cfg m := by
  induction messages generalizing w with
  | nil => exact ⟨[], by simp [sendAll], fun _ hr => nomatch hr⟩
  | cons m ms ih =>
    obtain ⟨rs, hrs, hall⟩ := ih (sendMessage env cfg m w).1
    simp only [sendAll, List.foldl_cons] at hrs ⊢
    rcases sendMessage_httpLog env cfg m w with h | h
    · refine ⟨rs, by rw [hrs, h], ?_⟩
      intro r hr
      obtain ⟨m1, hm1, e⟩ := hall r hr
      exact ⟨m1, List.mem_cons_of_mem _ hm1, e⟩
    · refine ⟨buildRequest cfg m :: rs, by rw [hrs, h]; simp, ?_⟩
      intro r hr
      rcases List.mem_cons.mp hr with hr | hr
      · exact ⟨m, List.mem_cons_self _ _, hr⟩
      · obtain ⟨m1, hm1, e⟩ := hall r hr
        exact ⟨m1, List.mem_cons_of_mem _ hm1, e⟩

theorem selectUnsent_mem (limit : Nat) (rows : List models.Message) (m : models.Message)
    (h : m ∈ repository.selectUnsent limit rows) :
    m ∈ rows ∧ m.Status = api.MessageStatus.Pending := by
  unfold repository.selectUnsent at h
  have h1 := List.mem_of_mem_take h
  have h2 := (List.perm_insertionSort _ _).mem_iff.mp h1
  simpa using h2

theorem SendPendingMessages_httpLog (w : World) :
    ∃ rs : List HttpRequest, (SendPendingMessages env cfg w).1.httpLog = w.httpLog ++ rs ∧
      ∀ r ∈ rs, ∃ m ∈ w.store, m.Status = api.MessageStatus.Pending ∧ r = buildRequest cfg m := by
  simp only [SendPendingMessages]
  split
  · exact ⟨[], by rw [GetUnsentMessages_fst]; simp, fun _ hr => nomatch hr⟩
  · rename_i messages hm
    split
    · exact ⟨[], by rw [GetUnsentMessages_fst]; simp, fun _ hr => nomatch hr⟩
    · obtain ⟨rs, hrs, hall⟩ := sendAll_httpLog env cfg messages
        (repository.GetUnsentMessages env cfg.BatchSize w).1
      refine ⟨rs, by rw [hrs, GetUnsentMessages_fst], ?_⟩
      intro r hr
      obtain ⟨m, hmem, e⟩ := hall r hr
      have hsel : ∃ n, messages = repository.selectUnsent n w.store := by
        simp only [repository.GetUnsentMessages] at hm
        split at hm
        · cases hm
        · split at hm
          · cases hm
          · exact ⟨_, (Except.ok.inj hm).symm⟩
      obtain ⟨n, hn⟩ := hsel
      rw [hn] at hmem
      have := selectUnsent_mem n w.store m hmem
      exact ⟨m, this.1, this.2, e⟩

end requests

section pagination
open service

theorem totalPages_ceil (totalCount limit : Int) (h0 : 0 ≤ totalCount)
    (h1 : totalCount < 2 ^ 63) (hl : 1 ≤ limit) :
    totalPages totalCount limit = some ⌈(totalCount : ℚ) / (limit : ℚ)⌉ := by
  have hl0 : limit ≠ 0 := by omega
  have hlp : (0 : ℚ) < (limit : ℚ) := by exact_mod_cast (by omega : (0 : Int) < limit)
  have hd : totalCount.tdiv limit = totalCount / limit :=
    Int.tdiv_eq_ediv h0 (by omega)
  have hm : totalCount.tmod limit = totalCount % limit :=
    Int.tmod_eq_emod h0 (by omega)
  have hq0 : 0 ≤ totalCount / limit := Int.ediv_nonneg h0 (by omega)
  have hqle : totalCount / limit ≤ totalCount := Int.ediv_le_self _ h0
  have hr0 : 0 ≤ totalCount % limit := Int.emod_nonneg _ hl0
  have hrl : totalCount % limit < limit := Int.emod_lt_of_pos _ (by omega)
  have hdiv : limit * (totalCount / limit) + totalCount % limit = totalCount :=
    Int.ediv_add_emod totalCount limit
  have hQ : (limit : ℚ) * ((totalCount / limit : Int) : ℚ) + ((totalCount % limit : Int) : ℚ) =
      (totalCount : ℚ) := by exact_mod_cast hdiv
  have hw1 : wrapInt64 (totalCount / limit) = totalCount / limit :=
    wrapInt64_id (totalCount / limit) (by omega) (by omega)
  simp only [totalPages, intDiv, intMod, if_neg hl0, hd, hm, hw1]
  congr 1
  symm
  rw [Int.ceil_eq_iff]
  by_cases hr : 0 < totalCount % limit
  · rw [if_pos hr]
    have hlt : totalCount / limit < totalCount := by
      by_contra hge
      have : totalCount / limit = totalCount := by omega
      rw [this] at hdiv
      nlinarith
    rw [wrapInt64_id (totalCount / limit + 1) (by omega) (by omega)]
    have hrq : (0 : ℚ) < ((totalCount % limit : Int) : ℚ) := by exact_mod_cast hr
    have hrlq : ((totalCount % limit : Int) : ℚ) < (limit : ℚ) := by exact_mod_cast hrl
    constructor
    · rw [lt_div_iff₀ hlp]
      push_cast
      nlinarith
    · rw [div_le_iff₀ hlp]
      push_cast
      nlinarith
  · rw [if_neg hr]
    have hr2 : totalCount % limit = 0 := by omega
    rw [hr2] at hQ
    constructor
    · rw [lt_div_iff₀ hlp]
      push_cast at hQ ⊢
      nlinarith
    · rw [div_le_iff₀ hlp]
      push_cast at hQ ⊢
      nlinarith

theorem pageOffset_exact (page limit : Int) (hp : 1 ≤ page) (hl : 1 ≤ limit)
    (hov : (page - 1) * limit < 2 ^ 63) : pageOffset page limit = (page - 1) * limit := by
  have hp0 : 0 ≤ page - 1 := by omega
  have hle : page - 1 ≤ (page - 1) * limit := by nlinarith
  unfold pageOffset
  rw [wrapInt64_id (page - 1) (by omega) (by omega)]
  exact wrapInt64_id _ (by nlinarith) hov

end pagination

section accepted
open service
variable (env : Env) (cfg : config.Config) (msg : models.Message)

/-- An accepted response whose status update to `Sent` succeeds: the world the
delivery closure returns. -/
theorem deliver_accepted_ok (x : World) (code : Int) (decoded : Option models.WebhookResponse)
    (hnew : env.newRequestErr = none)
    (hhttp : env.http x.step = HttpResult.response code decoded)
    (hcode : code = 200 ∨ code = 202)
    (hdb : env.dbErr (x.step + 3 + decodeReads decoded) = none) :
    deliver env cfg msg x =
      ({ x with
          step := x.step + 7 + decodeReads decoded
          cb := gobreaker.currentState x.cb (env.clock (x.step + 6 + decodeReads decoded))
          store := repository.execUpdate msg.ID api.MessageStatus.Sent
            (some (acceptedID msg decoded (env.clock (x.step + 1)))) none
            (some (env.clock (x.step + 1 + decodeReads decoded)))
            (env.clock (x.step + 2 + decodeReads decoded)) x.store
          httpLog := x.httpLog ++ [buildRequest cfg msg]
          updates := x.updates ++ [⟨msg.ID, api.MessageStatus.Sent,
            some (acceptedID msg decoded (env.clock (x.step + 1))), none⟩]
          cacheLog := x.cacheLog ++ [⟨"message:" ++ acceptedID msg decoded (env.clock (x.step + 1)),
            msg.ID, env.clock (x.step + 4 + decodeReads decoded), cacheTTL,
            env.cacheErr (x.step + 5 + decodeReads decoded)⟩] }, none) := by
  cases decoded with
  | some r =>
    simp only [decodeReads, Nat.add_zero] at hdb ⊢
    rcases hcode with rfl | rfl <;>
      simp [deliver, recordSent, repository.UpdateMessageStatus, readClock, hnew, hhttp, hdb,
        GetState_fst, acceptedID]
  | none =>
    simp only [decodeReads] at hdb ⊢
    rcases hcode with rfl | rfl <;>
      simp [deliver, recordSent, repository.UpdateMessageStatus, readClock, hnew, hhttp, hdb,
        GetState_fst, acceptedID]


/-- An accepted response whose status update to `Sent` fails with the store
error `e`: the world and the error the delivery closure returns. -/
theorem deliver_accepted_fail (x : World) (code : Int) (decoded : Option models.WebhookResponse)
    (e : Err) (hnew : env.newRequestErr = none)
    (hhttp : env.http x.step = HttpResult.response code decoded)
    (hcode : code = 200 ∨ code = 202)
    (hdb : env.dbErr (x.step + 3 + decodeReads decoded) = some e) :
    deliver env cfg msg x =
      ({ x with
          step := x.step + 4 + decodeReads decoded
          httpLog := x.httpLog ++ [buildRequest cfg msg]
          updates := x.updates ++ [⟨msg.ID, api.MessageStatus.Sent,
            some (acceptedID msg decoded (env.clock (x.step + 1))), none⟩] },
        some (sentUpdateError e)) := by
  cases decoded with
  | some r =>
    simp only [decodeReads, Nat.add_zero] at hdb ⊢
    rcases hcode with rfl | rfl <;>
      simp [deliver, recordSent, repository.UpdateMessageStatus, readClock, hnew, hhttp, hdb,
        acceptedID, sentUpdateError]
  | none =>
    simp only [decodeReads] at hdb ⊢
    rcases hcode with rfl | rfl <;>
      simp [deliver, recordSent, repository.UpdateMessageStatus, readClock, hnew, hhttp, hdb,
        acceptedID, sentUpdateError]

theorem sendMessage_accepted_ok (w : World) (code : Int)
    (decoded : Option models.WebhookResponse)
    (hadm : (gobreaker.beforeRequest w.cb (env.clock w.step)).2.2 = none)
    (hnew : env.newRequestErr = none)
    (hhttp : env.http (w.step + 1) = HttpResult.response code decoded)
    (hcode : code = 200 ∨ code = 202)
    (hdb : env.dbErr (w.step + 4 + decodeReads decoded) = none) :
    sendMessage env cfg msg w =
      ({ w with
          step := w.step + 9 + decodeReads decoded
          cb := gobreaker.afterRequest
            (gobreaker.currentState (gobreaker.beforeRequest w.cb (env.clock w.step)).1
              (env.clock (w.step + 7 + decodeReads decoded)))
            (gobreaker.beforeRequest w.cb (env.clock w.step)).2.1 true
            (env.clock (w.step + 8 + decodeReads decoded))
          store := repository.execUpdate msg.ID api.MessageStatus.Sent
            (some (acceptedID msg decoded (env.clock (w.step + 2)))) none
            (some (env.clock (w.step + 2 + decodeReads decoded)))
            (env.clock (w.step + 3 + decodeReads decoded)) w.store
          attempts := w.attempts ++ [msg.ID]
          httpLog := w.httpLog ++ [buildRequest cfg msg]
          updates := w.updates ++ [⟨msg.ID, api.MessageStatus.Sent,
            some (acceptedID msg decoded (env.clock (w.step + 2))), none⟩]
          cacheLog := w.cacheLog ++ [⟨"message:" ++ acceptedID msg decoded (env.clock (w.step + 2)),
            msg.ID, env.clock (w.step + 5 + decodeReads decoded), cacheTTL,
            env.cacheErr (w.step + 6 + decodeReads decoded)⟩] }, none) := by
  have a1 : w.step + 1 + 3 + decodeReads decoded = w.step + 4 + decodeReads decoded := by omega
  have a2 : w.step + 1 + 7 + decodeReads decoded + 1 = w.step + 9 + decodeReads decoded := by
    omega
  have a3 : w.step + 1 + 6 + decodeReads decoded = w.step + 7 + decodeReads decoded := by omega
  have a4 : w.step + 1 + 7 + decodeReads decoded = w.step + 8 + decodeReads decoded := by omega
  have a5 : w.step + 1 + 1 + decodeReads decoded = w.step + 2 + decodeReads decoded := by omega
  have a6 : w.step + 1 + 2 + decodeReads decoded = w.step + 3 + decodeReads decoded := by omega
  have a7 : w.step + 1 + 4 + decodeReads decoded = w.step + 5 + decodeReads decoded := by omega
  have a8 : w.step + 1 + 5 + decodeReads decoded = w.step + 6 + decodeReads decoded := by omega
  have hD := deliver_accepted_ok env cfg msg
    (entered env { w with attempts := w.attempts ++ [msg.ID] }) code decoded hnew hhttp hcode
    (by show env.dbErr (w.step + 1 + 3 + decodeReads decoded) = none; rw [a1]; exact hdb)
  have hE := gobreaker_Execute_admitted env
    (CircuitBreaker.guarded none (deliver env cfg msg))
    { w with attempts := w.attempts ++ [msg.ID] } hadm
  have hg : ∀ x, CircuitBreaker.guarded none (deliver env cfg msg) x = deliver env cfg msg x :=
    fun _ => rfl
  rw [hg, hD] at hE
  simp only [sendMessage, CircuitBreaker.Execute, hE]
  simp only [settled, entered, Option.isNone_none, a2, a3, a4, a5, a6, a7, a8]

theorem sendMessage_accepted_fail (w : World) (code : Int)
    (decoded : Option models.WebhookResponse) (e : Err)
    (hadm : (gobreaker.beforeRequest w.cb (env.clock w.step)).2.2 = none)
    (hnew : env.newRequestErr = none)
    (hhttp : env.http (w.step + 1) = HttpResult.response code decoded)
    (hcode : code = 200 ∨ code = 202)
    (hdb : env.dbErr (w.step + 4 + decodeReads decoded) = some e)
    (hopen : e.Is Err.ErrOpenState = false) (hmany : e.Is Err.ErrTooManyRequests = false) :
    CircuitBreaker.Execute env none (deliver env cfg msg)
        { w with attempts := w.attempts ++ [msg.ID] } =
      ({ w with
          step := w.step + 6 + decodeReads decoded
          cb := gobreaker.afterRequest (gobreaker.beforeRequest w.cb (env.clock w.step)).1
            (gobreaker.beforeRequest w.cb (env.clock w.step)).2.1 false
            (env.clock (w.step + 5 + decodeReads decoded))
          attempts := w.attempts ++ [msg.ID]
          httpLog := w.httpLog ++ [buildRequest cfg msg]
          updates := w.updates ++ [⟨msg.ID, api.MessageStatus.Sent,
            some (acceptedID msg decoded (env.clock (w.step + 2))), none⟩] },
        some (sentUpdateError e)) := by
  have a1 : w.step + 1 + 3 + decodeReads decoded = w.step + 4 + decodeReads decoded := by omega
  have a2 : w.step + 1 + 4 + decodeReads decoded + 1 = w.step + 6 + decodeReads decoded := by
    omega
  have a3 : w.step + 1 + 4 + decodeReads decoded = w.step + 5 + decodeReads decoded := by omega
  have hD := deliver_accepted_fail env cfg msg
    (entered env { w with attempts := w.attempts ++ [msg.ID] }) code decoded e hnew hhttp hcode
    (by show env.dbErr (w.step + 1 + 3 + decodeReads decoded) = some e; rw [a1]; exact hdb)
  have hE := gobreaker_Execute_admitted env
    (CircuitBreaker.guarded none (deliver env cfg msg))
    { w with attempts := w.attempts ++ [msg.ID] } hadm
  have hg : ∀ x, CircuitBreaker.guarded none (deliver env cfg msg) x = deliver env cfg msg x :=
    fun _ => rfl
  rw [hg, hD] at hE
  have hi1 : (sentUpdateError e).Is Err.ErrOpenState = false := by
    simp [sentUpdateError, Err.wrapf, Err.Is, hopen]
  have hi2 : (sentUpdateError e).Is Err.ErrTooManyRequests = false := by
    simp [sentUpdateError, Err.wrapf, Err.Is, hmany]
  simp only [CircuitBreaker.Execute, hE, hi1, hi2]
  simp [settled, entered, a2, a3]

end accepted

section cacheWrites
open service
variable (env : Env) (cfg : config.Config) (msg : models.Message)

/-- What a call adds to the log of cache writes: nothing, or one write for the
message when the call succeeds. -/
theorem recordSent_cacheLog (r : models.WebhookResponse) (w : World) :
    (recordSent env msg r w).1.cacheLog = w.cacheLog ∨
    ((recordSent env msg r w).2.isNone = true ∧ ∃ entry : CacheSet, entry.msgID = msg.ID ∧
      (recordSent env msg r w).1.cacheLog = w.cacheLog ++ [entry]) := by
  simp only [recordSent]
  split
  · exact Or.inl (UpdateMessageStatus_cacheLog ..)
  · right
    refine ⟨rfl, ?_⟩
    rw [GetState_frame env _ frame_cacheLog]
    refine ⟨⟨"message:" ++ r.MessageID, msg.ID,
      (readClock env (repository.UpdateMessageStatus env msg.ID api.MessageStatus.Sent
        (some r.MessageID) none w).1).1, cacheTTL,
      env.cacheErr (readClock env (repository.UpdateMessageStatus env msg.ID
        api.MessageStatus.Sent (some r.MessageID) none w).1).2.step⟩, rfl, ?_⟩
    show (readClock env _).2.cacheLog ++ [_] = _
    rw [readClock_cacheLog, UpdateMessageStatus_cacheLog]

theorem deliver_cacheLog (w : World) :
    (deliver env cfg msg w).1.cacheLog = w.cacheLog ∨
    ((deliver env cfg msg w).2.isNone = true ∧ ∃ entry : CacheSet, entry.msgID = msg.ID ∧
      (deliver env cfg msg w).1.cacheLog = w.cacheLog ++ [entry]) := by
  simp only [deliver]
  repeat' split
  all_goals first
    | exact Or.inl rfl
    | exact recordSent_cacheLog env msg _ _

theorem sendMessage_cacheLog (w : World) :
    (sendMessage env cfg msg w).1.cacheLog = w.cacheLog ∨
    ((sendMessage env cfg msg w).2 = none ∧ ∃ entry : CacheSet, entry.msgID = msg.ID ∧
      (sendMessage env cfg msg w).1.cacheLog = w.cacheLog ++ [entry]) := by
  have hE := Execute_frame env World.cacheLog frame_cacheLog
    (fun a b ok => b = a ∨ (ok = true ∧ ∃ entry : CacheSet, entry.msgID = msg.ID ∧
      b = a ++ [entry])) (fun _ => Or.inl rfl)
    none (deliver env cfg msg) (deliver_cacheLog env cfg msg)
    { w with attempts := w.attempts ++ [msg.ID] }
  simp only [sendMessage]
  split
  · rename_i err herr
    rw [herr] at hE
    left
    rw [GetState_frame env _ frame_cacheLog, UpdateMessageStatus_cacheLog]
    rcases hE with h | ⟨h, _⟩
    · exact h
    · cases h
  · rename_i hnone
    rcases hE with h | ⟨_, h⟩
    · exact Or.inl h
    · exact Or.inr ⟨rfl, h⟩

end cacheWrites

section openCleared
open gobreaker

theorem gobreaker.OpenCleared_toNewGeneration (cb : CircuitBreaker) (now : Int) :
    OpenCleared (toNewGeneration cb now) := fun _ => rfl

theorem gobreaker.OpenCleared_setState (cb : CircuitBreaker) (st : State) (now : Int)
    (h : OpenCleared cb) : OpenCleared (setState cb st now) := by
  unfold setState
  split_ifs
  · exact h
  · exact OpenCleared_toNewGeneration _ now

theorem gobreaker.OpenCleared_currentState (cb : CircuitBreaker) (now : Int)
    (h : OpenCleared cb) : OpenCleared (currentState cb now) := by
  unfold currentState
  split
  · split_ifs
    · exact OpenCleared_toNewGeneration _ now
    · exact h
  · split_ifs
    · exact OpenCleared_setState _ _ now h
    · exact h
  · exact h

theorem gobreaker.OpenCleared_beforeRequest (cb : CircuitBreaker) (now : Int)
    (h : OpenCleared cb) : OpenCleared (beforeRequest cb now).1 := by
  have hc := OpenCleared_currentState cb now h
  simp only [beforeRequest]
  split_ifs with h1 h2
  · exact hc
  · exact hc
  · intro hst
    exact absurd hst h1

theorem gobreaker.OpenCleared_onSuccess (cb : CircuitBreaker) (now : Int)
    (h : OpenCleared cb) : OpenCleared (onSuccess cb cb.state now) := by
  unfold onSuccess
  split
  · rename_i hst
    intro hopen
    rw [hst] at hopen
    cases hopen
  · rename_i hst
    simp only
    split_ifs
    · apply OpenCleared_setState
      intro hopen
      rw [hst] at hopen
      cases hopen
    · intro hopen
      rw [hst] at hopen
      cases hopen
  · exact h

theorem gobreaker.OpenCleared_onFailure (cb : CircuitBreaker) (now : Int)
    (h : OpenCleared cb) : OpenCleared (onFailure cb cb.state now) := by
  unfold onFailure
  split
  · rename_i hst
    simp only
    split_ifs
    · unfold setState
      split_ifs with hs
      · rw [hst] at hs
        cases hs
      · exact OpenCleared_toNewGeneration _ now
    · intro hopen
      rw [hst] at hopen
      cases hopen
  · rename_i hst
    unfold setState
    split_ifs with hs
    · rw [hst] at hs
      cases hs
    · exact OpenCleared_toNewGeneration _ now
  · exact h

theorem gobreaker.OpenCleared_afterRequest (cb : CircuitBreaker) (gen : Nat) (success : Bool)
    (now : Int) (h : OpenCleared cb) : OpenCleared (afterRequest cb gen success now) := by
  have hc := OpenCleared_currentState cb now h
  simp only [afterRequest]
  split_ifs
  · exact hc
  · exact OpenCleared_onSuccess _ now hc
  · exact OpenCleared_onFailure _ now hc

theorem gobreaker.OpenCleared_apply (op : Op) (cb : CircuitBreaker) (h : OpenCleared cb) :
    OpenCleared (op.apply cb) := by
  cases op with
  | state now => exact OpenCleared_currentState cb now h
  | before now => exact OpenCleared_beforeRequest cb now h
  | after gen success now => exact OpenCleared_afterRequest cb gen success now h

theorem gobreaker.OpenCleared_run (ops : List Op) (cb : CircuitBreaker) (h : OpenCleared cb) :
    OpenCleared (run ops cb) := by
  induction ops generalizing cb with
  | nil => exact h
  | cons op rest ih => exact ih _ (OpenCleared_apply op cb h)

theorem gobreaker.OpenCleared_NewCircuitBreaker (st : Settings) (now : Int) :
    OpenCleared (gobreaker.NewCircuitBreaker st now) := fun _ => rfl

end openCleared

section openClearedWorld
open service gobreaker
variable (env : Env) (cfg : config.Config)

theorem GetState_snd_open (w : World)
    (h : (CircuitBreaker.GetState env w).2 = api.HealthResponseCircuitBreakerState.Open) :
    (currentState w.cb (env.clock w.step)).state = State.StateOpen := by
  simp only [CircuitBreaker.GetState, StateOf, readClock] at h
  split at h
  · cases h
  · cases h
  · rename_i hst
    exact hst

theorem GetState_openCleared (w : World) (h : OpenCleared w.cb) :
    OpenCleared (CircuitBreaker.GetState env w).1.cb := by
  rw [GetState_fst]
  exact OpenCleared_currentState _ _ h

theorem recordSent_openCleared (msg : models.Message) (r : models.WebhookResponse) (w : World)
    (h : OpenCleared w.cb) : OpenCleared (recordSent env msg r w).1.cb := by
  simp only [recordSent]
  split
  · rw [UpdateMessageStatus_cb]
    exact h
  · apply GetState_openCleared
    show OpenCleared (repository.UpdateMessageStatus env msg.ID api.MessageStatus.Sent
      (some r.MessageID) none w).1.cb
    rw [UpdateMessageStatus_cb]
    exact h

theorem deliver_openCleared (msg : models.Message) (w : World) (h : OpenCleared w.cb) :
    OpenCleared (deliver env cfg msg w).1.cb := by
  simp only [deliver]
  repeat' split
  all_goals first
    | exact h
    | exact recordSent_openCleared env msg _ _ h

theorem gobreaker_Execute_openCleared (req : World → World × Option Err)
    (hreq : ∀ x, OpenCleared x.cb → OpenCleared (req x).1.cb) (w : World)
    (h : OpenCleared w.cb) : OpenCleared (gobreaker.Execute env req w).1.cb := by
  have he : OpenCleared (entered env w).cb := OpenCleared_beforeRequest _ _ h
  cases hb : (beforeRequest w.cb (env.clock w.step)).2.2 with
  | some e =>
    rw [gobreaker_Execute_rejected env req w e hb]
    exact he
  | none =>
    rw [gobreaker_Execute_admitted env req w hb]
    exact OpenCleared_afterRequest _ _ _ _ (hreq _ he)

theorem Execute_openCleared (ctxErr : Option Err) (fn : World → World × Option Err)
    (hfn : ∀ x, OpenCleared x.cb → OpenCleared (fn x).1.cb) (w : World)
    (h : OpenCleared w.cb) : OpenCleared (CircuitBreaker.Execute env ctxErr fn w).1.cb := by
  rw [Execute_fst]
  apply gobreaker_Execute_openCleared env _ _ w h
  intro x hx
  cases ctxErr with
  | none => exact hfn x hx
  | some e => exact hx

theorem sendMessage_openCleared (msg : models.Message) (w : World) (h : OpenCleared w.cb) :
    OpenCleared (sendMessage env cfg msg w).1.cb := by
  have hE := Execute_openCleared env none (deliver env cfg msg)
    (fun x hx => deliver_openCleared env cfg msg x hx)
    { w with attempts := w.attempts ++ [msg.ID] } h
  simp only [sendMessage]
  split
  · apply GetState_openCleared
    rw [UpdateMessageStatus_cb]
    exact hE
  · exact hE

theorem sendAll_openCleared (messages : List models.Message) (w : World)
    (h : OpenCleared w.cb) : OpenCleared (sendAll env cfg messages w).cb := by
  induction messages generalizing w with
  | nil => exact h
  | cons m ms ih =>
    simp only [sendAll, List.foldl_cons]
    exact ih _ (sendMessage_openCleared env cfg m w h)

theorem SendPendingMessages_openCleared (w : World) (h : OpenCleared w.cb) :
    OpenCleared (SendPendingMessages env cfg w).1.cb := by
  simp only [SendPendingMessages]
  repeat' split
  all_goals first
    | (rw [GetUnsentMessages_fst]; exact h)
    | (apply sendAll_openCleared; rw [GetUnsentMessages_fst]; exact h)

theorem GetHealth_breaker (isRunning : Bool) (w : World) :
    (GetHealth env isRunning w).2.CircuitBreakerState =
      (CircuitBreaker.GetState env { w with step := w.step + 1 + 1 }).2 ∧
    (GetHealth env isRunning w).2.CircuitBreakerStatus =
      cbStatusText
        (CircuitBreaker.GetCounts
          (CircuitBreaker.GetState env { w with step := w.step + 1 + 1 }).1).1
        (CircuitBreaker.GetCounts
          (CircuitBreaker.GetState env { w with step := w.step + 1 + 1 }).1).2 ∧
    (GetHealth env isRunning w).1 =
      (CircuitBreaker.GetState env { w with step := w.step + 1 + 1 }).1 :=
  ⟨rfl, rfl, rfl⟩

end openClearedWorld

section listing
open service

/-- With a limit other than 0 the division of `GetSentMessages` does not panic. -/
theorem GetSentMessages_no_panic (env : Env) (page limit : Int) (w : World) (hl : limit ≠ 0) :
    (service.GetSentMessages env page limit w).2 ≠ none := by
  have htp : ∀ c, (totalPages c limit).isSome = true := fun c => by
    simp [totalPages, intDiv, intMod, hl]
  simp only [service.GetSentMessages]
  split
  · simp
  · split
    · simp
    · rename_i totalCount _
      split
      · rename_i hnone
        have := htp totalCount
        rw [hnone] at this
        cases this
      · simp

/-- The limit the handler passes to the service is not 0. -/
theorem handler_limit_ne_zero (params : api.GetSentMessagesParams) :
    (handler.GetSentMessages params Prod.mk).2 ≠ 0 := by
  obtain ⟨page, limit⟩ := params
  cases limit with
  | none => simp [handler.GetSentMessages]
  | some l =>
    simp only [handler.GetSentMessages]
    split_ifs with h
    · have := h.1
      show l ≠ 0
      omega
    · decide

end listing

/-! ## Claims -/

section claims
open service gobreaker

/-- C1: `SendPendingMessages` returns an error if and only if the batch fetch
`GetUnsentMessages` returns an error; for every fetch that succeeds it returns
nil, whatever the environment answers to the deliveries and status updates. -/
theorem C1_tick_error_iff_fetch_error (env : Env) (cfg : config.Config) (w : World) :
    ((SendPendingMessages env cfg w).2 ≠ none ↔
        ∃ e, (repository.GetUnsentMessages env cfg.BatchSize w).2 = Except.error e) ∧
      (∀ messages, (repository.GetUnsentMessages env cfg.BatchSize w).2 = Except.ok messages →
        (SendPendingMessages env cfg w).2 = none) := by
  unfold SendPendingMessages
  cases h : (repository.GetUnsentMessages env cfg.BatchSize w).2 with
  | error e => simp [h]
  | ok ms =>
    by_cases hl : ms.length = 0 <;> simp [h, hl]

/-- C2: for a fetched batch `messages`, the tick calls the circuit breaker
exactly once per message, in the order of the batch, whatever the outcomes; and
the status updates it issues are one group per message (one or two updates,
all for that message), the groups following the order of the batch. -/
theorem C2_attempts_and_updates_follow_fetch_order (env : Env) (cfg : config.Config) (w : World)
    (messages : List models.Message)
    (hfetch : (repository.GetUnsentMessages env cfg.BatchSize w).2 = Except.ok messages) :
    (SendPendingMessages env cfg w).1.attempts = w.attempts ++ messages.map (fun m => m.ID) ∧
    ∃ groups : List (List UpdateCall),
      List.Forall₂ (fun m g => (g.length = 1 ∨ g.length = 2) ∧
        ∀ c ∈ g, c.id = m.ID ∧ c.Shaped) messages groups ∧
      (SendPendingMessages env cfg w).1.updates = w.updates ++ groups.flatten := by
  simp only [SendPendingMessages, hfetch]
  by_cases hl : messages.length = 0
  · have hnil : messages = [] := List.length_eq_zero.mp hl
    subst hnil
    simp only [List.length_nil, if_true, GetUnsentMessages_fst, List.map_nil, List.append_nil,
      true_and]
    exact ⟨[], List.Forall₂.nil, by simp⟩
  · simp only [hl, if_false]
    refine ⟨?_, ?_⟩
    · rw [sendAll_attempts, GetUnsentMessages_fst]
    · have := sendAll_updates env cfg messages (repository.GetUnsentMessages env cfg.BatchSize w).1
      rw [GetUnsentMessages_fst] at this ⊢
      exact this

/-- Witness of C2: a batch of three messages against an endpoint that answers 500. -/
theorem C2_attempts_and_updates_follow_fetch_order_witness :
    (SendPendingMessages (Example.env 0 Example.answer500) Example.cfg
        (NewMessageService (Example.env 0 Example.answer500) Example.cfg
          [Example.msg 1, Example.msg 2, Example.msg 3])).1.attempts = [] ++ [1, 2, 3] ∧
    ∃ groups : List (List UpdateCall),
      List.Forall₂ (fun m g => (g.length = 1 ∨ g.length = 2) ∧
        ∀ c ∈ g, c.id = m.ID ∧ c.Shaped) [Example.msg 1, Example.msg 2, Example.msg 3] groups ∧
      (SendPendingMessages (Example.env 0 Example.answer500) Example.cfg
        (NewMessageService (Example.env 0 Example.answer500) Example.cfg
          [Example.msg 1, Example.msg 2, Example.msg 3])).1.updates = [] ++ groups.flatten :=
  C2_attempts_and_updates_follow_fetch_order (Example.env 0 Example.answer500) Example.cfg
    (NewMessageService (Example.env 0 Example.answer500) Example.cfg
      [Example.msg 1, Example.msg 2, Example.msg 3])
    [Example.msg 1, Example.msg 2, Example.msg 3] (by rfl)

/-- C3: starting from a table in which every message is Pending with no
external id, no error and no sentAt, after any number of dispatcher ticks every
message whose status is not Pending has exactly one of external id and error,
and has a sentAt if and only if its status is Sent. -/
theorem C3_terminal_rows_are_consistent (env : Env) (cfg : config.Config) (w : World)
    (hfresh : ∀ m ∈ w.store, m.Fresh) (n : Nat) :
    ∀ m ∈ (runTicks env cfg n w).store, m.Status ≠ api.MessageStatus.Pending →
      xor m.MessageID.isSome m.Error.isSome = true ∧
      (m.SentAt.isSome = true ↔ m.Status = api.MessageStatus.Sent) := by
  intro m hm hstatus
  have hc := runTicks_consistent env cfg n w (fun m hm => Or.inl (hfresh m hm)) m hm
  rcases hc with ⟨h, _⟩ | ⟨h1, h2, h3, h4⟩ | ⟨h1, h2, h3, h4⟩
  · exact absurd h hstatus
  · simp [h1, h2, h3, h4]
  · simp [h1, h2, h3, h4]

/-- Witness of C3: two ticks over a table of two fresh messages, against an
endpoint that answers 200; the row of message 1 after the run. -/
theorem C3_terminal_rows_are_consistent_witness :
    Example.sentRow ∈ (runTicks (Example.env 5 Example.answerNoId) Example.cfg 2
      (NewMessageService (Example.env 5 Example.answerNoId) Example.cfg
        [Example.msg 1, Example.msg 2])).store ∧
    Example.sentRow.Status ≠ api.MessageStatus.Pending ∧
    xor Example.sentRow.MessageID.isSome Example.sentRow.Error.isSome = true ∧
    (Example.sentRow.SentAt.isSome = true ↔
      Example.sentRow.Status = api.MessageStatus.Sent) :=
  have hmem : Example.sentRow ∈ (runTicks (Example.env 5 Example.answerNoId) Example.cfg 2
      (NewMessageService (Example.env 5 Example.answerNoId) Example.cfg
        [Example.msg 1, Example.msg 2])).store := by
    have h : (runTicks (Example.env 5 Example.answerNoId) Example.cfg 2
        (NewMessageService (Example.env 5 Example.answerNoId) Example.cfg
          [Example.msg 1, Example.msg 2])).store =
        [Example.sentRow,
         { Example.msg 2 with
            Status := api.MessageStatus.Sent
            MessageID := some ""
            SentAt := some 65
            UpdatedAt := 70 }] := by rfl
    rw [h]
    exact List.mem_cons_self _ _
  ⟨hmem, by decide,
    C3_terminal_rows_are_consistent (Example.env 5 Example.answerNoId) Example.cfg
      (NewMessageService (Example.env 5 Example.answerNoId) Example.cfg
        [Example.msg 1, Example.msg 2])
      (by
        intro m hm
        simp only [NewMessageService, List.mem_cons, List.mem_singleton, List.not_mem_nil,
          or_false] at hm
        rcases hm with rfl | rfl <;> exact ⟨rfl, rfl, rfl, rfl⟩) 2
      Example.sentRow hmem (by decide)⟩

/-- C4: when the delivery of a message through the circuit breaker returns an
error `e`, `sendMessage` returns `e` and the next status update it issues is
`UpdateMessageStatus(id, Failed, nil, e.Error())`. -/
theorem C4_failed_delivery_is_recorded (env : Env) (cfg : config.Config) (msg : models.Message)
    (w : World) (e : Err)
    (h : (CircuitBreaker.Execute env none (deliver env cfg msg)
      { w with attempts := w.attempts ++ [msg.ID] }).2 = some e) :
    (sendMessage env cfg msg w).2 = some e ∧
    (sendMessage env cfg msg w).1.updates =
      (CircuitBreaker.Execute env none (deliver env cfg msg)
        { w with attempts := w.attempts ++ [msg.ID] }).1.updates ++
      [⟨msg.ID, api.MessageStatus.Failed, none, some e.Error⟩] := by
  simp only [sendMessage, h]
  refine ⟨trivial, ?_⟩
  rw [GetState_frame env _ frame_updates, UpdateMessageStatus_updates]

/-- Witness of C4: a delivery answered with status 500 on a fresh breaker. -/
theorem C4_failed_delivery_is_recorded_witness :
    (sendMessage (Example.env 0 Example.answer500) Example.cfg (Example.msg 1)
      (Example.fresh (Example.env 0 Example.answer500) Example.cfg)).2 = some status500 ∧
    (sendMessage (Example.env 0 Example.answer500) Example.cfg (Example.msg 1)
      (Example.fresh (Example.env 0 Example.answer500) Example.cfg)).1.updates =
      (CircuitBreaker.Execute (Example.env 0 Example.answer500) none
        (deliver (Example.env 0 Example.answer500) Example.cfg (Example.msg 1))
        { Example.fresh (Example.env 0 Example.answer500) Example.cfg with
          attempts := (Example.fresh (Example.env 0 Example.answer500) Example.cfg).attempts ++
            [(Example.msg 1).ID] }).1.updates ++
      [⟨(Example.msg 1).ID, api.MessageStatus.Failed, none, some status500.Error⟩] :=
  C4_failed_delivery_is_recorded (Example.env 0 Example.answer500) Example.cfg (Example.msg 1)
    (Example.fresh (Example.env 0 Example.answer500) Example.cfg) status500 (by rfl)

/-- C5, failing input: the endpoint answers 200 with a body that decodes but
carries no `messageId`; the dispatcher reports success, issues the update
`(7, Sent, "", nil)` and the row is stored as Sent with the empty external id. -/
theorem C5_body_without_messageId_persists_empty_id :
    (sendMessage (Example.env 5 Example.answerNoId) Example.cfg (Example.msg 7)
      (NewMessageService (Example.env 5 Example.answerNoId) Example.cfg [Example.msg 7])).2
      = none ∧
    (sendMessage (Example.env 5 Example.answerNoId) Example.cfg (Example.msg 7)
      (NewMessageService (Example.env 5 Example.answerNoId) Example.cfg [Example.msg 7])).1.updates
      = [⟨7, api.MessageStatus.Sent, some "", none⟩] ∧
    (sendMessage (Example.env 5 Example.answerNoId) Example.cfg (Example.msg 7)
      (NewMessageService (Example.env 5 Example.answerNoId) Example.cfg [Example.msg 7])).1.store
      = [{ Example.msg 7 with
          Status := api.MessageStatus.Sent
          MessageID := some ""
          SentAt := some 15
          UpdatedAt := 20 }] :=
  ⟨by rfl, by rfl, by rfl⟩

/-- C6, counterexample: thresholds 2 and 0.5, a counting window of one second,
a cool-down of sixty seconds, an endpoint that always answers 500 and a clock
that advances one second per interaction.  Three messages are processed within
nineteen seconds; the breaker is still Closed, three requests were sent, and
the third message is marked Failed with the status error. -/
theorem C6_counterexample_window_expires :
    (sendAll (Example.env 1000000000 Example.answer500) Example.cfgShortWindow
      [Example.msg 1, Example.msg 2, Example.msg 3]
      (Example.fresh (Example.env 1000000000 Example.answer500)
        Example.cfgShortWindow)).cb.state = State.StateClosed ∧
    (sendAll (Example.env 1000000000 Example.answer500) Example.cfgShortWindow
      [Example.msg 1, Example.msg 2, Example.msg 3]
      (Example.fresh (Example.env 1000000000 Example.answer500)
        Example.cfgShortWindow)).updates =
      [⟨1, api.MessageStatus.Failed, none, some "unexpected status code: 500"⟩,
       ⟨2, api.MessageStatus.Failed, none, some "unexpected status code: 500"⟩,
       ⟨3, api.MessageStatus.Failed, none, some "unexpected status code: 500"⟩] ∧
    (sendAll (Example.env 1000000000 Example.answer500) Example.cfgShortWindow
      [Example.msg 1, Example.msg 2, Example.msg 3]
      (Example.fresh (Example.env 1000000000 Example.answer500)
        Example.cfgShortWindow)).httpLog.length = 3 ∧
    (sendAll (Example.env 1000000000 Example.answer500) Example.cfgShortWindow
      [Example.msg 1, Example.msg 2, Example.msg 3]
      (Example.fresh (Example.env 1000000000 Example.answer500)
        Example.cfgShortWindow)).step = 19 ∧
    (Example.fresh (Example.env 1000000000 Example.answer500)
        Example.cfgShortWindow).cb.timeout = 60000000000 :=
  ⟨by rfl, by rfl, by rfl, by rfl, by rfl⟩

/-- C6, amended: with `ConsecutiveFails = 2`, `FailureRatio = 0.5`, an endpoint
that always answers 500, a fresh breaker, the first two deliveries (twelve
interactions) made before the first counting window ends, and any two clock
readings at most one cool-down apart: the first two messages are marked Failed
with the status error after one request each, the breaker is then Open, and
every later message is marked Failed with "service unavailable: circuit
breaker is open" while no further request is sent. -/
theorem C6_breaker_opens_after_two_failures (env : Env) (cfg : config.Config) (t0 : Int)
    (w0 : World) (m1 m2 : models.Message) (rest : List models.Message)
    (hk : cfg.CircuitBreaker.ConsecutiveFails = 2)
    (hr : cfg.CircuitBreaker.FailureRatio = F64.half)
    (hreq : env.newRequestErr = none)
    (hhttp : ∀ n, ∃ d, env.http n = HttpResult.response 500 d)
    (hfresh : w0.cb = service.NewCircuitBreaker cfg.CircuitBreaker t0)
    (hwin : ∀ e, w0.cb.expiry = some e → ∀ n, n < w0.step + 12 → env.clock n ≤ e)
    (hcool : ∀ m n, env.clock n ≤ env.clock m + w0.cb.timeout) :
    (sendAll env cfg [m1, m2] w0).updates =
      w0.updates ++
        [⟨m1.ID, api.MessageStatus.Failed, none, some "unexpected status code: 500"⟩,
         ⟨m2.ID, api.MessageStatus.Failed, none, some "unexpected status code: 500"⟩] ∧
    (sendAll env cfg [m1, m2] w0).httpLog =
      w0.httpLog ++ [buildRequest cfg m1, buildRequest cfg m2] ∧
    (sendAll env cfg [m1, m2] w0).cb.state = State.StateOpen ∧
    (sendAll env cfg (m1 :: m2 :: rest) w0).updates =
      (sendAll env cfg [m1, m2] w0).updates ++ rest.map (fun m =>
        ⟨m.ID, api.MessageStatus.Failed, none,
          some "service unavailable: circuit breaker is open"⟩) ∧
    (sendAll env cfg (m1 :: m2 :: rest) w0).httpLog = (sendAll env cfg [m1, m2] w0).httpLog ∧
    (sendAll env cfg (m1 :: m2 :: rest) w0).cb.state = State.StateOpen := by
  have hst0 : w0.cb.state = State.StateClosed := by rw [hfresh]; rfl
  have hrt : w0.cb.readyToTrip = readyToTrip cfg.CircuitBreaker := by rw [hfresh]; rfl
  have hc0 : w0.cb.counts = ⟨0, 0, 0, 0, 0⟩ := by rw [hfresh]; rfl
  have hratio : cfg.CircuitBreaker.FailureRatio.le F64.one = true := by rw [hr]; decide
  -- first message
  obtain ⟨hu1, hl1, hs1, hcb1⟩ := sendMessage_closed_500 env cfg m1 w0 hreq hhttp hst0
    (fun e he n hn => hwin e he n (by omega)) hcool
  have hno : w0.cb.readyToTrip w0.cb.counts.onRequest.onFailure = false := by
    rw [hrt, hc0]
    exact readyToTrip_below _ _ (by rw [hk]; decide)
  have hcb1 : (sendMessage env cfg m1 w0).1.cb =
      { w0.cb with counts := ⟨1, 0, 1, 0, 1⟩ } := by
    rcases hcb1 with ⟨_, h⟩ | ⟨h, _⟩
    · rw [h, hc0]; rfl
    · rw [hno] at h; exact absurd h (by decide)
  -- second message
  have hst1 : (sendMessage env cfg m1 w0).1.cb.state = State.StateClosed := by
    rw [hcb1]; exact hst0
  obtain ⟨hu2, hl2, _, hcb2⟩ := sendMessage_closed_500 env cfg m2 (sendMessage env cfg m1 w0).1
    hreq hhttp hst1
    (by rw [hcb1, hs1]; exact fun e he n hn => hwin e he n (by omega))
    (by rw [hcb1]; exact hcool)
  have hyes : (sendMessage env cfg m1 w0).1.cb.readyToTrip
      (sendMessage env cfg m1 w0).1.cb.counts.onRequest.onFailure = true := by
    rw [hcb1]
    show w0.cb.readyToTrip (Counts.mk 2 0 2 0 2) = true
    rw [hrt]
    exact readyToTrip_all_failed _ _ (by simp [hk]) (by decide) rfl hratio
  obtain ⟨n, hcb2⟩ : ∃ n, (sendMessage env cfg m2 (sendMessage env cfg m1 w0).1).1.cb =
      toNewGeneration
        { (sendMessage env cfg m1 w0).1.cb with
          counts := (sendMessage env cfg m1 w0).1.cb.counts.onRequest.onFailure
          state := State.StateOpen } (env.clock n) := by
    rcases hcb2 with ⟨h, _⟩ | ⟨_, h⟩
    · rw [hyes] at h; exact absurd h (by decide)
    · exact h
  have hw2 : sendAll env cfg [m1, m2] w0 =
      (sendMessage env cfg m2 (sendMessage env cfg m1 w0).1).1 := rfl
  have hopen : (sendAll env cfg [m1, m2] w0).cb.state = State.StateOpen := by
    rw [hw2, hcb2]; rfl
  have hexp : (sendAll env cfg [m1, m2] w0).cb.expiry = some (env.clock n + w0.cb.timeout) := by
    rw [hw2, hcb2, hcb1]; rfl
  have hsplit : sendAll env cfg (m1 :: m2 :: rest) w0 =
      sendAll env cfg rest (sendAll env cfg [m1, m2] w0) := rfl
  obtain ⟨hu3, hl3, hcb3⟩ := sendAll_open env cfg rest (sendAll env cfg [m1, m2] w0)
    (env.clock n + w0.cb.timeout) hopen hexp (fun k => hcool n k)
  refine ⟨?_, ?_, hopen, ?_, ?_, ?_⟩
  · rw [hw2, hu2, hu1]; simp [status500, Err.Error]
  · rw [hw2, hl2, hl1]; simp
  · rw [hsplit, hu3]; rfl
  · rw [hsplit, hl3]
  · rw [hsplit, hcb3]; exact hopen

/-- Witness of C6: the thresholds of the test, a clock that stands still, and four messages. -/
theorem C6_breaker_opens_after_two_failures_witness :
    (sendAll (Example.env 0 Example.answer500) Example.cfg [Example.msg 1, Example.msg 2]
      (Example.fresh (Example.env 0 Example.answer500) Example.cfg)).updates =
      (Example.fresh (Example.env 0 Example.answer500) Example.cfg).updates ++
        [⟨(Example.msg 1).ID, api.MessageStatus.Failed, none,
            some "unexpected status code: 500"⟩,
         ⟨(Example.msg 2).ID, api.MessageStatus.Failed, none,
            some "unexpected status code: 500"⟩] ∧
    (sendAll (Example.env 0 Example.answer500) Example.cfg [Example.msg 1, Example.msg 2]
      (Example.fresh (Example.env 0 Example.answer500) Example.cfg)).httpLog =
      (Example.fresh (Example.env 0 Example.answer500) Example.cfg).httpLog ++
        [buildRequest Example.cfg (Example.msg 1), buildRequest Example.cfg (Example.msg 2)] ∧
    (sendAll (Example.env 0 Example.answer500) Example.cfg [Example.msg 1, Example.msg 2]
      (Example.fresh (Example.env 0 Example.answer500) Example.cfg)).cb.state
      = State.StateOpen ∧
    (sendAll (Example.env 0 Example.answer500) Example.cfg
      (Example.msg 1 :: Example.msg 2 :: [Example.msg 3, Example.msg 4])
      (Example.fresh (Example.env 0 Example.answer500) Example.cfg)).updates =
      (sendAll (Example.env 0 Example.answer500) Example.cfg [Example.msg 1, Example.msg 2]
        (Example.fresh (Example.env 0 Example.answer500) Example.cfg)).updates ++
        [Example.msg 3, Example.msg 4].map (fun m =>
          ⟨m.ID, api.MessageStatus.Failed, none,
            some "service unavailable: circuit breaker is open"⟩) ∧
    (sendAll (Example.env 0 Example.answer500) Example.cfg
      (Example.msg 1 :: Example.msg 2 :: [Example.msg 3, Example.msg 4])
      (Example.fresh (Example.env 0 Example.answer500) Example.cfg)).httpLog =
      (sendAll (Example.env 0 Example.answer500) Example.cfg [Example.msg 1, Example.msg 2]
        (Example.fresh (Example.env 0 Example.answer500) Example.cfg)).httpLog ∧
    (sendAll (Example.env 0 Example.answer500) Example.cfg
      (Example.msg 1 :: Example.msg 2 :: [Example.msg 3, Example.msg 4])
      (Example.fresh (Example.env 0 Example.answer500) Example.cfg)).cb.state
      = State.StateOpen :=
  C6_breaker_opens_after_two_failures (Example.env 0 Example.answer500) Example.cfg 0
    (Example.fresh (Example.env 0 Example.answer500) Example.cfg)
    (Example.msg 1) (Example.msg 2) [Example.msg 3, Example.msg 4] rfl rfl rfl
    (fun _ => ⟨none, rfl⟩) rfl
    (by
      intro e he n _
      have h2 : (some (60000000000 : Int)) = some e := he
      have h3 : e = 60000000000 := (Option.some.inj h2).symm
      subst h3
      show (0 : Int) * (n : Int) ≤ 60000000000
      omega)
    (by
      intro m n
      show (0 : Int) * (n : Int) ≤ (0 : Int) * (m : Int) + 60000000000
      omega)

/-- C7: when a failing call is recorded in the Closed state (same generation,
window not expired), the breaker becomes Open if and only if, for the counts
that include this call, `Requests >= ConsecutiveFails` and the `float64`
quotient `TotalFailures / Requests` is `>= FailureRatio`; otherwise it stays
Closed. -/
theorem C7_closed_failure_opens_iff_ready (cfg : config.CircuitBreakerConfig)
    (cb : gobreaker.CircuitBreaker) (now : Int)
    (hrt : cb.readyToTrip = readyToTrip cfg) (hst : cb.state = State.StateClosed)
    (hwin : ∀ e, cb.expiry = some e → now ≤ e) :
    ((afterRequest cb cb.generation false now).state = State.StateOpen ↔
      (cfg.ConsecutiveFails ≤ cb.counts.onFailure.Requests ∧
        (F64.divUInt32 cb.counts.onFailure.TotalFailures cb.counts.onFailure.Requests).ge
          cfg.FailureRatio = true)) ∧
    ((afterRequest cb cb.generation false now).state ≠ State.StateOpen →
      (afterRequest cb cb.generation false now).state = State.StateClosed ∧
      (afterRequest cb cb.generation false now).counts = cb.counts.onFailure) := by
  rw [afterRequest_closed_failure cb now hst hwin, hrt]
  by_cases h : readyToTrip cfg cb.counts.onFailure = true
  · have h2 := h
    simp only [readyToTrip, Bool.and_eq_true, decide_eq_true_eq] at h2
    simp [h, toNewGeneration, h2]
  · have h2 := h
    simp only [readyToTrip, Bool.and_eq_true, decide_eq_true_eq] at h2
    simp [h, hst, h2]

/-- Witness of C7: the second of two failures with thresholds 2 and 0.5. -/
theorem C7_closed_failure_opens_iff_ready_witness :
    ((afterRequest
        { service.NewCircuitBreaker Example.cfg.CircuitBreaker 0 with counts := ⟨2, 0, 1, 0, 1⟩ }
        1 false 5).state = State.StateOpen ↔
      ((2 : Nat) ≤ 2 ∧ (F64.divUInt32 2 2).ge F64.half = true)) ∧
    ((afterRequest
        { service.NewCircuitBreaker Example.cfg.CircuitBreaker 0 with counts := ⟨2, 0, 1, 0, 1⟩ }
        1 false 5).state ≠ State.StateOpen →
      (afterRequest
        { service.NewCircuitBreaker Example.cfg.CircuitBreaker 0 with counts := ⟨2, 0, 1, 0, 1⟩ }
        1 false 5).state = State.StateClosed ∧
      (afterRequest
        { service.NewCircuitBreaker Example.cfg.CircuitBreaker 0 with counts := ⟨2, 0, 1, 0, 1⟩ }
        1 false 5).counts = ⟨2, 0, 2, 0, 2⟩) :=
  C7_closed_failure_opens_iff_ready Example.cfg.CircuitBreaker
    { service.NewCircuitBreaker Example.cfg.CircuitBreaker 0 with counts := ⟨2, 0, 1, 0, 1⟩ }
    5 rfl rfl (by
      intro e he
      have : e = 60000000000 := by
        have h2 : (some (60000000000 : Int)) = some e := he
        exact (Option.some.inj h2).symm
      omega)

/-- C8, counterexample: thresholds `ConsecutiveFails = 2`, `FailureRatio = 0.5`
and a counting window of one second; two consecutive failing calls on a fresh
breaker, two seconds apart, leave the breaker Closed. -/
theorem C8_counterexample_window_expires :
    Example.cfgShortWindow.CircuitBreaker.ConsecutiveFails = 2 ∧
    Example.cfgShortWindow.CircuitBreaker.FailureRatio.le F64.one = true ∧
    (CircuitBreaker.repeatExecute (Example.env 1000000000 Example.answer500) Example.failing 2
      (Example.fresh (Example.env 1000000000 Example.answer500) Example.cfgShortWindow)).cb.state
      = State.StateClosed :=
  ⟨rfl, by decide, by rfl⟩

/-- C8, amended: for every threshold `k >= 1` and every `FailureRatio <= 1`, when
the `k` calls are made and recorded before the first counting window of a
fresh breaker ends, the breaker is Closed after each of the first `k-1`
consecutive failing calls and Open after the `k`-th, with a cool-down of one
`Timeout` from the moment the `k`-th failure was recorded; and the next
`Execute`, made before that cool-down elapses, returns "service unavailable:
circuit breaker is open" without invoking the wrapped function. -/
theorem C8_trips_after_k_failures_in_window (env : Env) (cfg : config.CircuitBreakerConfig)
    (k : Nat) (hk1 : 1 ≤ k) (hk32 : k < 2 ^ 32) (hcf : cfg.ConsecutiveFails = k)
    (hratio : cfg.FailureRatio.le F64.one = true)
    (fn : World → World × Option Err) (hcb : ∀ x, (fn x).1.cb = x.cb)
    (hfail : ∀ x, (fn x).2.isNone = false) (hstep : ∀ x, x.step ≤ (fn x).1.step)
    (w0 : World) (t0 : Int) (hfresh : w0.cb = service.NewCircuitBreaker cfg t0)
    (hwin : ∀ e, w0.cb.expiry = some e →
      ∀ n, n < (CircuitBreaker.repeatExecute env fn k w0).step → env.clock n ≤ e) :
    (∀ j, j < k → (CircuitBreaker.repeatExecute env fn j w0).cb.state = State.StateClosed) ∧
    (CircuitBreaker.repeatExecute env fn k w0).cb.state = State.StateOpen ∧
    (CircuitBreaker.repeatExecute env fn k w0).cb.expiry =
      some (env.clock ((CircuitBreaker.repeatExecute env fn k w0).step - 1) + w0.cb.timeout) ∧
    ∀ fn2 : World → World × Option Err,
      env.clock (CircuitBreaker.repeatExecute env fn k w0).step ≤
        env.clock ((CircuitBreaker.repeatExecute env fn k w0).step - 1) + w0.cb.timeout →
      CircuitBreaker.Execute env none fn2 (CircuitBreaker.repeatExecute env fn k w0) =
        ({ CircuitBreaker.repeatExecute env fn k w0 with
            step := (CircuitBreaker.repeatExecute env fn k w0).step + 1 }, some openError) := by
  subst hcf
  obtain ⟨j, hj⟩ : ∃ j, cfg.ConsecutiveFails = j + 1 := ⟨cfg.ConsecutiveFails - 1, by omega⟩
  rw [hj] at hwin ⊢
  have hmono2 : ∀ i, i ≤ j + 1 → (CircuitBreaker.repeatExecute env fn i w0).step ≤
      (CircuitBreaker.repeatExecute env fn (j + 1) w0).step :=
    fun i hi => repeatExecute_step_mono env fn hstep w0 i (j + 1) hi
  have hinv : ∀ i, i < j + 1 →
      (CircuitBreaker.repeatExecute env fn i w0).cb = { w0.cb with counts := ⟨i, 0, i, 0, i⟩ } :=
    fun i hi => repeatExecute_counts env cfg fn hcb hfail hstep w0 t0 hfresh hk32 i (by omega)
      (fun e he n hn => hwin e he n (Nat.lt_of_lt_of_le hn (hmono2 i (by omega))))
  have hst0 : w0.cb.state = State.StateClosed := by rw [hfresh]; rfl
  have hrt : w0.cb.readyToTrip = readyToTrip cfg := by rw [hfresh]; rfl
  have hlast := hinv j (by omega)
  have hstj : (CircuitBreaker.repeatExecute env fn j w0).cb.state = State.StateClosed := by
    rw [hlast]; exact hst0
  have hlt := Execute_step_lt env fn hstep (CircuitBreaker.repeatExecute env fn j w0)
  have hnext : CircuitBreaker.repeatExecute env fn (j + 1) w0 =
      (CircuitBreaker.Execute env none fn (CircuitBreaker.repeatExecute env fn j w0)).1 := rfl
  have hwin1 : ∀ e, (CircuitBreaker.repeatExecute env fn j w0).cb.expiry = some e →
      env.clock (CircuitBreaker.repeatExecute env fn j w0).step ≤ e := by
    rw [hlast]; exact fun e he => hwin e he _ (by rw [hnext]; exact hlt)
  have hs := Execute_closed_step env fn _ hstj hwin1
  have hwin2 : ∀ e, (CircuitBreaker.repeatExecute env fn j w0).cb.expiry = some e →
      env.clock (fn (entered env (CircuitBreaker.repeatExecute env fn j w0))).1.step ≤ e := by
    rw [hlast]; exact fun e he => hwin e he _ (by rw [hnext, hs]; omega)
  have hmod : (j + 1) % 2 ^ 32 = j + 1 := Nat.mod_eq_of_lt (by omega)
  have hc : (Counts.mk j 0 j 0 j).onRequest.onFailure = ⟨j + 1, 0, j + 1, 0, j + 1⟩ := by
    simp only [Counts.onRequest, Counts.onFailure, hmod]
  have htrip : readyToTrip cfg ⟨j + 1, 0, j + 1, 0, j + 1⟩ = true :=
    readyToTrip_all_failed cfg _ (by simp [hj]) (by simp) rfl hratio
  have hfinal : (CircuitBreaker.repeatExecute env fn (j + 1) w0).cb =
      toNewGeneration
        { w0.cb with counts := ⟨j + 1, 0, j + 1, 0, j + 1⟩, state := State.StateOpen }
        (env.clock ((CircuitBreaker.repeatExecute env fn (j + 1) w0).step - 1)) := by
    have hidx : (CircuitBreaker.repeatExecute env fn (j + 1) w0).step - 1 =
        (fn (entered env (CircuitBreaker.repeatExecute env fn j w0))).1.step := by
      rw [hnext, hs]; omega
    rw [hidx]
    simp only [CircuitBreaker.repeatExecute]
    rw [Execute_closed_failure_cb env fn _ hstj hwin1 hwin2 hcb hfail, hlast]
    simp only [hc, hrt, htrip, if_true]
  have hstate : (CircuitBreaker.repeatExecute env fn (j + 1) w0).cb.state = State.StateOpen := by
    rw [hfinal]; rfl
  have hexp : (CircuitBreaker.repeatExecute env fn (j + 1) w0).cb.expiry =
      some (env.clock ((CircuitBreaker.repeatExecute env fn (j + 1) w0).step - 1) +
        w0.cb.timeout) := by
    rw [hfinal]; rfl
  refine ⟨fun i hi => ?_, hstate, hexp, fun fn2 hnow => ?_⟩
  · rw [hinv i hi]; exact hst0
  · exact Execute_open env none fn2 _ _ hstate hexp hnow

/-- Witness of C8: threshold 2, ratio 0.5, a clock that stands still; the state
after one and after two failing calls, and a third call whose function would
succeed. -/
theorem C8_trips_after_k_failures_in_window_witness :
    (CircuitBreaker.repeatExecute (Example.env 0 Example.answer500) Example.failing 1
      (Example.fresh (Example.env 0 Example.answer500) Example.cfg)).cb.state
        = State.StateClosed ∧
    (CircuitBreaker.repeatExecute (Example.env 0 Example.answer500) Example.failing 2
      (Example.fresh (Example.env 0 Example.answer500) Example.cfg)).cb.state = State.StateOpen ∧
    CircuitBreaker.Execute (Example.env 0 Example.answer500) none Example.succeeding
        (CircuitBreaker.repeatExecute (Example.env 0 Example.answer500) Example.failing 2
          (Example.fresh (Example.env 0 Example.answer500) Example.cfg)) =
      ({ CircuitBreaker.repeatExecute (Example.env 0 Example.answer500) Example.failing 2
          (Example.fresh (Example.env 0 Example.answer500) Example.cfg) with
          step := (CircuitBreaker.repeatExecute (Example.env 0 Example.answer500)
            Example.failing 2
            (Example.fresh (Example.env 0 Example.answer500) Example.cfg)).step + 1 },
        some openError) :=
  have h := C8_trips_after_k_failures_in_window (Example.env 0 Example.answer500)
    Example.cfg.CircuitBreaker 2 (by decide) (by decide) rfl (by decide) Example.failing
    (fun _ => rfl) (fun _ => rfl) (fun _ => Nat.le_refl _)
    (Example.fresh (Example.env 0 Example.answer500) Example.cfg) 0 rfl
    (by
      intro e he n _
      have h2 : (some (60000000000 : Int)) = some e := he
      have h3 : e = 60000000000 := (Option.some.inj h2).symm
      subst h3
      show (0 : Int) * (n : Int) ≤ 60000000000
      omega)
  ⟨h.1 1 (by decide), h.2.1, h.2.2.2 Example.succeeding (by decide)⟩

/-- C9, counterexample: on a fresh breaker, `Execute` with a cancelled context
returns `context canceled`, and `GetCounts` goes from `(0, 0)` to `(1, 1)`. -/
theorem C9_counterexample_cancelled_call_is_counted :
    CircuitBreaker.GetCounts (Example.fresh (Example.env 0 Example.answer500) Example.cfg)
      = (0, 0) ∧
    (CircuitBreaker.Execute (Example.env 0 Example.answer500) (some Err.Canceled)
      Example.failing (Example.fresh (Example.env 0 Example.answer500) Example.cfg)).2
      = some Err.Canceled ∧
    CircuitBreaker.GetCounts
      (CircuitBreaker.Execute (Example.env 0 Example.answer500) (some Err.Canceled)
        Example.failing (Example.fresh (Example.env 0 Example.answer500) Example.cfg)).1
      = (1, 1) :=
  ⟨rfl, by rfl, by rfl⟩

/-- C9, amended: with a context that is already cancelled, `Execute` never
invokes the wrapped function; on a Closed breaker whose counting window has
not expired at the two clock readings of the call it returns the context's
error, touches nothing but the clock and the breaker, and records the call as
one more request and one more failure, which opens the breaker when
`ReadyToTrip` holds for the new counts. -/
theorem C9_cancelled_call_is_recorded_as_failure (env : Env) (e : Err)
    (he : e = Err.Canceled ∨ e = Err.DeadlineExceeded)
    (fn : World → World × Option Err) (w : World)
    (hst : w.cb.state = State.StateClosed)
    (hwin : ∀ t, w.cb.expiry = some t → env.clock w.step ≤ t ∧ env.clock (w.step + 1) ≤ t) :
    (∀ fn2 : World → World × Option Err,
      CircuitBreaker.Execute env (some e) fn2 w = CircuitBreaker.Execute env (some e) fn w) ∧
    CircuitBreaker.Execute env (some e) fn w =
      ({ w with
          step := w.step + 2
          cb :=
            if w.cb.readyToTrip w.cb.counts.onRequest.onFailure then
              toNewGeneration
                { w.cb with counts := w.cb.counts.onRequest.onFailure, state := State.StateOpen }
                (env.clock (w.step + 1))
            else { w.cb with counts := w.cb.counts.onRequest.onFailure } },
        some e) := by
  refine ⟨fun fn2 => ?_, ?_⟩
  · simp only [CircuitBreaker.Execute, guarded_cancelled e fn2 fn]
  · have hwin1 : ∀ t, w.cb.expiry = some t → env.clock w.step ≤ t := fun t ht => (hwin t ht).1
    have hent := entered_closed env w hst hwin1
    have h := gobreaker_Execute_closed_failure env (CircuitBreaker.guarded (some e) fn) w hst
      hwin1
      (by
        intro t ht
        simp only [CircuitBreaker.guarded, hent]
        exact (hwin t ht).2)
      (fun _ => rfl) (fun _ => rfl)
    simp only [CircuitBreaker.Execute, h]
    simp only [CircuitBreaker.guarded, hent]
    rcases he with rfl | rfl <;> simp [Err.Is]

/-- Witness of C9: a fresh breaker with thresholds 2 and 0.5 and a cancelled
context; a function that would succeed and one that would fail give the same
result, one request and one failure are counted and the breaker stays Closed. -/
theorem C9_cancelled_call_is_recorded_as_failure_witness :
    CircuitBreaker.Execute (Example.env 0 Example.answer500) (some Err.Canceled)
        Example.succeeding (Example.fresh (Example.env 0 Example.answer500) Example.cfg) =
      CircuitBreaker.Execute (Example.env 0 Example.answer500) (some Err.Canceled)
        Example.failing (Example.fresh (Example.env 0 Example.answer500) Example.cfg) ∧
    CircuitBreaker.Execute (Example.env 0 Example.answer500) (some Err.Canceled)
        Example.failing (Example.fresh (Example.env 0 Example.answer500) Example.cfg) =
      ({ Example.fresh (Example.env 0 Example.answer500) Example.cfg with
          step := (Example.fresh (Example.env 0 Example.answer500) Example.cfg).step + 2
          cb :=
            if (Example.fresh (Example.env 0 Example.answer500) Example.cfg).cb.readyToTrip
                (Example.fresh (Example.env 0 Example.answer500)
                  Example.cfg).cb.counts.onRequest.onFailure then
              toNewGeneration
                { (Example.fresh (Example.env 0 Example.answer500) Example.cfg).cb with
                  counts := (Example.fresh (Example.env 0 Example.answer500)
                    Example.cfg).cb.counts.onRequest.onFailure
                  state := State.StateOpen }
                ((Example.env 0 Example.answer500).clock
                  ((Example.fresh (Example.env 0 Example.answer500) Example.cfg).step + 1))
            else
              { (Example.fresh (Example.env 0 Example.answer500) Example.cfg).cb with
                counts := (Example.fresh (Example.env 0 Example.answer500)
                  Example.cfg).cb.counts.onRequest.onFailure } },
        some Err.Canceled) :=
  have h := C9_cancelled_call_is_recorded_as_failure (Example.env 0 Example.answer500)
    Err.Canceled (Or.inl rfl) Example.failing
    (Example.fresh (Example.env 0 Example.answer500) Example.cfg) rfl
    (by
      intro t ht
      have h2 : (some (60000000000 : Int)) = some t := ht
      have h3 : t = 60000000000 := (Option.some.inj h2).symm
      subst h3
      exact ⟨by decide, by decide⟩)
  ⟨h.1 Example.succeeding, h.2⟩

/-- C10: in the Half-Open state, a failing trial call (an admitted call whose
function returns an error) moves the breaker to Open and restarts the
cool-down, which now lasts until one `Timeout` after the failure was recorded;
every `Execute` made before that cool-down has elapsed is rejected with the
error of the Open state, without invoking its function. -/
theorem C10_half_open_failure_reopens (env : Env) (fn : World → World × Option Err) (w : World)
    (hst : w.cb.state = State.StateHalfOpen)
    (hroom : w.cb.counts.Requests < w.cb.maxRequests)
    (hcb : ∀ x, (fn x).1.cb = x.cb) (hfail : ∀ x, (fn x).2.isNone = false) :
    (CircuitBreaker.Execute env none fn w).1.cb.state = State.StateOpen ∧
    (CircuitBreaker.Execute env none fn w).1.cb.expiry =
      some (env.clock ((CircuitBreaker.Execute env none fn w).1.step - 1) + w.cb.timeout) ∧
    ∀ fn2 : World → World × Option Err,
      env.clock (CircuitBreaker.Execute env none fn w).1.step ≤
        env.clock ((CircuitBreaker.Execute env none fn w).1.step - 1) + w.cb.timeout →
      CircuitBreaker.Execute env none fn2 (CircuitBreaker.Execute env none fn w).1 =
        ({ (CircuitBreaker.Execute env none fn w).1 with
            step := (CircuitBreaker.Execute env none fn w).1.step + 1 }, some openError) := by
  have hb := beforeRequest_halfOpen w.cb (env.clock w.step) hst hroom
  have hent : entered env w =
      { w with step := w.step + 1, cb := { w.cb with counts := w.cb.counts.onRequest } } := by
    simp only [entered, hb]
  have hE : (CircuitBreaker.Execute env none fn w).1 =
      { (fn (entered env w)).1 with
        step := (fn (entered env w)).1.step + 1
        cb := toNewGeneration
          { w.cb with counts := w.cb.counts.onRequest, state := State.StateOpen }
          (env.clock (fn (entered env w)).1.step) } := by
    rw [Execute_fst, gobreaker_Execute_admitted env _ w (by rw [hb])]
    have hcb1 : (fn (entered env w)).1.cb = { w.cb with counts := w.cb.counts.onRequest } := by
      rw [hcb, hent]
    have ha := afterRequest_halfOpen_failure { w.cb with counts := w.cb.counts.onRequest }
      (env.clock (fn (entered env w)).1.step) hst
    simp only [settled, CircuitBreaker.guarded, hcb1, hfail, hb]
    simp only at ha
    rw [ha]
  have hstep : (CircuitBreaker.Execute env none fn w).1.step - 1 = (fn (entered env w)).1.step := by
    rw [hE]; simp
  have hstate : (CircuitBreaker.Execute env none fn w).1.cb.state = State.StateOpen := by
    rw [hE]; rfl
  have hexp : (CircuitBreaker.Execute env none fn w).1.cb.expiry =
      some (env.clock ((CircuitBreaker.Execute env none fn w).1.step - 1) + w.cb.timeout) := by
    rw [hstep, hE]; rfl
  exact ⟨hstate, hexp, fun fn2 hnow => Execute_open env none fn2 _ _ hstate hexp hnow⟩

/-- Witness of C10: a Half-Open breaker with `MaxRequests = 3` and no trial call
yet, a failing trial call, and a following call whose function would succeed. -/
theorem C10_half_open_failure_reopens_witness :
    (CircuitBreaker.Execute (Example.env 0 Example.answer500) none Example.failing
      Example.halfOpen).1.cb.state = State.StateOpen ∧
    (CircuitBreaker.Execute (Example.env 0 Example.answer500) none Example.failing
      Example.halfOpen).1.cb.expiry =
      some ((Example.env 0 Example.answer500).clock
        ((CircuitBreaker.Execute (Example.env 0 Example.answer500) none Example.failing
          Example.halfOpen).1.step - 1) + Example.halfOpen.cb.timeout) ∧
    CircuitBreaker.Execute (Example.env 0 Example.answer500) none Example.succeeding
        (CircuitBreaker.Execute (Example.env 0 Example.answer500) none Example.failing
          Example.halfOpen).1 =
      ({ (CircuitBreaker.Execute (Example.env 0 Example.answer500) none Example.failing
            Example.halfOpen).1 with
          step := (CircuitBreaker.Execute (Example.env 0 Example.answer500) none
            Example.failing Example.halfOpen).1.step + 1 }, some openError) :=
  have h := C10_half_open_failure_reopens (Example.env 0 Example.answer500) Example.failing
    Example.halfOpen rfl (by decide) (fun _ => rfl) (fun _ => rfl)
  ⟨h.1, h.2.1, h.2.2 Example.succeeding (by decide)⟩

/-- C11: from a breaker that has just become Half-Open (counts cleared), the
breaker is still Half-Open after each of the first `MaxRequests - 1`
consecutive successful trial calls, and after the `MaxRequests`-th it is Closed
and `GetCounts` returns `(0, 0)`. -/
theorem C11_half_open_closes_after_max_requests_successes (env : Env)
    (fn : World → World × Option Err) (w : World)
    (hst : w.cb.state = State.StateHalfOpen) (hc : w.cb.counts = Counts.clear)
    (h1 : 1 ≤ w.cb.maxRequests) (h32 : w.cb.maxRequests < 2 ^ 32)
    (hcb : ∀ x, (fn x).1.cb = x.cb) (hok : ∀ x, (fn x).2 = none) :
    (∀ j, j < w.cb.maxRequests →
      (CircuitBreaker.repeatExecute env fn j w).cb.state = State.StateHalfOpen ∧
      (CircuitBreaker.Execute env none fn (CircuitBreaker.repeatExecute env fn j w)).2 = none) ∧
    (CircuitBreaker.repeatExecute env fn w.cb.maxRequests w).cb.state = State.StateClosed ∧
    CircuitBreaker.GetCounts (CircuitBreaker.repeatExecute env fn w.cb.maxRequests w) = (0, 0) := by
  have hinv := repeatExecute_halfOpen env fn w hst hc h32 hcb hok
  obtain ⟨j, hj⟩ : ∃ j, w.cb.maxRequests = j + 1 := ⟨w.cb.maxRequests - 1, by omega⟩
  have hstep : ∀ i, i < w.cb.maxRequests →
      (CircuitBreaker.repeatExecute env fn i w).cb.state = State.StateHalfOpen ∧
      (CircuitBreaker.repeatExecute env fn i w).cb.counts.Requests <
        (CircuitBreaker.repeatExecute env fn i w).cb.maxRequests := by
    intro i hi
    rw [hinv i hi]
    exact ⟨hst, hi⟩
  have hlast : (CircuitBreaker.repeatExecute env fn (j + 1) w).cb =
      toNewGeneration
        { w.cb with counts := ⟨j + 1, j + 1, 0, j + 1, 0⟩, state := State.StateClosed }
        (env.clock (fn (entered env (CircuitBreaker.repeatExecute env fn j w))).1.step) := by
    have hE := (Execute_halfOpen_success env fn _ (hstep j (by omega)).1 (hstep j (by omega)).2
      hcb hok).2
    simp only [CircuitBreaker.repeatExecute]
    rw [hE, hinv j (by omega)]
    have hmod : (j + 1) % 2 ^ 32 = j + 1 := Nat.mod_eq_of_lt (by omega)
    have hcnt : (Counts.mk j j 0 j 0).onRequest.onSuccess = ⟨j + 1, j + 1, 0, j + 1, 0⟩ := by
      simp only [Counts.onRequest, Counts.onSuccess, hmod]
    simp only [hcnt]
    rw [if_pos (by show w.cb.maxRequests ≤ j + 1; omega)]
  refine ⟨fun i hi => ⟨(hstep i hi).1, ?_⟩, ?_, ?_⟩
  · exact (Execute_halfOpen_success env fn _ (hstep i hi).1 (hstep i hi).2 hcb hok).1
  · rw [hj, hlast]; rfl
  · rw [hj]
    show ((CircuitBreaker.repeatExecute env fn (j + 1) w).cb.counts.Requests,
      (CircuitBreaker.repeatExecute env fn (j + 1) w).cb.counts.TotalFailures) = (0, 0)
    rw [hlast]; rfl

/-- Witness of C11: a Half-Open breaker with `MaxRequests = 3`; the state after
two and after three successful trial calls. -/
theorem C11_half_open_closes_after_max_requests_successes_witness :
    (CircuitBreaker.repeatExecute (Example.env 0 Example.answer500) Example.succeeding 2
      Example.halfOpen).cb.state = State.StateHalfOpen ∧
    (CircuitBreaker.repeatExecute (Example.env 0 Example.answer500) Example.succeeding 3
      Example.halfOpen).cb.state = State.StateClosed ∧
    CircuitBreaker.GetCounts (CircuitBreaker.repeatExecute (Example.env 0 Example.answer500)
      Example.succeeding 3 Example.halfOpen) = (0, 0) :=
  have h := C11_half_open_closes_after_max_requests_successes (Example.env 0 Example.answer500)
    Example.succeeding Example.halfOpen rfl rfl (by decide) (by decide)
    (fun _ => rfl) (fun _ => rfl)
  ⟨(h.1 2 (by decide)).1, h.2.1, h.2.2⟩

/-- C12: a breaker that entered Open at time `t` stays Open up to and including
time `t + Timeout`: `currentState` changes nothing, `GetState` returns Open and
leaves the breaker as it is, and every `Execute` is rejected with the error of
the Open state without invoking its function; and whenever the breaker is seen
Half-Open, the time is later than `t + Timeout`. -/
theorem C12_open_until_cool_down_elapses (env : Env) (cb0 : gobreaker.CircuitBreaker) (t : Int)
    (w : World) (h0 : cb0.state ≠ State.StateOpen)
    (hw : w.cb = setState cb0 State.StateOpen t) :
    (∀ now, now ≤ t + cb0.timeout → currentState w.cb now = w.cb) ∧
    (env.clock w.step ≤ t + cb0.timeout →
      (CircuitBreaker.GetState env w).2 = api.HealthResponseCircuitBreakerState.Open ∧
      (CircuitBreaker.GetState env w).1.cb = w.cb ∧
      ∀ (ctxErr : Option Err) (fn : World → World × Option Err),
        CircuitBreaker.Execute env ctxErr fn w = ({ w with step := w.step + 1 }, some openError)) ∧
    (∀ now, (currentState w.cb now).state = State.StateHalfOpen → t + cb0.timeout < now) := by
  have hst : w.cb.state = State.StateOpen := by
    rw [hw]; simp [setState, h0, toNewGeneration]
  have hexp : w.cb.expiry = some (t + cb0.timeout) := by
    rw [hw]; simp [setState, h0, toNewGeneration]
  refine ⟨fun now hnow => currentState_open _ _ _ hst hexp hnow, fun hnow => ⟨?_, ?_, ?_⟩, ?_⟩
  · simp only [CircuitBreaker.GetState, gobreaker.StateOf, readClock,
      currentState_open _ _ _ hst hexp hnow, hst]
  · rw [GetState_fst]
    exact currentState_open _ _ _ hst hexp hnow
  · exact fun ctxErr fn => Execute_open env ctxErr fn w _ hst hexp hnow
  · intro now hhalf
    by_contra hlt
    rw [currentState_open _ _ _ hst hexp (not_lt.mp hlt), hst] at hhalf
    exact absurd hhalf (by decide)

/-- Witness of C12: the breaker of the test thresholds, opened at time 5 with a
cool-down of sixty seconds, read and called at time 0 of a clock that stands
still. -/
theorem C12_open_until_cool_down_elapses_witness :
    currentState (Example.openedAt5).cb 60000000005 = (Example.openedAt5).cb ∧
    (CircuitBreaker.GetState (Example.env 0 Example.answer500) Example.openedAt5).2 =
      api.HealthResponseCircuitBreakerState.Open ∧
    CircuitBreaker.Execute (Example.env 0 Example.answer500) none Example.succeeding
      Example.openedAt5 =
      ({ Example.openedAt5 with step := Example.openedAt5.step + 1 }, some openError) :=
  have h := C12_open_until_cool_down_elapses (Example.env 0 Example.answer500)
    (Example.fresh (Example.env 0 Example.answer500) Example.cfg).cb 5 Example.openedAt5
    (by decide) rfl
  ⟨h.1 60000000005 (by decide), (h.2.1 (by decide)).1,
    (h.2.1 (by decide)).2.2 none Example.succeeding⟩

/-- C13, counterexample: thresholds 2 and 0.5, window and cool-down of sixty
seconds; one failing call at 1 s.  `GetState` called at 61 s clears the counts
and starts a new window; two failing calls at 62 s and 121.5 s then leave the
breaker Closed, whereas the same two calls open it when the clock is merely
read at 61 s instead. -/
theorem C13_counterexample_GetState_starts_new_window :
    CircuitBreaker.GetCounts Example.afterOneFailure = (1, 1) ∧
    Example.afterOneFailure.cb.expiry = some 60000000000 ∧
    CircuitBreaker.GetCounts (CircuitBreaker.GetState Example.stagedEnv
      Example.afterOneFailure).1 = (0, 0) ∧
    (CircuitBreaker.GetState Example.stagedEnv Example.afterOneFailure).1.cb.expiry =
      some 121000000000 ∧
    (CircuitBreaker.repeatExecute Example.stagedEnv Example.failing 2
      (CircuitBreaker.GetState Example.stagedEnv Example.afterOneFailure).1).cb.state =
      State.StateClosed ∧
    (CircuitBreaker.repeatExecute Example.stagedEnv Example.failing 2
      (readClock Example.stagedEnv Example.afterOneFailure).2).cb.state = State.StateOpen :=
  ⟨by rfl, by rfl, by rfl, by rfl, by rfl, by rfl⟩

/-- C13, amended: `GetCounts` only reads the counts.  `GetState` reads the clock
and applies `currentState`: it leaves the breaker unchanged when no transition
is due (Half-Open; Closed with the window not expired; Open with the cool-down
not elapsed), so that a later `Execute` finds the same breaker; on a Closed
breaker whose window has expired it clears the counts and starts a new
generation, and on an Open breaker whose cool-down has elapsed it moves the
breaker to Half-Open. -/
theorem C13_GetState_applies_the_due_transition (env : Env) (w : World) :
    CircuitBreaker.GetCounts w = (w.cb.counts.Requests, w.cb.counts.TotalFailures) ∧
    (CircuitBreaker.GetState env w).1 =
      { w with step := w.step + 1, cb := currentState w.cb (env.clock w.step) } ∧
    ((w.cb.state = State.StateHalfOpen ∨
      (w.cb.state = State.StateClosed ∧ ∀ e, w.cb.expiry = some e → env.clock w.step ≤ e) ∨
      (w.cb.state = State.StateOpen ∧ ∃ e, w.cb.expiry = some e ∧ env.clock w.step ≤ e)) →
      (CircuitBreaker.GetState env w).1.cb = w.cb) ∧
    (∀ e, w.cb.state = State.StateClosed → w.cb.expiry = some e → e < env.clock w.step →
      (CircuitBreaker.GetState env w).1.cb = toNewGeneration w.cb (env.clock w.step) ∧
      CircuitBreaker.GetCounts (CircuitBreaker.GetState env w).1 = (0, 0)) ∧
    (∀ e, w.cb.state = State.StateOpen → w.cb.expiry = some e → e < env.clock w.step →
      (CircuitBreaker.GetState env w).1.cb.state = State.StateHalfOpen ∧
      (CircuitBreaker.GetState env w).2 = api.HealthResponseCircuitBreakerState.HalfOpen) := by
  refine ⟨rfl, GetState_fst env w, ?_, ?_, ?_⟩
  · intro h
    rw [GetState_fst]
    show currentState w.cb (env.clock w.step) = w.cb
    rcases h with h | ⟨h, hwin⟩ | ⟨h, e, he, hnow⟩
    · exact currentState_halfOpen _ _ h
    · exact currentState_closed _ _ h hwin
    · exact currentState_open _ _ e h he hnow
  · intro e hst hexp hlt
    have hcur : currentState w.cb (env.clock w.step) = toNewGeneration w.cb (env.clock w.step) := by
      simp [currentState, hst, hexp, expiryBefore, hlt]
    refine ⟨?_, ?_⟩
    · rw [GetState_fst]; exact hcur
    · rw [GetState_fst]
      show ((currentState w.cb (env.clock w.step)).counts.Requests,
        (currentState w.cb (env.clock w.step)).counts.TotalFailures) = (0, 0)
      rw [hcur]; rfl
  · intro e hst hexp hlt
    have hcur : (currentState w.cb (env.clock w.step)).state = State.StateHalfOpen := by
      simp [currentState, hst, hexp, expiryBefore, hlt, setState, toNewGeneration]
    refine ⟨?_, ?_⟩
    · rw [GetState_fst]; exact hcur
    · simp only [CircuitBreaker.GetState, gobreaker.StateOf, readClock, hcur]

/-- C14: whatever the scheduler state, the two pings and the breaker counts are,
a health report whose breaker state is Open has aggregate status Degraded. -/
theorem C14_open_breaker_reports_degraded (env : Env) (isRunning : Bool) (w : World)
    (hopen : (GetHealth env isRunning w).2.CircuitBreakerState =
      api.HealthResponseCircuitBreakerState.Open) :
    (GetHealth env isRunning w).2.Status = api.HealthResponseStatus.Degraded := by
  simp only [GetHealth] at hopen ⊢
  rw [if_pos hopen]

/-- Witness of C14: the store does not answer the ping and the breaker is Open. -/
theorem C14_open_breaker_reports_degraded_witness :
    (GetHealth Example.envStoreDown true Example.openedAt5).2.DatabaseStatus =
      api.HealthResponseDatabaseStatus.Disconnected ∧
    (GetHealth Example.envStoreDown true Example.openedAt5).2.Status =
      api.HealthResponseStatus.Degraded :=
  ⟨by rfl, C14_open_breaker_reports_degraded Example.envStoreDown true Example.openedAt5
    (by rfl)⟩

/-- C15: when the breaker state of the report is not Open, the aggregate status
is Unhealthy exactly when the store ping or the cache ping returns an error,
and Healthy exactly when both succeed, whatever the scheduler state and the
breaker counts are. -/
theorem C15_unhealthy_iff_a_ping_fails (env : Env) (isRunning : Bool) (w : World)
    (hnot : (GetHealth env isRunning w).2.CircuitBreakerState ≠
      api.HealthResponseCircuitBreakerState.Open) :
    ((GetHealth env isRunning w).2.Status = api.HealthResponseStatus.Unhealthy ↔
      (env.dbErr w.step ≠ none ∨ env.cacheErr (w.step + 1) ≠ none)) ∧
    ((GetHealth env isRunning w).2.Status = api.HealthResponseStatus.Healthy ↔
      (env.dbErr w.step = none ∧ env.cacheErr (w.step + 1) = none)) := by
  simp only [GetHealth] at hnot ⊢
  rw [if_neg hnot]
  simp only [checkDatabaseHealth, checkRedisHealth]
  rcases Option.eq_none_or_eq_some (env.dbErr w.step) with hdb | ⟨e1, hdb⟩ <;>
    rcases Option.eq_none_or_eq_some (env.cacheErr (w.step + 1)) with hrd | ⟨e2, hrd⟩ <;>
    simp [hdb, hrd]

/-- Witness of C15: the store does not answer the ping and the breaker is Half-Open. -/
theorem C15_unhealthy_iff_a_ping_fails_witness :
    ((GetHealth Example.envStoreDown false Example.halfOpen).2.Status =
        api.HealthResponseStatus.Unhealthy ↔
      (Example.envStoreDown.dbErr Example.halfOpen.step ≠ none ∨
        Example.envStoreDown.cacheErr (Example.halfOpen.step + 1) ≠ none)) ∧
    ((GetHealth Example.envStoreDown false Example.halfOpen).2.Status =
        api.HealthResponseStatus.Healthy ↔
      (Example.envStoreDown.dbErr Example.halfOpen.step = none ∧
        Example.envStoreDown.cacheErr (Example.halfOpen.step + 1) = none)) :=
  C15_unhealthy_iff_a_ping_fails Example.envStoreDown false Example.halfOpen (by decide)

/-- C16: the circuit-breaker status text of a health report is `cbStatusText` of
the counts the breaker reports; it is "No requests yet" for `requests = 0`,
and for `requests > 0` it is "Requests: R, Failures: F (P%)" where `P` is the
`float64` value `failures / requests * 100` printed with one digit after the
point, that digit and the integer part being the tenths nearest to the value;
counts 100 and 5 give "Requests: 100, Failures: 5 (5.0%)". -/
theorem C16_status_text_has_one_decimal (env : Env) (isRunning : Bool) (w : World) :
    (GetHealth env isRunning w).2.CircuitBreakerStatus =
      cbStatusText
        (GetCircuitBreakerStatus env
          (checkRedisHealth env (checkDatabaseHealth env w).1).1).2.2.1
        (GetCircuitBreakerStatus env
          (checkRedisHealth env (checkDatabaseHealth env w).1).1).2.2.2 ∧
    (∀ failures, cbStatusText 0 failures = "No requests yet") ∧
    (∀ requests failures, 0 < requests →
      ∃ m e, (F64.divUInt32 failures requests).mul100 = F64.fin false m e ∧
        cbStatusText requests failures =
          "Requests: " ++ toString requests ++ ", Failures: " ++ toString failures ++ " (" ++
            (toString (F64.tenths m e / 10) ++ "." ++ toString (F64.tenths m e % 10)) ++ "%)" ∧
        (toString (F64.tenths m e % 10)).length = 1 ∧
        |(F64.tenths m e : ℚ) - 10 * (F64.fin false m e).toRat| ≤ 1 / 2) ∧
    cbStatusText 100 5 = "Requests: 100, Failures: 5 (5.0%)" := by
  refine ⟨rfl, fun _ => rfl, ?_, by decide⟩
  intro requests failures hr
  obtain ⟨m, e, hme⟩ := failureRate_finite failures requests hr
  refine ⟨m, e, hme, ?_, toString_digit_length _ (Nat.mod_lt _ (by decide)), tenths_close m e⟩
  simp only [cbStatusText, hr, if_true, hme, F64.format1]
  simp

/-- C17: `Start` on a scheduler whose running flag is set returns
`ErrSchedulerAlreadyRunning` and leaves the whole state as it was: the flag, the
stop and done channels, the goroutines spawned and the task invocations logged;
as a step of the client it leads from the state to the same state. -/
theorem C17_start_while_running_is_rejected (ctx : Nat) (sys : scheduler.System)
    (hrun : scheduler.IsRunning sys = true) :
    scheduler.Start ctx sys = (sys, some scheduler.ErrSchedulerAlreadyRunning) ∧
    (sys.pc = scheduler.StopPC.idle →
      scheduler.step (scheduler.Action.start ctx) sys = some sys) := by
  have hr : sys.s.isRunning = true := hrun
  have hst : scheduler.Start ctx sys = (sys, some scheduler.ErrSchedulerAlreadyRunning) := by
    simp [scheduler.Start, hr]
  refine ⟨hst, fun hpc => ?_⟩
  simp only [scheduler.step, if_pos hpc, hst]

/-- Witness of C17: a second `Start` on a scheduler that was just started. -/
theorem C17_start_while_running_is_rejected_witness :
    scheduler.IsRunning Example.runningScheduler = true ∧
    scheduler.Start 8 Example.runningScheduler =
      (Example.runningScheduler, some scheduler.ErrSchedulerAlreadyRunning) ∧
    (scheduler.Start 8 Example.runningScheduler).1.spawned = 1 :=
  have h := C17_start_while_running_is_rejected 8 Example.runningScheduler rfl
  ⟨rfl, h.1, by rw [h.1]; rfl⟩

/-- C18: `Stop` on a scheduler whose running flag is not set returns
`ErrSchedulerNotRunning` in its first critical section and leaves the whole
state as it was: no channel is closed and the flag stays false; as a step of
the client it leads from the state to the same state. -/
theorem C18_stop_while_not_running_is_rejected (sys : scheduler.System)
    (hrun : scheduler.IsRunning sys = false) :
    scheduler.StopEnter sys = (sys, some scheduler.ErrSchedulerNotRunning) ∧
    (sys.pc = scheduler.StopPC.idle → scheduler.step scheduler.Action.stop sys = some sys) := by
  have hr : sys.s.isRunning = false := hrun
  have hst : scheduler.StopEnter sys = (sys, some scheduler.ErrSchedulerNotRunning) := by
    simp [scheduler.StopEnter, hr]
  refine ⟨hst, fun hpc => ?_⟩
  simp only [scheduler.step, if_pos hpc, hst]

/-- Witness of C18: `Stop` on a scheduler after a full cycle of `Start` and
`Stop`. -/
theorem C18_stop_while_not_running_is_rejected_witness :
    scheduler.IsRunning Example.afterCycle = false ∧
    scheduler.StopEnter Example.afterCycle =
      (Example.afterCycle, some scheduler.ErrSchedulerNotRunning) ∧
    scheduler.step scheduler.Action.stop Example.afterCycle = some Example.afterCycle :=
  have h := C18_stop_while_not_running_is_rejected Example.afterCycle rfl
  ⟨rfl, h.1, h.2 rfl⟩

/-- C19, counterexample: `Start` has returned nil and `Stop` has not completed,
yet `IsRunning` is false: in the first run `Stop` is never called and the
context of `Start` is cancelled; in the second `Stop` has closed the stop
signal and is still waiting for the loop. -/
theorem C19_counterexample_not_running_before_stop_completes :
    (scheduler.exec Example.cancelledRun (scheduler.NewScheduler 120000000000)).map
        (fun sys => (sys.since, sys.pc, scheduler.IsRunning sys)) =
      some (scheduler.Since.started, scheduler.StopPC.idle, false) ∧
    (scheduler.exec Example.stoppingRun (scheduler.NewScheduler 120000000000)).map
        (fun sys => (sys.since, sys.pc, scheduler.IsRunning sys)) =
      some (scheduler.Since.started, scheduler.StopPC.waiting, false) :=
  ⟨by rfl, by rfl⟩

/-- C19, amended: in every state of every execution from `NewScheduler`, with
any number of cycles: a new scheduler is not running; when the last call that
returned nil is a `Start`, `IsRunning` is true as long as `Stop` has not closed
the stop signal and the context of that `Start` is not cancelled; when it is a
`Stop`, `IsRunning` is false, and it stays false and no task invocation is made
along every continuation without a `Start`. -/
theorem C19_running_from_start_until_stop_or_cancel (interval : Int)
    (acts : List scheduler.Action) (sys : scheduler.System)
    (h : scheduler.exec acts (scheduler.NewScheduler interval) = some sys) :
    scheduler.IsRunning (scheduler.NewScheduler interval) = false ∧
    (sys.since = scheduler.Since.started →
      (sys.pc = scheduler.StopPC.idle ∨ sys.pc = scheduler.StopPC.closing) →
      (sys.loops (sys.spawned - 1)).ctx ∉ sys.cancelled → scheduler.IsRunning sys = true) ∧
    (sys.since = scheduler.Since.stopped →
      ∀ (more : List scheduler.Action) (later : scheduler.System),
        (∀ ctx, scheduler.Action.start ctx ∉ more) → scheduler.exec more sys = some later →
        scheduler.IsRunning later = false ∧ later.calls = sys.calls) := by
  have hinv := scheduler.Inv_exec interval acts sys h
  refine ⟨rfl, ?_, ?_⟩
  · intro hst hpc hctx
    have hsp : sys.spawned ≠ 0 := by
      intro h0
      have := scheduler.spawned_exec interval acts sys h h0
      rw [hst] at this
      cases this
    have hlast : sys.spawned - 1 + 1 = sys.spawned := by omega
    by_contra hnr
    have hna : (sys.loops (sys.spawned - 1)).phase.active = false := by
      cases hact : (sys.loops (sys.spawned - 1)).phase.active with
      | false => rfl
      | true => exact absurd ((hinv.last_active _ hlast).mp hact) hnr
    rcases hinv.last_left _ hlast hna with hc | hc
    · exact hctx hc
    · exact hinv.stop_open hst hpc hc
  · intro hst more later hns hex
    have hq := scheduler.Quiet_exec more sys later (scheduler.Quiet_of_stopped sys hinv hst) hns hex
    exact ⟨hq.1.1, hq.2⟩

/-- Witness of C19: the state after `Start` and the initial invocation is
running; after a full cycle the scheduler is not running, and a rejected `Stop`
and a cancellation leave the log of invocations as it was. -/
theorem C19_running_from_start_until_stop_or_cancel_witness :
    scheduler.exec Example.startedRun (scheduler.NewScheduler 120000000000) =
      some Example.afterStart ∧
    scheduler.IsRunning Example.afterStart = true ∧
    scheduler.exec Example.cycle (scheduler.NewScheduler 120000000000) =
      some Example.afterCycle ∧
    Example.afterCycle.since = scheduler.Since.stopped ∧
    scheduler.IsRunning Example.afterCycle = false ∧
    (scheduler.exec [scheduler.Action.stop, scheduler.Action.cancel 7] Example.afterCycle).map
      (fun later => later.calls) = some Example.afterCycle.calls :=
  have h1 := C19_running_from_start_until_stop_or_cancel 120000000000 Example.startedRun
    Example.afterStart rfl
  have h2 := C19_running_from_start_until_stop_or_cancel 120000000000 Example.cycle
    Example.afterCycle rfl
  ⟨rfl, h1.2.1 rfl (Or.inl rfl) (by decide), rfl, rfl, (h2.2.2 rfl [] Example.afterCycle
    (fun _ hm => nomatch hm) rfl).1, by rfl⟩

/-- C20: for every goroutine `i` of every execution from `NewScheduler`: before
its initial invocation it has made no invocation; from then on, also after it
has left the loop, the number of its task invocations is the number of ticker
firings it has consumed plus one; and an invocation, whatever error it returns,
leaves `IsRunning` as it is and leaves the goroutine in the loop (before the
ticker after the initial invocation, in the `select` after a firing), and is
enabled or not independently of the error. -/
theorem C20_invocations_are_firings_plus_one (interval : Int) (acts : List scheduler.Action)
    (sys : scheduler.System) (i : Nat)
    (h : scheduler.exec acts (scheduler.NewScheduler interval) = some sys)
    (hi : i < sys.spawned) :
    ((sys.loops i).phase = scheduler.Phase.entry → scheduler.invocations i sys = 0) ∧
    ((sys.loops i).phase ≠ scheduler.Phase.entry →
      scheduler.invocations i sys = (sys.loops i).ticks + 1) ∧
    (∀ err next, scheduler.step (scheduler.Action.loopInitial i err) sys = some next →
      scheduler.IsRunning next = scheduler.IsRunning sys ∧
      (next.loops i).phase = scheduler.Phase.initialDone ∧
      (next.loops i).ticks = 0 ∧ scheduler.invocations i next = 1) ∧
    (∀ err next, scheduler.step (scheduler.Action.loopTick i err) sys = some next →
      scheduler.IsRunning next = scheduler.IsRunning sys ∧
      (next.loops i).phase = scheduler.Phase.selecting ∧
      (next.loops i).ticks = (sys.loops i).ticks + 1 ∧
      scheduler.invocations i next = scheduler.invocations i sys + 1) ∧
    (∀ err, (scheduler.step (scheduler.Action.loopInitial i err) sys).isSome =
        (scheduler.step (scheduler.Action.loopInitial i none) sys).isSome ∧
      (scheduler.step (scheduler.Action.loopTick i err) sys).isSome =
        (scheduler.step (scheduler.Action.loopTick i none) sys).isSome) := by
  have hc := scheduler.Counted_exec interval acts sys h i
  refine ⟨fun hp => ((hc.2 hi).1 hp).1, (hc.2 hi).2, ?_, ?_, ?_⟩
  · intro err next hs
    have hcn := scheduler.Counted_step _ sys next (scheduler.Counted_exec interval acts sys h) hs i
    simp only [scheduler.step] at hs
    split_ifs at hs with hg
    cases hs
    have h0 := ((hc.2 hi).1 hg.2).2
    have hph : ((scheduler.setPhase i scheduler.Phase.initialDone (scheduler.executeTask i err
        { sys with
          loops := Function.update sys.loops i
            { sys.loops i with doneCh := sys.s.doneCh } })).loops i).phase =
        scheduler.Phase.initialDone := by
      simp [scheduler.setPhase]
    have htk : ((scheduler.setPhase i scheduler.Phase.initialDone (scheduler.executeTask i err
        { sys with
          loops := Function.update sys.loops i
            { sys.loops i with doneCh := sys.s.doneCh } })).loops i).ticks = 0 := by
      simp [scheduler.setPhase, scheduler.executeTask, h0]
    refine ⟨rfl, hph, htk, ?_⟩
    have := (hcn.2 hi).2 (by rw [hph]; decide)
    rw [this, htk]
  · intro err next hs
    simp only [scheduler.step] at hs
    split_ifs at hs with hg
    cases hs
    refine ⟨rfl, ?_, ?_, ?_⟩
    · simp [scheduler.executeTask, hg.2]
    · simp [scheduler.executeTask]
    · rw [scheduler.invocations_executeTask]
      simp [scheduler.invocations]
  · intro err
    simp only [scheduler.step]
    constructor <;> split_ifs <;> rfl

/-- Witness of C20: a run whose initial invocation and first firing return an
error and whose second firing succeeds: three invocations, two firings, the
loop still selecting and the scheduler running. -/
theorem C20_invocations_are_firings_plus_one_witness :
    scheduler.exec Example.tickingRun (scheduler.NewScheduler 120000000000) =
      some Example.afterTicking ∧
    scheduler.invocations 0 Example.afterTicking = (Example.afterTicking.loops 0).ticks + 1 ∧
    (Example.afterTicking.loops 0).ticks = 2 ∧
    (Example.afterTicking.loops 0).phase = scheduler.Phase.selecting ∧
    scheduler.IsRunning Example.afterTicking = true :=
  have h := C20_invocations_are_firings_plus_one 120000000000 Example.tickingRun
    Example.afterTicking 0 rfl (by decide)
  ⟨rfl, h.2.1 (by decide), rfl, rfl, rfl⟩

/-- C21: in every state of every execution from `NewScheduler`, a goroutine that
is in the `select` of its loop while the context of its `Start` is cancelled
can take the `ctx.Done()` branch; once it has, `IsRunning` is false and the
goroutine is out of the loop, without any step of `Stop`; it makes no further
task invocation along any continuation; and when the client is not inside
`Stop`, `IsRunning` stays false and no task invocation at all is made along
every continuation without a `Start`. -/
theorem C21_cancelled_context_ends_the_loop (interval : Int) (acts : List scheduler.Action)
    (sys : scheduler.System) (i : Nat)
    (h : scheduler.exec acts (scheduler.NewScheduler interval) = some sys)
    (hi : i < sys.spawned) (hsel : (sys.loops i).phase = scheduler.Phase.selecting)
    (hc : (sys.loops i).ctx ∈ sys.cancelled) :
    scheduler.step (scheduler.Action.loopCancel i) sys = some (scheduler.leaveLoop i sys) ∧
    scheduler.IsRunning (scheduler.leaveLoop i sys) = false ∧
    ((scheduler.leaveLoop i sys).loops i).phase = scheduler.Phase.returned ∧
    (scheduler.leaveLoop i sys).pc = sys.pc ∧
    (scheduler.leaveLoop i sys).calls = sys.calls ∧
    (∀ (more : List scheduler.Action) (later : scheduler.System),
      scheduler.exec more (scheduler.leaveLoop i sys) = some later →
      scheduler.invocations i later = scheduler.invocations i sys) ∧
    (sys.pc = scheduler.StopPC.idle →
      ∀ (more : List scheduler.Action) (later : scheduler.System),
        (∀ ctx, scheduler.Action.start ctx ∉ more) →
        scheduler.exec more (scheduler.leaveLoop i sys) = some later →
        scheduler.IsRunning later = false ∧ later.calls = sys.calls) := by
  have hinv := scheduler.Inv_exec interval acts sys h
  have hph : ((scheduler.leaveLoop i sys).loops i).phase = scheduler.Phase.returned := by
    simp [scheduler.leaveLoop, scheduler.setPhase]
  refine ⟨?_, rfl, hph, rfl, rfl, ?_, ?_⟩
  · simp only [scheduler.step]
    rw [if_pos ⟨hi, hsel, hc⟩]
  · intro more later hex
    exact (scheduler.retired_exec i more (scheduler.leaveLoop i sys) later hi
      (by rw [hph]; rfl) hex).2
  · intro hpc more later hns hex
    have hq := scheduler.Quiet_exec more (scheduler.leaveLoop i sys) later
      (scheduler.Quiet_leaveLoop i sys hinv hi hsel hpc) hns hex
    exact ⟨hq.1.1, hq.2⟩

/-- Witness of C21: after the initial invocation and one firing the context of
`Start` is cancelled; the loop observes it, and a later rejected `Stop` finds
the scheduler not running with the two invocations made before. -/
theorem C21_cancelled_context_ends_the_loop_witness :
    scheduler.exec Example.cancellingRun (scheduler.NewScheduler 120000000000) =
      some Example.afterCancel ∧
    scheduler.IsRunning Example.afterCancel = true ∧
    scheduler.step (scheduler.Action.loopCancel 0) Example.afterCancel =
      some (scheduler.leaveLoop 0 Example.afterCancel) ∧
    scheduler.IsRunning (scheduler.leaveLoop 0 Example.afterCancel) = false ∧
    (scheduler.exec [scheduler.Action.loopClose 0, scheduler.Action.stop]
      (scheduler.leaveLoop 0 Example.afterCancel)).map
        (fun later => (scheduler.IsRunning later, later.calls.length)) = some (false, 2) :=
  have h := C21_cancelled_context_ends_the_loop 120000000000 Example.cancellingRun
    Example.afterCancel 0 rfl (by decide) rfl (List.mem_cons_self _ _)
  ⟨rfl, rfl, h.1, h.2.1, by rfl⟩

/-- C22: in every state of every execution from `NewScheduler interval`, every
task invocation in the log was made by a spawned goroutine with the context of
that goroutine, which is the context given to the `Start` that spawned it and
never changes, and with the timeout `s.interval - time.Second` as `int64`
computes it; for every interval from `-2^63 + 1s` on (in particular for every
positive interval, the only ones under which a ticker exists and a firing is
consumed) the timeout is `interval - 1s`, so that a tick invoked at time `t`
has its deadline `t + timeout` before `t + interval`. -/
theorem C22_task_timeout_is_interval_minus_one_second (interval : Int)
    (acts : List scheduler.Action) (sys : scheduler.System) (c : scheduler.TaskCall)
    (h : scheduler.exec acts (scheduler.NewScheduler interval) = some sys)
    (hc : c ∈ sys.calls) :
    c.loop < sys.spawned ∧ c.ctx = (sys.loops c.loop).ctx ∧
    c.timeout = wrapInt64 (interval - scheduler.second) ∧
    (-2 ^ 63 + scheduler.second ≤ interval → interval < 2 ^ 63 →
      c.timeout = interval - scheduler.second ∧ ∀ t : Int, t + c.timeout < t + interval) ∧
    (∀ i err next, scheduler.step (scheduler.Action.loopTick i err) sys = some next →
      0 < interval) ∧
    (∀ ctx next, scheduler.IsRunning sys = false →
      scheduler.step (scheduler.Action.start ctx) sys = some next →
      next.spawned = sys.spawned + 1 ∧ (next.loops sys.spawned).ctx = ctx) ∧
    (∀ a next, scheduler.step a sys = some next →
      ∀ i, i < sys.spawned → (next.loops i).ctx = (sys.loops i).ctx) := by
  have ht := scheduler.Timed_exec interval acts sys h
  obtain ⟨c1, c2, c3⟩ := ht.calls c hc
  refine ⟨c1, c2, c3, ?_, ?_, ?_, ?_⟩
  · intro h1 h2
    have hw : wrapInt64 (interval - scheduler.second) = interval - scheduler.second := by
      apply wrapInt64_id
      · simp only [scheduler.second] at h1 ⊢
        omega
      · simp only [scheduler.second]
        omega
    rw [c3, hw]
    refine ⟨rfl, fun t => ?_⟩
    simp only [scheduler.second]
    omega
  · intro i err next hs
    simp only [scheduler.step] at hs
    split_ifs at hs with hg
    exact ht.ticking i hg.1 (by rw [hg.2]; rfl)
  · intro ctx next hrun hs
    have hr : sys.s.isRunning = false := hrun
    have hst : (scheduler.Start ctx sys).1.spawned = sys.spawned + 1 ∧
        ((scheduler.Start ctx sys).1.loops sys.spawned).ctx = ctx := by
      simp [scheduler.Start, hr]
    simp only [scheduler.step] at hs
    split_ifs at hs
    cases hs
    exact hst
  · intro a next hs i hi
    exact scheduler.ctx_step a sys next hs i hi

/-- Witness of C22: the third invocation of a run with an interval of two
minutes, made with the context 7 of `Start` and a timeout of 119 seconds. -/
theorem C22_task_timeout_is_interval_minus_one_second_witness :
    scheduler.exec Example.tickingRun (scheduler.NewScheduler 120000000000) =
      some Example.afterTicking ∧
    Example.afterTicking.calls.length = 3 ∧
    (∀ c ∈ Example.afterTicking.calls.getLast?, c.ctx = 7 ∧ c.timeout = 119000000000) ∧
    wrapInt64 (120000000000 - scheduler.second) = 119000000000 :=
  have h := C22_task_timeout_is_interval_minus_one_second 120000000000 Example.tickingRun
    Example.afterTicking
    { loop := 0, ctx := 7, timeout := 119000000000, result := none } rfl (by decide)
  ⟨rfl, rfl, by decide, h.2.2.1.symm⟩

/-- C23: `executeSendTask` does not look at the context it receives, and
`sendMessage` hands `context.Background()` to the circuit breaker: a tick
invoked with a cancelled context is the tick invoked with a live one.  With one
pending message and an endpoint that answers 200 it sends the request and
marks the message Sent, whereas `Execute` called with the cancelled context
does not run the delivery. -/
theorem C23_cancelled_tick_still_delivers :
    (∀ (env : Env) (cfg : config.Config) (ctxErr : Option Err) (w : World),
      executeSendTask env cfg ctxErr w = executeSendTask env cfg none w) ∧
    (executeSendTask (Example.env 1000 Example.answerAccepted) Example.cfg (some Err.Canceled)
      (Example.onePending (Example.env 1000 Example.answerAccepted))).2 = none ∧
    (executeSendTask (Example.env 1000 Example.answerAccepted) Example.cfg (some Err.Canceled)
      (Example.onePending (Example.env 1000 Example.answerAccepted))).1.httpLog =
      [buildRequest Example.cfg (Example.msg 1)] ∧
    (executeSendTask (Example.env 1000 Example.answerAccepted) Example.cfg (some Err.Canceled)
      (Example.onePending (Example.env 1000 Example.answerAccepted))).1.store.map
        (fun m => (m.ID, m.Status, m.MessageID)) =
      [(1, api.MessageStatus.Sent, some "msg-0")] ∧
    (CircuitBreaker.Execute (Example.env 1000 Example.answerAccepted) (some Err.Canceled)
      (deliver (Example.env 1000 Example.answerAccepted) Example.cfg (Example.msg 1))
      (Example.onePending (Example.env 1000 Example.answerAccepted))).1.httpLog = [] ∧
    (CircuitBreaker.Execute (Example.env 1000 Example.answerAccepted) (some Err.Canceled)
      (deliver (Example.env 1000 Example.answerAccepted) Example.cfg (Example.msg 1))
      (Example.onePending (Example.env 1000 Example.answerAccepted))).2 = some Err.Canceled :=
  ⟨fun _ _ _ _ => rfl, by rfl, by rfl, by rfl, by rfl, by rfl⟩

/-- C24, counterexample: page 1 with limit 0 on a table with one sent row.  The
store answers both queries, the first with no row and the second with the
count 1; then the division `int(totalCount) / limit` panics and no page is
returned. -/
theorem C24_counterexample_limit_zero_panics :
    (repository.GetSentMessages (Example.env 1000 Example.answerAccepted) (pageOffset 1 0) 0
      (Example.oneSent (Example.env 1000 Example.answerAccepted))).2 = Except.ok [] ∧
    repository.countSent (Example.oneSent (Example.env 1000 Example.answerAccepted)).store = 1 ∧
    totalPages 1 0 = none ∧
    (service.GetSentMessages (Example.env 1000 Example.answerAccepted) 1 0
      (Example.oneSent (Example.env 1000 Example.answerAccepted))).2 = none :=
  ⟨by rfl, by rfl, by rfl, by rfl⟩

/-- C24, amended: with `limit = 0` the method `GetSentMessages` never returns a
page, for every page and every table: when both store queries succeed the
division `int(totalCount) / limit` panics, and otherwise the error of the store
is returned.  With a limit other than 0 the method does not panic; the handler
never passes the limit 0, so the call it makes does not panic. -/
theorem C24_limit_zero_never_returns_a_page (env : Env) (page : Int) (w : World)
    (params : api.GetSentMessagesParams) :
    (env.dbErr w.step = none → env.dbErr (w.step + 1) = none →
      (service.GetSentMessages env page 0 w).2 = none) ∧
    (∀ r, (service.GetSentMessages env page 0 w).2 ≠ some (Except.ok r)) ∧
    (∀ limit : Int, limit ≠ 0 → (service.GetSentMessages env page limit w).2 ≠ none) ∧
    (handler.GetSentMessages params Prod.mk).2 ≠ 0 ∧
    handler.GetSentMessages params (fun p l => (service.GetSentMessages env p l w).2) ≠ none := by
  have hoff : pageOffset page 0 = 0 := by simp [pageOffset, wrapInt64]
  have htp : ∀ c, totalPages c 0 = none := fun c => by simp [totalPages, intDiv]
  refine ⟨?_, ?_, fun limit hl => GetSentMessages_no_panic env page limit w hl,
    handler_limit_ne_zero params, ?_⟩
  · intro h1 h2
    simp [service.GetSentMessages, repository.GetSentMessages, repository.GetTotalSentCount,
      hoff, h1, h2, htp]
  · intro r
    simp only [service.GetSentMessages, repository.GetSentMessages,
      repository.GetTotalSentCount, hoff, htp]
    repeat' split
    all_goals simp_all
  · exact GetSentMessages_no_panic env _ _ w (handler_limit_ne_zero params)

/-- C25, counterexample: page `2^58 + 1` with limit 64 on a table with one sent
row.  `(page - 1) * limit` is `2^64`, which `int` arithmetic wraps to 0: the
store is queried at offset 0 and the page that is returned holds the row. -/
theorem C25_counterexample_offset_wraps :
    ((288230376151711745 : Int) - 1) * 64 = 18446744073709551616 ∧
    pageOffset 288230376151711745 64 = 0 ∧
    (service.GetSentMessages (Example.env 1000 Example.answerAccepted) 288230376151711745 64
      (Example.oneSent (Example.env 1000 Example.answerAccepted))).2 =
      some (Except.ok
        { Messages := [toResponse Example.sentRow]
          Pagination :=
            { CurrentPage := 288230376151711745
              ItemsPerPage := 64
              TotalItems := 1
              TotalPages := 1 } }) :=
  ⟨by decide, by rfl, by rfl⟩

/-- C25, amended: for `limit ≥ 1` and `page ≥ 1` with `(page - 1) * limit` below
`2^63`, the offset the store is queried at is `(page - 1) * limit`; when both
store queries succeed the method returns the rows the store gives for that offset
and limit, and the pagination `CurrentPage = page`, `ItemsPerPage = limit`,
`TotalItems = totalCount`, `TotalPages = ⌈totalCount / limit⌉`; the number of
pages is that ceiling for every count from 0 below `2^63`: 11 for 105 and 10,
0 for no item. -/
theorem C25_pagination_without_overflow (env : Env) (page limit : Int) (w : World)
    (hp : 1 ≤ page) (hl : 1 ≤ limit) (hov : (page - 1) * limit < 2 ^ 63) :
    pageOffset page limit = (page - 1) * limit ∧
    (env.dbErr w.step = none → env.dbErr (w.step + 1) = none →
      repository.countSent w.store < 2 ^ 63 →
      (repository.GetSentMessages env (pageOffset page limit) limit w).2 =
        Except.ok (repository.selectSent ((page - 1) * limit).toNat limit.toNat w.store) ∧
      (service.GetSentMessages env page limit w).2 =
        some (Except.ok
          { Messages :=
              (repository.selectSent ((page - 1) * limit).toNat limit.toNat w.store).map
                toResponse
            Pagination :=
              { CurrentPage := page
                ItemsPerPage := limit
                TotalItems := repository.countSent w.store
                TotalPages := ⌈(repository.countSent w.store : ℚ) / (limit : ℚ)⌉ } })) ∧
    (∀ totalCount : Int, 0 ≤ totalCount → totalCount < 2 ^ 63 →
      totalPages totalCount limit = some ⌈(totalCount : ℚ) / (limit : ℚ)⌉) ∧
    totalPages 105 10 = some 11 ∧ totalPages 0 limit = some 0 := by
  have hoff := pageOffset_exact page limit hp hl hov
  have hoff0 : ¬ (page - 1) * limit < 0 := by
    have : 0 ≤ (page - 1) * limit := Int.mul_nonneg (by omega) (by omega)
    omega
  have hl0 : ¬ limit < 0 := by omega
  refine ⟨hoff, ?_, fun tc h0 h1 => totalPages_ceil tc limit h0 h1 hl, by decide, ?_⟩
  · intro h1 h2 hc
    have hcount : 0 ≤ repository.countSent w.store := by
      unfold repository.countSent
      exact Int.ofNat_nonneg _
    have hrepo : (repository.GetSentMessages env (pageOffset page limit) limit w).2 =
        Except.ok (repository.selectSent ((page - 1) * limit).toNat limit.toNat w.store) := by
      simp [repository.GetSentMessages, hoff, h1, hl0, hoff0]
    refine ⟨hrepo, ?_⟩
    simp [service.GetSentMessages, repository.GetSentMessages, repository.GetTotalSentCount,
      hoff, h1, h2, hl0, hoff0, totalPages_ceil _ limit hcount hc hl]
  · have := totalPages_ceil 0 limit (le_refl 0) (by decide) hl
    simpa using this

/-- Witness of C25: the first page of ten of a table with one sent row. -/
theorem C25_pagination_without_overflow_witness :
    pageOffset 1 10 = (1 - 1) * 10 ∧
    (service.GetSentMessages (Example.env 1000 Example.answerAccepted) 1 10
      (Example.oneSent (Example.env 1000 Example.answerAccepted))).2 =
      some (Except.ok
        { Messages :=
            (repository.selectSent ((1 - 1) * 10 : Int).toNat (10 : Int).toNat
              (Example.oneSent (Example.env 1000 Example.answerAccepted)).store).map toResponse
          Pagination :=
            { CurrentPage := 1
              ItemsPerPage := 10
              TotalItems := repository.countSent
                (Example.oneSent (Example.env 1000 Example.answerAccepted)).store
              TotalPages := ⌈(repository.countSent
                (Example.oneSent (Example.env 1000 Example.answerAccepted)).store : ℚ) /
                  ((10 : Int) : ℚ)⌉ } }) ∧
    totalPages 105 10 = some 11 :=
  have h := C25_pagination_without_overflow (Example.env 1000 Example.answerAccepted) 1 10
    (Example.oneSent (Example.env 1000 Example.answerAccepted)) (by decide) (by decide)
    (by decide)
  ⟨h.1, (h.2.1 rfl rfl (by decide)).2, h.2.2.2.1⟩

/-- C26, counterexample: the request built for message 1 has no header
`x-auth-key`; the key travels in the header `x-ins-auth-key`.  The same holds
of the request a tick sends. -/
theorem C26_counterexample_header_name :
    (buildRequest Example.cfg (Example.msg 1)).Get "x-auth-key" = none ∧
    (buildRequest Example.cfg (Example.msg 1)).Get "x-ins-auth-key" = some "test-auth-key" ∧
    (SendPendingMessages (Example.env 1000 Example.answerAccepted) Example.cfg
      (Example.onePending (Example.env 1000 Example.answerAccepted))).1.httpLog.map
        (fun r => (r.Get "x-auth-key", r.Get "x-ins-auth-key")) =
      [(none, some "test-auth-key")] :=
  ⟨by rfl, by rfl, by rfl⟩

/-- C26, amended: the request built for a message is a POST to the configured
webhook URL with the headers `Content-Type: application/json` and
`x-ins-auth-key: <configured key>` and no header `x-auth-key`, and with the
body whose field `to` is the recipient and whose field `content` is the
content of the message; `sendMessage` sends at most one request, which is this
one, and every request a tick sends is the one built for a pending row of the
table. -/
theorem C26_request_carries_x_ins_auth_key (env : Env) (cfg : config.Config)
    (msg : models.Message) (w : World) :
    (buildRequest cfg msg).Method = "POST" ∧
    (buildRequest cfg msg).URL = cfg.WebhookURL ∧
    (buildRequest cfg msg).Get "x-ins-auth-key" = some cfg.WebhookAuthKey ∧
    (buildRequest cfg msg).Get "Content-Type" = some "application/json" ∧
    (buildRequest cfg msg).Get "x-auth-key" = none ∧
    (buildRequest cfg msg).Body = { To := msg.PhoneNumber, Content := msg.Content } ∧
    ((sendMessage env cfg msg w).1.httpLog = w.httpLog ∨
      (sendMessage env cfg msg w).1.httpLog = w.httpLog ++ [buildRequest cfg msg]) ∧
    (∃ rs : List HttpRequest, (SendPendingMessages env cfg w).1.httpLog = w.httpLog ++ rs ∧
      ∀ r ∈ rs, ∃ m ∈ w.store, m.Status = api.MessageStatus.Pending ∧
        r = buildRequest cfg m) :=
  ⟨rfl, rfl, by rfl, by rfl, by rfl, rfl, sendMessage_httpLog env cfg msg w,
    SendPendingMessages_httpLog env cfg w⟩

/-- C28: the handler calls the service once, with a page that is at least 1 and
a limit between 1 and 100: the requested page when it is present and at least
1 and otherwise 1, the requested limit when it is present and between 1 and
100 and otherwise 20. -/
theorem C28_handler_bounds_page_and_limit (params : api.GetSentMessagesParams) :
    (∀ (α : Type) (svc : Int → Int → α),
      handler.GetSentMessages params svc =
        svc (handler.GetSentMessages params Prod.mk).1
          (handler.GetSentMessages params Prod.mk).2) ∧
    1 ≤ (handler.GetSentMessages params Prod.mk).1 ∧
    1 ≤ (handler.GetSentMessages params Prod.mk).2 ∧
    (handler.GetSentMessages params Prod.mk).2 ≤ 100 ∧
    (∀ p, params.Page = some p → 1 ≤ p → (handler.GetSentMessages params Prod.mk).1 = p) ∧
    (∀ p, params.Page = some p → p < 1 → (handler.GetSentMessages params Prod.mk).1 = 1) ∧
    (params.Page = none → (handler.GetSentMessages params Prod.mk).1 = 1) ∧
    (∀ l, params.Limit = some l → 1 ≤ l → l ≤ 100 →
      (handler.GetSentMessages params Prod.mk).2 = l) ∧
    (∀ l, params.Limit = some l → (l < 1 ∨ 100 < l) →
      (handler.GetSentMessages params Prod.mk).2 = 20) ∧
    (params.Limit = none → (handler.GetSentMessages params Prod.mk).2 = 20) := by
  obtain ⟨page, limit⟩ := params
  refine ⟨fun _ _ => rfl, ?_, ?_, ?_, ?_, ?_, ?_, ?_, ?_, ?_⟩
  · cases page with
    | none => simp [handler.GetSentMessages]
    | some p =>
      simp only [handler.GetSentMessages]
      split_ifs with h
      · exact h
      · decide
  · cases limit with
    | none => simp [handler.GetSentMessages]
    | some l =>
      simp only [handler.GetSentMessages]
      split_ifs with h
      · exact h.1
      · decide
  · cases limit with
    | none => simp [handler.GetSentMessages]
    | some l =>
      simp only [handler.GetSentMessages]
      split_ifs with h
      · exact h.2
      · decide
  · intro p hp h1
    simp only at hp
    subst hp
    simp [handler.GetSentMessages, h1]
  · intro p hp h1
    simp only at hp
    subst hp
    have : ¬ 1 ≤ p := by omega
    simp [handler.GetSentMessages, this]
  · intro hp
    simp only at hp
    subst hp
    rfl
  · intro l hl h1 h2
    simp only at hl
    subst hl
    simp [handler.GetSentMessages, h1, h2]
  · intro l hl h
    simp only at hl
    subst hl
    have : ¬ (1 ≤ l ∧ l ≤ 100) := by omega
    simp [handler.GetSentMessages, this]
  · intro hl
    simp only at hl
    subst hl
    rfl

/-- C27: the breaker admits the call, the endpoint answers 200 or 202, the status
update to `Sent` succeeds and the cache write returns an error.  Then
`sendMessage` returns nil; the only status update is the one to `Sent` with the
external id, and the row is updated accordingly; the cache write is logged with
its error; the breaker is given the outcome "success"; whatever the cache
answers, the result is nil and the world is the same up to the error noted in
the log of cache writes; a tick whose fetch succeeds returns nil; and
`sendMessage` makes a cache write only when it returns nil, one write for that
message. -/
theorem C27_cache_failure_changes_nothing_else (env : Env) (cfg : config.Config)
    (msg : models.Message) (w : World) (code : Int) (decoded : Option models.WebhookResponse)
    (e : Err)
    (hadm : (gobreaker.beforeRequest w.cb (env.clock w.step)).2.2 = none)
    (hnew : env.newRequestErr = none)
    (hhttp : env.http (w.step + 1) = HttpResult.response code decoded)
    (hcode : code = 200 ∨ code = 202)
    (hdb : env.dbErr (w.step + 4 + decodeReads decoded) = none)
    (hcache : env.cacheErr (w.step + 6 + decodeReads decoded) = some e) :
    (sendMessage env cfg msg w).2 = none ∧
    (sendMessage env cfg msg w).1.updates = w.updates ++
      [⟨msg.ID, api.MessageStatus.Sent,
        some (acceptedID msg decoded (env.clock (w.step + 2))), none⟩] ∧
    (sendMessage env cfg msg w).1.store =
      repository.execUpdate msg.ID api.MessageStatus.Sent
        (some (acceptedID msg decoded (env.clock (w.step + 2)))) none
        (some (env.clock (w.step + 2 + decodeReads decoded)))
        (env.clock (w.step + 3 + decodeReads decoded)) w.store ∧
    (sendMessage env cfg msg w).1.cacheLog = w.cacheLog ++
      [⟨"message:" ++ acceptedID msg decoded (env.clock (w.step + 2)), msg.ID,
        env.clock (w.step + 5 + decodeReads decoded), cacheTTL, some e⟩] ∧
    (sendMessage env cfg msg w).1.cb =
      gobreaker.afterRequest
        (gobreaker.currentState (gobreaker.beforeRequest w.cb (env.clock w.step)).1
          (env.clock (w.step + 7 + decodeReads decoded)))
        (gobreaker.beforeRequest w.cb (env.clock w.step)).2.1 true
        (env.clock (w.step + 8 + decodeReads decoded)) ∧
    (∀ answer : Nat → Option Err,
      (sendMessage { env with cacheErr := answer } cfg msg w).2 = none ∧
      (sendMessage { env with cacheErr := answer } cfg msg w).1 =
        { (sendMessage env cfg msg w).1 with
          cacheLog := w.cacheLog ++
            [⟨"message:" ++ acceptedID msg decoded (env.clock (w.step + 2)), msg.ID,
              env.clock (w.step + 5 + decodeReads decoded), cacheTTL,
              answer (w.step + 6 + decodeReads decoded)⟩] }) ∧
    (∀ (x : World) (messages : List models.Message),
      (repository.GetUnsentMessages env cfg.BatchSize x).2 = Except.ok messages →
      (SendPendingMessages env cfg x).2 = none) ∧
    (∀ (m : models.Message) (x : World),
      (sendMessage env cfg m x).1.cacheLog = x.cacheLog ∨
      ((sendMessage env cfg m x).2 = none ∧ ∃ entry : CacheSet, entry.msgID = m.ID ∧
        (sendMessage env cfg m x).1.cacheLog = x.cacheLog ++ [entry])) := by
  have h := sendMessage_accepted_ok env cfg msg w code decoded hadm hnew hhttp hcode hdb
  refine ⟨?_, ?_, ?_, ?_, ?_, ?_, ?_, fun m x => sendMessage_cacheLog env cfg m x⟩
  · rw [h]
  · rw [h]
  · rw [h]
  · rw [h, hcache]
  · rw [h]
  · intro answer
    have h2 := sendMessage_accepted_ok { env with cacheErr := answer } cfg msg w code decoded
      hadm hnew hhttp hcode hdb
    rw [h2, h]
    exact ⟨rfl, rfl⟩
  · intro x messages hx
    simp only [SendPendingMessages, hx]
    split <;> rfl

/-- Witness of C27: one pending message, an endpoint that answers 200 with the
id `msg-0`, and a cache that does not answer. -/
theorem C27_cache_failure_changes_nothing_else_witness :
    (sendMessage Example.envCacheDown Example.cfg (Example.msg 1)
      (Example.onePending Example.envCacheDown)).2 = none ∧
    (sendMessage Example.envCacheDown Example.cfg (Example.msg 1)
      (Example.onePending Example.envCacheDown)).1.updates =
      [⟨1, api.MessageStatus.Sent, some "msg-0", none⟩] ∧
    (sendMessage Example.envCacheDown Example.cfg (Example.msg 1)
      (Example.onePending Example.envCacheDown)).1.store.map
        (fun m => (m.ID, m.Status, m.MessageID)) = [(1, api.MessageStatus.Sent, some "msg-0")] ∧
    (sendMessage Example.envCacheDown Example.cfg (Example.msg 1)
      (Example.onePending Example.envCacheDown)).1.cacheLog.map (fun c => (c.key, c.err)) =
      [("message:msg-0",
        some (Err.text "dial tcp 127.0.0.1:9999: connect: connection refused"))] ∧
    CircuitBreaker.GetCounts (sendMessage Example.envCacheDown Example.cfg (Example.msg 1)
      (Example.onePending Example.envCacheDown)).1 = (1, 0) :=
  have h := C27_cache_failure_changes_nothing_else Example.envCacheDown Example.cfg
    (Example.msg 1) (Example.onePending Example.envCacheDown) 200
    (some { Message := "Success", MessageID := "msg-0" })
    (Err.text "dial tcp 127.0.0.1:9999: connect: connection refused")
    rfl rfl rfl (Or.inl rfl) rfl rfl
  ⟨h.1, h.2.1, by rfl, by rfl, by rfl⟩

/-- C29: the breaker admits the call, the endpoint answers 200 or 202 and the
status update to `Sent` returns the store error `e` (which is not one of the
sentinels of the breaker).  Then the request was sent; the closure returns the
error `failed to update message status: failed to update message status: <e>`
and the breaker is given the outcome "failure"; no cache write is made;
`sendMessage` issues a second status update, to `Failed`, with no external id
and that error text, and returns the error. -/
theorem C29_failed_sent_update_is_recorded_as_failure (env : Env) (cfg : config.Config)
    (msg : models.Message) (w : World) (code : Int) (decoded : Option models.WebhookResponse)
    (e : Err)
    (hadm : (gobreaker.beforeRequest w.cb (env.clock w.step)).2.2 = none)
    (hnew : env.newRequestErr = none)
    (hhttp : env.http (w.step + 1) = HttpResult.response code decoded)
    (hcode : code = 200 ∨ code = 202)
    (hdb : env.dbErr (w.step + 4 + decodeReads decoded) = some e)
    (hopen : e.Is Err.ErrOpenState = false) (hmany : e.Is Err.ErrTooManyRequests = false) :
    (sendMessage env cfg msg w).2 = some (sentUpdateError e) ∧
    (sentUpdateError e).Error =
      "failed to update message status: " ++ ("failed to update message status: " ++ e.Error) ∧
    (sendMessage env cfg msg w).1.httpLog = w.httpLog ++ [buildRequest cfg msg] ∧
    (sendMessage env cfg msg w).1.updates = w.updates ++
      [⟨msg.ID, api.MessageStatus.Sent,
          some (acceptedID msg decoded (env.clock (w.step + 2))), none⟩,
        ⟨msg.ID, api.MessageStatus.Failed, none, some (sentUpdateError e).Error⟩] ∧
    (sendMessage env cfg msg w).1.cacheLog = w.cacheLog ∧
    (CircuitBreaker.Execute env none (deliver env cfg msg)
      { w with attempts := w.attempts ++ [msg.ID] }).1.cb =
      gobreaker.afterRequest (gobreaker.beforeRequest w.cb (env.clock w.step)).1
        (gobreaker.beforeRequest w.cb (env.clock w.step)).2.1 false
        (env.clock (w.step + 5 + decodeReads decoded)) ∧
    (sendMessage env cfg msg w).1.cb =
      gobreaker.currentState
        (gobreaker.afterRequest (gobreaker.beforeRequest w.cb (env.clock w.step)).1
          (gobreaker.beforeRequest w.cb (env.clock w.step)).2.1 false
          (env.clock (w.step + 5 + decodeReads decoded)))
        (env.clock (w.step + 8 + decodeReads decoded)) := by
  have hE := sendMessage_accepted_fail env cfg msg w code decoded e hadm hnew hhttp hcode hdb
    hopen hmany
  have hstep : ∀ a b x, (repository.UpdateMessageStatus env msg.ID api.MessageStatus.Failed
      a b x).1.step = x.step + 2 := fun a b x => UpdateMessageStatus_failed_step env _ a b x
  refine ⟨?_, rfl, ?_, ?_, ?_, ?_, ?_⟩
  · simp only [sendMessage, hE]
  · simp only [sendMessage, hE]
    rw [GetState_frame env _ frame_httpLog, UpdateMessageStatus_httpLog]
  · simp only [sendMessage, hE]
    rw [GetState_frame env _ frame_updates, UpdateMessageStatus_updates]
    simp
  · simp only [sendMessage, hE]
    rw [GetState_frame env _ frame_cacheLog, UpdateMessageStatus_cacheLog]
  · rw [hE]
  · simp only [sendMessage, hE]
    rw [GetState_fst, hstep, UpdateMessageStatus_cb]
    have a : w.step + 6 + decodeReads decoded + 2 = w.step + 8 + decodeReads decoded := by omega
    simp only [a]

/-- Witness of C29: one pending message, an endpoint that answers 200 with the
id `msg-0`, and a store that rejects every statement. -/
theorem C29_failed_sent_update_is_recorded_as_failure_witness :
    (sendMessage Example.envStoreRejects Example.cfg (Example.msg 1)
      (Example.onePending Example.envStoreRejects)).2 =
      some (sentUpdateError (Err.text "connection refused")) ∧
    (sendMessage Example.envStoreRejects Example.cfg (Example.msg 1)
      (Example.onePending Example.envStoreRejects)).1.updates =
      [⟨1, api.MessageStatus.Sent, some "msg-0", none⟩,
        ⟨1, api.MessageStatus.Failed, none, some
          "failed to update message status: failed to update message status: connection refused"⟩] ∧
    (sendMessage Example.envStoreRejects Example.cfg (Example.msg 1)
      (Example.onePending Example.envStoreRejects)).1.cacheLog = [] ∧
    (sendMessage Example.envStoreRejects Example.cfg (Example.msg 1)
      (Example.onePending Example.envStoreRejects)).1.httpLog =
      [buildRequest Example.cfg (Example.msg 1)] ∧
    CircuitBreaker.GetCounts (sendMessage Example.envStoreRejects Example.cfg (Example.msg 1)
      (Example.onePending Example.envStoreRejects)).1 = (1, 1) :=
  have h := C29_failed_sent_update_is_recorded_as_failure Example.envStoreRejects Example.cfg
    (Example.msg 1) (Example.onePending Example.envStoreRejects) 200
    (some { Message := "Success", MessageID := "msg-0" }) (Err.text "connection refused")
    rfl rfl rfl (Or.inl rfl) rfl rfl rfl
  ⟨h.1, by rfl, h.2.2.2.2.1, h.2.2.1, by rfl⟩

/-- C30: for a breaker whose counts are cleared when it is Open, which holds of
the breaker `NewMessageService` builds and is preserved by every call of the
library on the breaker (in any order and at any times) and by `GetState`,
`GetHealth`, `sendMessage` and a tick: `GetCounts` is `(0, 0)` when the breaker
is Open and after a `GetState` that reports Open, and a health report whose
breaker state is Open has the status text "No requests yet".  The breaker
becomes Open with its counts cleared, and a call rejected in the Open state
leaves the breaker as it is. -/
theorem C30_open_breaker_has_cleared_counts (env : Env) (cfg : config.Config)
    (isRunning : Bool) (w : World) (h : OpenCleared w.cb) :
    (w.cb.state = State.StateOpen → CircuitBreaker.GetCounts w = (0, 0)) ∧
    ((CircuitBreaker.GetState env w).2 = api.HealthResponseCircuitBreakerState.Open →
      CircuitBreaker.GetCounts (CircuitBreaker.GetState env w).1 = (0, 0)) ∧
    ((GetHealth env isRunning w).2.CircuitBreakerState =
        api.HealthResponseCircuitBreakerState.Open →
      (GetHealth env isRunning w).2.CircuitBreakerStatus = "No requests yet") ∧
    (∀ (cb : gobreaker.CircuitBreaker) (now : Int), cb.state ≠ State.StateOpen →
      (setState cb State.StateOpen now).state = State.StateOpen ∧
      (setState cb State.StateOpen now).counts = Counts.clear) ∧
    (∀ (e now : Int), w.cb.state = State.StateOpen → w.cb.expiry = some e → now ≤ e →
      beforeRequest w.cb now = (w.cb, w.cb.generation, some Err.ErrOpenState)) ∧
    (∀ ops : List gobreaker.Op, OpenCleared (gobreaker.run ops w.cb)) ∧
    OpenCleared (CircuitBreaker.GetState env w).1.cb ∧
    OpenCleared (GetHealth env isRunning w).1.cb ∧
    (∀ msg : models.Message, OpenCleared (sendMessage env cfg msg w).1.cb) ∧
    OpenCleared (SendPendingMessages env cfg w).1.cb ∧
    (∀ store : List models.Message, OpenCleared (NewMessageService env cfg store).cb) := by
  have hget : ∀ x : World, OpenCleared x.cb →
      (CircuitBreaker.GetState env x).2 = api.HealthResponseCircuitBreakerState.Open →
      CircuitBreaker.GetCounts (CircuitBreaker.GetState env x).1 = (0, 0) := by
    intro x hx ho
    have hc := OpenCleared_currentState x.cb (env.clock x.step) hx (GetState_snd_open env x ho)
    rw [GetState_fst]
    show ((currentState x.cb (env.clock x.step)).counts.Requests,
      (currentState x.cb (env.clock x.step)).counts.TotalFailures) = (0, 0)
    rw [hc]
    rfl
  obtain ⟨e1, e2, e3⟩ := GetHealth_breaker env isRunning w
  refine ⟨?_, hget w h, ?_, ?_, ?_, fun ops => OpenCleared_run ops w.cb h,
    GetState_openCleared env w h, ?_, fun msg => sendMessage_openCleared env cfg msg w h,
    SendPendingMessages_openCleared env cfg w h, fun _ => OpenCleared_NewCircuitBreaker _ _⟩
  · intro hs
    show (w.cb.counts.Requests, w.cb.counts.TotalFailures) = (0, 0)
    rw [h hs]
    rfl
  · intro ho
    rw [e1] at ho
    rw [e2, hget { w with step := w.step + 1 + 1 } h ho]
    rfl
  · intro cb now hne
    unfold setState
    rw [if_neg hne]
    exact ⟨rfl, rfl⟩
  · intro e now hst hexp hnow
    exact beforeRequest_open w.cb now e hst hexp hnow
  · rw [e3]
    exact GetState_openCleared env { w with step := w.step + 1 + 1 } h

/-- Witness of C30: after a tick whose second failure has tripped the breaker,
two requests were sent, the breaker is Open, the counts are `(0, 0)` and the
health report says "No requests yet". -/
theorem C30_open_breaker_has_cleared_counts_witness :
    Example.tripped.httpLog.length = 2 ∧
    Example.tripped.cb.state = State.StateOpen ∧
    CircuitBreaker.GetCounts Example.tripped = (0, 0) ∧
    (GetHealth (Example.env 1000 Example.answer500) true Example.tripped).2.CircuitBreakerState =
      api.HealthResponseCircuitBreakerState.Open ∧
    (GetHealth (Example.env 1000 Example.answer500) true Example.tripped).2.CircuitBreakerStatus =
      "No requests yet" :=
  have h := C30_open_breaker_has_cleared_counts (Example.env 1000 Example.answer500)
    Example.cfg true Example.tripped (fun _ => by rfl)
  ⟨by rfl, by rfl, h.1 (by rfl), by rfl, h.2.2.1 (by rfl)⟩

end claims

end Messenger
